import Mathlib

/-!
Template rendering of machine configs: `pkg/controller/template/render.go`.

A shallow embedding of the overlay resolution, merge and serialisation code of
`render.go`, followed by the properties stated about it.

Conventions of the embedding

* Go strings are Lean `String`s.  Go compares strings byte-wise; on UTF-8 text
  that order coincides with the code-point order used here (`strLE`).
* A Go pointer that may be `nil` is an `Option`; dereferencing `nil` is a panic,
  modelled by the result `none` of `getPaths` and by an error of type `Panic` of
  the functions offered to templates.
* A Go `map[string]string` is a finite association list with pairwise distinct
  keys; the order of the list is the (unspecified) iteration order of the map.
* The file system, the template engine and the collaborators of package
  `ctrlcommon` are not part of `render.go`; they are the fields of `World`.
* `filepath.Walk` sorts the names of a directory before it visits them; `walkNode`
  is that walk over a file tree whose directories keep the order of their listing.
-/

namespace Render

/-! ## Constants -/

def filesDir : String := "files"
def unitsDir : String := "units"
def platformBase : String := "_base"
def platformOnPrem : String := "on-prem"
def sno : String := "sno"
def baseMasterKubeletMC : String := "01-master-kubelet"
def baseWorkerKubeletMC : String := "01-worker-kubelet"

/-- Modelled from the spec: the platform type constants of `configv1`
(`github.com/openshift/api/config/v1`), which `render.go` imports; their string
values are the ones whose lowercase forms the spec names ("baremetal", "aws"). -/
def AWSPlatformType : String := "AWS"
/-- Modelled from the spec: `configv1.AlibabaCloudPlatformType`. -/
def AlibabaCloudPlatformType : String := "AlibabaCloud"
/-- Modelled from the spec: `configv1.AzurePlatformType`. -/
def AzurePlatformType : String := "Azure"
/-- Modelled from the spec: `configv1.BareMetalPlatformType`. -/
def BareMetalPlatformType : String := "BareMetal"
/-- Modelled from the spec: `configv1.GCPPlatformType`. -/
def GCPPlatformType : String := "GCP"
/-- Modelled from the spec: `configv1.OpenStackPlatformType`. -/
def OpenStackPlatformType : String := "OpenStack"
/-- Modelled from the spec: `configv1.LibvirtPlatformType`. -/
def LibvirtPlatformType : String := "Libvirt"
/-- Modelled from the spec: `configv1.OvirtPlatformType`. -/
def OvirtPlatformType : String := "oVirt"
/-- Modelled from the spec: `configv1.VSpherePlatformType`. -/
def VSpherePlatformType : String := "VSphere"
/-- Modelled from the spec: `configv1.KubevirtPlatformType`. -/
def KubevirtPlatformType : String := "KubeVirt"
/-- Modelled from the spec: `configv1.PowerVSPlatformType`. -/
def PowerVSPlatformType : String := "PowerVS"
/-- Modelled from the spec: `configv1.NonePlatformType`. -/
def NonePlatformType : String := "None"
/-- Modelled from the spec: `configv1.NutanixPlatformType`. -/
def NutanixPlatformType : String := "Nutanix"
/-- Modelled from the spec: `configv1.SingleReplicaTopologyMode`. -/
def SingleReplicaTopologyMode : String := "SingleReplica"

/-! ## Configuration objects -/

/-- The load balancer setting inside a per-platform status block; `type` is its field
`Type`. -/
structure PlatformLoadBalancer where
  type : String
  deriving DecidableEq, Repr

/-- The fields that `render.go` reads of a per-platform status block; they are the same in
`configv1.BareMetalPlatformStatus`, `OvirtPlatformStatus`, `OpenStackPlatformStatus`,
`VSpherePlatformStatus` and `NutanixPlatformStatus`. -/
structure OnPremPlatformStatus where
  APIServerInternalIPs : List String := []
  IngressIPs : List String := []
  LoadBalancer : Option PlatformLoadBalancer := none
  deriving DecidableEq, Repr

/-- The part of `configv1.PlatformStatus` read by `render.go`; `type` is its field `Type`, the
other fields are the pointers to the per-platform status blocks. -/
structure PlatformStatus where
  type : String
  BareMetal : Option OnPremPlatformStatus := none
  Ovirt : Option OnPremPlatformStatus := none
  OpenStack : Option OnPremPlatformStatus := none
  VSphere : Option OnPremPlatformStatus := none
  Nutanix : Option OnPremPlatformStatus := none
  deriving DecidableEq, Repr

/-- The part of `configv1.InfrastructureStatus` read by the tier resolution. -/
structure InfrastructureStatus where
  PlatformStatus : Option PlatformStatus := none
  ControlPlaneTopology : String := ""
  deriving DecidableEq, Repr

/-- The object `configv1.Infrastructure`. -/
structure Infrastructure where
  Status : InfrastructureStatus := {}
  deriving DecidableEq, Repr

/-- The part of `mcfgv1.ControllerConfigSpec` read here. -/
structure ControllerConfigSpec where
  Infra : Option Infrastructure := none
  CloudProviderConfig : String := ""
  deriving DecidableEq, Repr

/-- The interface `featuregates.FeatureGateAccess`, as far as `render.go` uses it: the answer
of `cloudprovider.IsCloudProviderExternal(platformStatus, featureGateAccess)`. -/
structure FeatureGateAccess where
  IsCloudProviderExternal : PlatformStatus → Except String Bool

/-- The wrapper `RenderConfig` around `ControllerConfigSpec`; a nil `FeatureGateAccess` is
`none`. -/
structure RenderConfig where
  ControllerConfigSpec : ControllerConfigSpec := {}
  PullSecret : String := ""
  FeatureGateAccess : Option FeatureGateAccess := none

/-- Errors of the package, one constructor per `fmt.Errorf` site or collaborator. -/
inductive Err where
  | noPlatformType
  | platformBaseUnsupported
  | openDir (path : String)
  | notADirectory (path : String)
  | walk (path : String)
  | readFile (path : String)
  | render (path : String)
  | readDir (path : String)
  | transpile
  | machineConfig
  | nilDereference
  | invalidSkipKey
  | invalidURL
  | unknownScheme (u : String)
  | invalidPlatformIngressIP
  | invalidPlatformAPIServerInternalIP
  | emptyMessage
  deriving DecidableEq, Repr

/-- The ways in which a template function aborts instead of returning. -/
inductive Panic where
  | nilDereference
  | indexOutOfRange
  | featureGateAccessNil
  deriving DecidableEq, Repr

/-- A value of type `interface{}` as the accessors return it: `nil`, a string, or a slice
of strings. -/
inductive Value where
  | nil
  | str (s : String)
  | strs (l : List String)
  deriving DecidableEq, Repr

deriving instance DecidableEq for Except

/-! ## Platform classification -/

/-- ASCII `strings.ToLower`; it is only ever applied to the ASCII platform constants. -/
def stringsToLower (s : String) : String := ⟨s.data.map Char.toLower⟩

/-- The function `onPremPlatform`. -/
def onPremPlatform (platformString : String) : Bool :=
  if platformString = BareMetalPlatformType ∨ platformString = OvirtPlatformType
      ∨ platformString = OpenStackPlatformType ∨ platformString = VSpherePlatformType
      ∨ platformString = NutanixPlatformType then true
  else false

/-- The thirteen platform types listed in the third `case` of the switch. -/
def listedPlatformTypes : List String :=
  [AWSPlatformType, AlibabaCloudPlatformType, AzurePlatformType, BareMetalPlatformType,
   GCPPlatformType, OpenStackPlatformType, LibvirtPlatformType, OvirtPlatformType,
   VSpherePlatformType, KubevirtPlatformType, PowerVSPlatformType, NonePlatformType,
   NutanixPlatformType]

/-- The two nil checks at the head of `platformStringFromControllerConfigSpec`:
a nil `Infra` and a nil `PlatformStatus` are replaced in place by empty objects. -/
def fillPlatformStatus (ic : ControllerConfigSpec) : ControllerConfigSpec :=
  let infra : Infrastructure :=
    match ic.Infra with
    | none => { Status := {} }
    | some i => i
  let infra : Infrastructure :=
    match infra.Status.PlatformStatus with
    | none => { infra with Status := { infra.Status with PlatformStatus := some { type := "" } } }
    | some _ => infra
  { ic with Infra := some infra }

/-- The platform type read by the switch, after the nil checks. -/
def platformTypeOf (ic : ControllerConfigSpec) : String :=
  match (fillPlatformStatus ic).Infra with
  | none => ""
  | some i =>
    match i.Status.PlatformStatus with
    | none => ""
    | some ps => ps.type

/-- The function `platformStringFromControllerConfigSpec`: the returned pair is the
result and the configuration as the function leaves it (it writes through `ic`). -/
def platformStringFromControllerConfigSpec (ic : ControllerConfigSpec) :
    Except Err String × ControllerConfigSpec :=
  let ic1 := fillPlatformStatus ic
  let t := platformTypeOf ic
  if t = "" then (.error .noPlatformType, ic1)
  else if t = platformBase then (.error .platformBaseUnsupported, ic1)
  else if t ∈ listedPlatformTypes then (.ok (stringsToLower t), ic1)
  else (.ok (stringsToLower NonePlatformType), ic1)

/-- The function `getPaths`; `none` is the nil dereference of
`config.Infra.Status.PlatformStatus.Type`. -/
def getPaths (config : RenderConfig) (platformString : String) : Option (List String) :=
  match config.ControllerConfigSpec.Infra with
  | none => none
  | some infra =>
    match infra.Status.PlatformStatus with
    | none => none
    | some ps =>
      let platformBasedPaths := [platformBase]
      let platformBasedPaths :=
        if onPremPlatform ps.type then platformBasedPaths ++ [platformOnPrem]
        else platformBasedPaths
      let platformBasedPaths := platformBasedPaths ++ [platformString]
      let platformBasedPaths :=
        if infra.Status.ControlPlaneTopology = SingleReplicaTopologyMode then
          platformBasedPaths ++ [sno]
        else platformBasedPaths
      some platformBasedPaths

/-! ## Go maps and the sorted serialisation -/

/-- A Go `map[string]string`: finitely many entries with pairwise distinct keys.
The order of the entries stands for the iteration order, which Go leaves open. -/
abbrev GoMap := AList (fun _ : String => String)

/-- Lexicographic comparison `a ≤ b` of two character sequences by code point. -/
def lexLE : List Char → List Char → Bool
  | [], _ => true
  | _ :: _, [] => false
  | a :: as, b :: bs => decide (a.toNat < b.toNat) || (decide (a.toNat = b.toNat) && lexLE as bs)

/-- The order `a <= b` of Go strings. -/
def strLE (a b : String) : Prop := lexLE a.data b.data = true

instance strLE.decidable : DecidableRel strLE := fun a b =>
  inferInstanceAs (Decidable (lexLE a.data b.data = true))

/-- The strict order `a < b` of Go strings. -/
def strLT (a b : String) : Prop := strLE a b ∧ a ≠ b

instance strLT.decidable : DecidableRel strLT := fun a b =>
  inferInstanceAs (Decidable (strLE a b ∧ a ≠ b))

/-- The call `sort.Strings(ks)`: the ascending arrangement of `ks`.  (Any correct
sort of strings returns the same slice, equal strings being indistinguishable.) -/
def sortStrings (ks : List String) : List String := ks.insertionSort strLE

/-- The index expression `m[k]` of Go: the zero value `""` for an absent key. -/
def GoMap.index (m : GoMap) (k : String) : String := (m.lookup k).getD ""

/-- The closure `keySortVals` of `generateMachineConfigForName`. -/
def keySortVals (m : GoMap) : List String :=
  let ks := m.keys
  let ks := sortStrings ks
  ks.map (fun k => m.index k)

/-! ## The file system and the collaborators -/

/-- What `os.FileInfo` tells the code: base name, size, and whether it is a directory. -/
structure FileInfo where
  name : String
  size : Nat := 0
  isDir : Bool := false
  deriving DecidableEq, Repr

/-- The two kinds of failure of `os.Stat` that `existsDir` tells apart. -/
inductive StatErr where
  | notExist
  | other
  deriving DecidableEq, Repr

/-- One call of the walk function by `filepath.Walk`: the path, its file info, and the
error `filepath.Walk` reports for that path, if any. -/
structure WalkVisit where
  path : String
  info : FileInfo
  err : Option Err := none
  deriving DecidableEq, Repr

/-- The raw Ignition config handed back by the transpiler. -/
structure IgnConfig where
  raw : String
  deriving DecidableEq, Repr

/-- The fields of `mcfgv1.MachineConfigSpec`. -/
structure MachineConfigSpec where
  OSImageURL : String := ""
  Config : String := ""
  KernelArguments : List String := []
  Extensions : List String := []
  FIPS : Bool := false
  KernelType : String := ""
  deriving DecidableEq, Repr

/-- The object `mcfgv1.MachineConfig`. -/
structure MachineConfig where
  Name : String := ""
  Labels : List (String × String) := []
  Annotations : List (String × String) := []
  Spec : MachineConfigSpec := {}
  deriving DecidableEq, Repr

/-- Everything `render.go` calls but does not define: the file system (`os.Stat`,
`os.ReadFile`, the visits of `filepath.Walk` in its lexical order, `ctrlcommon.ReadDir`),
the execution of a template by `text/template` inside `renderTemplate`, and the builders
of package `ctrlcommon`. -/
structure World where
  Stat : String → Except StatErr FileInfo
  Walk : String → List WalkVisit
  ReadFile : String → Except Err String
  ReadDir : String → Except Err (List FileInfo)
  renderTemplate : RenderConfig → String → String → Except Err String
  TranspileCoreOSConfigToIgn : List String → List String → Except Err IgnConfig
  MachineConfigFromIgnConfig : String → String → IgnConfig → Except Err MachineConfig
  GetDefaultBaseImageContainer : ControllerConfigSpec → String

/-- The call `filepath.Join(elems...)`: empty elements are ignored, the others joined
by the separator.  The lexical clean-up of the joined path is left out: it removes doubled
separators and the elements `.` and `..`, none of which arises when the first element is a
clean path other than `.` and the root, and the other elements are plain names, as the
role, the listed names, the tier names and the two areas are. -/
def filepathJoin : List String → String
  | [] => ""
  | e :: es =>
    if e = "" then filepathJoin es
    else if filepathJoin es = "" then e
    else e ++ "/" ++ filepathJoin es

/-- A file tree as `filepath.Walk` finds it below a root: a file that is not a directory
with its size, a directory with its entries in the order in which the operating system
lists them (an order that is not specified and may change from run to run), a directory
whose names cannot be read, and a path on which `os.Lstat` fails. -/
inductive FsNode where
  | file (size : Nat)
  | dir (entries : List (String × FsNode))
  | unreadable
  | broken

/-- The first loop of the function `basename` of package `os`, on the reversed path:
trailing separators are removed, the first character of the path apart. -/
def dropTrailingSeparators : List Char → List Char
  | c :: d :: rest => if c = '/' then dropTrailingSeparators (d :: rest) else c :: d :: rest
  | l => l

/-- The function `basename` of package `os`, which names the `os.FileInfo` that `os.Lstat`
returns for a path: trailing separators are removed, and what follows the last separator
before the final character is kept. -/
def baseName (p : String) : String :=
  match dropTrailingSeparators p.data.reverse with
  | [] => ""
  | c :: rest => ⟨(c :: rest.takeWhile (fun x => x ≠ '/')).reverse⟩

mutual
/-- The function `walk` of package `path/filepath`, as the list of the calls of the walk
function it makes as long as no call returns an error.  A file that is not a directory is
visited alone.  For a directory, `readDirNames` reads the names and sorts them with
`sort.Strings`; the directory is visited, with the error of `readDirNames` if there is one,
and then each name in sorted order: `filepath.Join(path, name)` is looked up with `lstat`
and walked. -/
def walkNode (path name : String) : FsNode → List WalkVisit
  | .file size => [{ path := path, info := { name := name, size := size } }]
  | .dir entries =>
    { path := path, info := { name := name, isDir := true } } ::
      (sortStrings (entries.map Prod.fst)).flatMap
        (fun n => ((walkEntries path entries).lookup n).getD [])
  | .unreadable =>
    [{ path := path, info := { name := name, isDir := true }, err := some (.walk path) }]
  | .broken => [{ path := path, info := { name := name }, err := some (.walk path) }]
/-- The walks of the entries of the directory `path`, each under its name. -/
def walkEntries (path : String) : List (String × FsNode) → List (String × List WalkVisit)
  | [] => []
  | e :: rest => walkEntry path e :: walkEntries path rest
/-- The walk of one entry of the directory `path`, under its name. -/
def walkEntry (path : String) : String × FsNode → String × List WalkVisit
  | (n, child) => (n, walkNode (filepathJoin [path, n]) n child)
end

/-- The call `filepath.Walk(root, walkFn)` on a file system that holds the tree `tree root`
at `root`: the calls of `walkFn`, in order, as long as none returns an error. -/
def filepathWalk (tree : String → FsNode) (root : String) : List WalkVisit :=
  walkNode root (baseName root) (tree root)

/-- The function `existsDir`. -/
def existsDir (w : World) (path : String) : Except Err Bool :=
  match w.Stat path with
  | .error .notExist => .ok false
  | .error .other => .error (.openDir path)
  | .ok info => if !info.isDir then .error (.notADirectory path) else .ok true

/-- White space as defined by Unicode (`unicode.IsSpace`). -/
def isSpace (c : Char) : Bool :=
  let n := c.toNat
  (9 ≤ n && n ≤ 13) || n = 32 || n = 0x85 || n = 0xA0 || n = 0x1680
    || (0x2000 ≤ n && n ≤ 0x200a) || n = 0x2028 || n = 0x2029 || n = 0x202f
    || n = 0x205f || n = 0x3000

/-- The call `bytes.TrimSpace`: leading and trailing white space sliced off. -/
def trimSpace (s : String) : String :=
  ⟨((s.data.dropWhile isSpace).reverse.dropWhile isSpace).reverse⟩

/-! ## Fragment collection and merge -/

/-- The closure `walkFn` of `filterTemplates`, applied to one visit: the map as the
call leaves it, and the error it returns. -/
def walkFn (w : World) (config : RenderConfig) (toFilter : GoMap) (v : WalkVisit) :
    GoMap × Option Err :=
  match v.err with
  | some e => (toFilter, some e)
  | none =>
    if v.info.isDir then (toFilter, none)
    else if v.info.size = 0 then (toFilter.erase v.info.name, none)
    else
      match w.ReadFile v.path with
      | .error _ => (toFilter, some (.readFile v.path))
      | .ok filedata =>
        match w.renderTemplate config v.path filedata with
        | .error e => (toFilter, some e)
        | .ok renderedData =>
          if (trimSpace renderedData).length > 0 then
            (toFilter.insert v.info.name renderedData, none)
          else (toFilter, none)

/-- The loop of `filepath.Walk` over its visits: it stops at the first error the walk
function returns. -/
def walkVisits (w : World) (config : RenderConfig) : GoMap → List WalkVisit → GoMap × Option Err
  | toFilter, [] => (toFilter, none)
  | toFilter, v :: vs =>
    match walkFn w config toFilter v with
    | (m, some e) => (m, some e)
    | (m, none) => walkVisits w config m vs

/-- The function `filterTemplates`: the map as it is left, and the error returned. -/
def filterTemplates (w : World) (config : RenderConfig) (toFilter : GoMap) (path : String) :
    GoMap × Option Err :=
  walkVisits w config toFilter (w.Walk path)

/-- A visit re-adds the name `n`: it is a regular file named `n`, not zero-length, that is
read and rendered without error to content that is not blank after trimming. -/
def reAdds (w : World) (config : RenderConfig) (n : String) (u : WalkVisit) : Prop :=
  u.info.name = n ∧ u.err = none ∧ u.info.isDir = false ∧ u.info.size ≠ 0 ∧
    ∃ data rendered, w.ReadFile u.path = .ok data ∧
      w.renderTemplate config u.path data = .ok rendered ∧ (trimSpace rendered).length > 0

/-- The two loops of `generateMachineConfigForName` over `platformBasedPaths` that keep the
directories that exist: `mk dir` is the joined path, `platformDirs` the list so far. -/
def collectDirs (w : World) (mk : String → String) :
    List String → List String → Except Err (List String)
  | [], platformDirs => .ok platformDirs
  | dir :: rest, platformDirs =>
    match existsDir w (mk dir) with
    | .error e => .error e
    | .ok false => collectDirs w mk rest platformDirs
    | .ok true => collectDirs w mk rest (platformDirs ++ [mk dir])

/-- Lines 259 to 287 of `generateMachineConfigForName`: the list `platformDirs`, and the
flag `*commonAdded` as it is left. -/
def platformDirsOf (w : World) (platformBasedPaths : List String) (templateDir path : String)
    (commonAdded : Bool) : Except Err (List String) × Bool :=
  if !commonAdded then
    match collectDirs w (fun dir => filepathJoin [templateDir, "common", dir])
        platformBasedPaths [] with
    | .error e => (.error e, commonAdded)
    | .ok platformDirs =>
      (collectDirs w (fun dir => filepathJoin [path, dir]) platformBasedPaths platformDirs, true)
  else
    (collectDirs w (fun dir => filepathJoin [path, dir]) platformBasedPaths [], commonAdded)

/-- One of the two like blocks in the body of the loop over `platformDirs`: the call
`existsDir(p)`, and `filterTemplates(m, p, config)` when the directory exists. -/
def mergeArea (w : World) (config : RenderConfig) (m : GoMap) (p : String) : Except Err GoMap :=
  match existsDir w p with
  | .error e => .error e
  | .ok false => .ok m
  | .ok true =>
    match filterTemplates w config m p with
    | (_, some e) => .error e
    | (m, none) => .ok m

/-- Lines 289 to 314 of `generateMachineConfigForName`: the loop over `platformDirs` that
fills the maps `files` and `units`, the area `files` of a tier before its area `units`. -/
def mergeTiers (w : World) (config : RenderConfig) :
    List String → GoMap → GoMap → Except Err (GoMap × GoMap)
  | [], files, units => .ok (files, units)
  | platformDir :: rest, files, units =>
    match mergeArea w config files (filepathJoin [platformDir, filesDir]) with
    | .error e => .error e
    | .ok files =>
      match mergeArea w config units (filepathJoin [platformDir, unitsDir]) with
      | .error e => .error e
      | .ok units => mergeTiers w config rest files units

/-- Lines 254 to 333 of `generateMachineConfigForName`: the two sequences handed to the
transpiler, and the flag `*commonAdded` as it is left.  The configuration used after the
first call is the one `platformStringFromControllerConfigSpec` has written through. -/
def resolveSequences (w : World) (config : RenderConfig) (templateDir path : String)
    (commonAdded : Bool) : Except Err (List String × List String) × Bool :=
  match platformStringFromControllerConfigSpec config.ControllerConfigSpec with
  | (.error e, _) => (.error e, commonAdded)
  | (.ok platformString, ic) =>
    let config := { config with ControllerConfigSpec := ic }
    match getPaths config platformString with
    | none => (.error .nilDereference, commonAdded)
    | some platformBasedPaths =>
      match platformDirsOf w platformBasedPaths templateDir path commonAdded with
      | (.error e, commonAdded) => (.error e, commonAdded)
      | (.ok platformDirs, commonAdded) =>
        match mergeTiers w config platformDirs ∅ ∅ with
        | .error e => (.error e, commonAdded)
        | .ok (files, units) => (.ok (keySortVals files, keySortVals units), commonAdded)

/-- The function `generateMachineConfigForName`: its result, and the flag `*commonAdded`
as it is left.  It writes through `config` only when it fails on the platform type. -/
def generateMachineConfigForName (w : World) (config : RenderConfig)
    (role name templateDir path : String) (commonAdded : Bool) :
    Except Err MachineConfig × Bool :=
  match resolveSequences w config templateDir path commonAdded with
  | (.error e, commonAdded) => (.error e, commonAdded)
  | (.ok (files, units), commonAdded) =>
    match w.TranspileCoreOSConfigToIgn files units with
    | .error _ => (.error .transpile, commonAdded)
    | .ok ignCfg =>
      match w.MachineConfigFromIgnConfig role name ignCfg with
      | .error _ => (.error .machineConfig, commonAdded)
      | .ok mcfg =>
        (.ok { mcfg with Spec := { mcfg.Spec with
                OSImageURL := w.GetDefaultBaseImageContainer
                  (platformStringFromControllerConfigSpec config.ControllerConfigSpec).2 } },
          commonAdded)

/-- The function `updateMCwithDefaultCgroupsVersion`. -/
def updateMCwithDefaultCgroupsVersion (mc : MachineConfig) : MachineConfig :=
  let kernelArgsv1 := ["systemd.unified_cgroup_hierarchy=0", "systemd.legacy_systemd_cgroup_controller=1"]
  let kernelArgsv2 := ["systemd.unified_cgroup_hierarchy=1", "cgroup_no_v1=\"all\"", "psi=1"]
  let adjustedKernelArgs : List String :=
    mc.Spec.KernelArguments.foldl
      (fun acc arg => if !(decide (arg ∈ kernelArgsv2)) then acc ++ [arg] else acc) []
  let adjustedKernelArgs : List String :=
    kernelArgsv1.foldl
      (fun acc arg => if !(decide (arg ∈ acc)) then acc ++ [arg] else acc) adjustedKernelArgs
  { mc with Spec := { mc.Spec with KernelArguments := adjustedKernelArgs } }

/-- The first lines of `GenerateMachineConfigsForRole`: the directory name used for a role. -/
def rolePathOf (role : String) : String :=
  if role ≠ "worker" ∧ role ≠ "master" then "worker" else role

/-- The loop of `GenerateMachineConfigsForRole` over the entries of the role directory;
`commonAdded` and `cfgs` are the loop's variables. -/
def roleLoop (w : World) (config : RenderConfig) (role templateDir path : String) :
    List FileInfo → Bool → List MachineConfig → Except Err (List MachineConfig)
  | [], _, cfgs => .ok cfgs
  | info :: rest, commonAdded, cfgs =>
    if !info.isDir then roleLoop w config role templateDir path rest commonAdded cfgs
    else
      let name := info.name
      let namePath := filepathJoin [path, name]
      match generateMachineConfigForName w config role name templateDir namePath commonAdded with
      | (.error e, _) => .error e
      | (.ok nameConfig, commonAdded) =>
        let nameConfig :=
          if name = baseMasterKubeletMC ∨ name = baseWorkerKubeletMC then
            updateMCwithDefaultCgroupsVersion nameConfig
          else nameConfig
        roleLoop w config role templateDir path rest commonAdded (cfgs ++ [nameConfig])

/-- The function `GenerateMachineConfigsForRole`. -/
def GenerateMachineConfigsForRole (w : World) (config : RenderConfig)
    (role templateDir : String) : Except Err (List MachineConfig) :=
  let rolePath := rolePathOf role
  let path := filepathJoin [templateDir, rolePath]
  match w.ReadDir path with
  | .error e => .error e
  | .ok infos => roleLoop w config role templateDir path infos false []


/-! ## Template functions -/

/-- Modelled from the spec: `configv1.LoadBalancerTypeOpenShiftManagedDefault`. -/
def LoadBalancerTypeOpenShiftManagedDefault : String := "OpenShiftManagedDefault"

/-- The class `[_a-z]` of the expression `skipKeyValidate`. -/
def isSkipKeyStart (c : Char) : Bool :=
  c = '_' || ('a'.toNat ≤ c.toNat && c.toNat ≤ 'z'.toNat)

/-- The class `\w` of Go regular expressions: `[0-9A-Za-z_]`. -/
def isWordChar (c : Char) : Bool :=
  ('0'.toNat ≤ c.toNat && c.toNat ≤ '9'.toNat) || ('A'.toNat ≤ c.toNat && c.toNat ≤ 'Z'.toNat)
    || c = '_' || ('a'.toNat ≤ c.toNat && c.toNat ≤ 'z'.toNat)

/-- The call `skipKeyValidate.MatchString(key)` for the expression `^[_a-z]\w*$`; without
the flag `m` the anchors match at the beginning and at the end of the text only. -/
def skipKeyValidate (key : String) : Bool :=
  match key.data with
  | [] => false
  | c :: cs => isSkipKeyStart c && cs.all isWordChar

/-- The function `skipMissing`. -/
def skipMissing (key : String) : Except Err String :=
  if !skipKeyValidate key then .error .invalidSkipKey
  else .ok ("\x7b\x7b." ++ key ++ "\x7d\x7d")

/-- The fields of `url.URL` that `urlPort` reads. -/
structure URL where
  Scheme : String := ""
  Host : String := ""
  deriving DecidableEq, Repr

/-- The split of a host at its last colon: the part before it and the part after it. -/
def lastColon (host : List Char) : Option (List Char × List Char) :=
  match host.reverse.dropWhile (fun c => c != ':') with
  | [] => none
  | _ :: before => some (before.reverse, (host.reverse.takeWhile (fun c => c != ':')).reverse)

/-- The method `Port` of `url.URL`: the part of `Host` after the last colon when it consists
of digits only, and the empty string otherwise. -/
def URL.Port (u : URL) : String :=
  match lastColon u.Host.data with
  | none => ""
  | some (_, port) =>
    if port.all (fun c => '0'.toNat ≤ c.toNat && c.toNat ≤ '9'.toNat) then ⟨port⟩ else ""

/-- The function `urlPort`; `parse` is `url.Parse` of the standard library. -/
def urlPort (parse : String → Except String URL) (u : String) : Except Err String :=
  match parse u with
  | .error _ => .error .invalidURL
  | .ok parsed =>
    let port := parsed.Port
    if port ≠ "" then .ok port
    else if parsed.Scheme = "https" then .ok "443"
    else if parsed.Scheme = "http" then .ok "80"
    else .error (.unknownScheme u)

/-- The function `cloudProvider`. -/
def cloudProvider (cfg : RenderConfig) : Except Panic (Except Err String) :=
  match cfg.ControllerConfigSpec.Infra with
  | none => .error .nilDereference
  | some infra =>
    match infra.Status.PlatformStatus with
    | some ps =>
      match cfg.FeatureGateAccess with
      | none => .error .featureGateAccessNil
      | some featureGateAccess =>
        match featureGateAccess.IsCloudProviderExternal ps with
        | .ok true => .ok (.ok "external")
        | _ =>
          if ps.type = AWSPlatformType ∨ ps.type = AzurePlatformType
              ∨ ps.type = OpenStackPlatformType ∨ ps.type = VSpherePlatformType then
            .ok (.ok (stringsToLower ps.type))
          else if ps.type = GCPPlatformType then .ok (.ok "gce")
          else .ok (.ok "")
    | none => .ok (.ok "")

/-- The function `cloudConfigFlag`: its result, and the configuration as the function leaves
it (the two nil checks write through `cfg`). -/
def cloudConfigFlag (cfg : RenderConfig) : Except Panic String × ControllerConfigSpec :=
  if cfg.ControllerConfigSpec.CloudProviderConfig = "" then (.ok "", cfg.ControllerConfigSpec)
  else
    let ic := fillPlatformStatus cfg.ControllerConfigSpec
    match cfg.FeatureGateAccess with
    | none => (.error .featureGateAccessNil, ic)
    | some featureGateAccess =>
      match ic.Infra with
      | none => (.error .nilDereference, ic)
      | some infra =>
        match infra.Status.PlatformStatus with
        | none => (.error .nilDereference, ic)
        | some ps =>
          match featureGateAccess.IsCloudProviderExternal ps with
          | .ok true => (.ok "", ic)
          | _ =>
            let flag := "--cloud-config=/etc/kubernetes/cloud.conf"
            if ps.type = AWSPlatformType ∨ ps.type = AzurePlatformType
                ∨ ps.type = GCPPlatformType ∨ ps.type = OpenStackPlatformType
                ∨ ps.type = VSpherePlatformType then (.ok flag, ic)
            else (.ok "", ic)

/-- The function `onPremPlatformShortName`. -/
def onPremPlatformShortName (cfg : RenderConfig) : Except Panic String :=
  match cfg.ControllerConfigSpec.Infra with
  | none => .error .nilDereference
  | some infra =>
    match infra.Status.PlatformStatus with
    | some ps =>
      if ps.type = BareMetalPlatformType then .ok "kni"
      else if ps.type = OvirtPlatformType then .ok "ovirt"
      else if ps.type = OpenStackPlatformType then .ok "openstack"
      else if ps.type = VSpherePlatformType then .ok "vsphere"
      else if ps.type = NutanixPlatformType then .ok "nutanix"
      else .ok ""
    | none => .ok ""

/-- The expression `block.IPs[0]` behind a pointer `block`: a nil pointer and an empty slice
both abort. -/
def firstOf (block : Option OnPremPlatformStatus) (ips : OnPremPlatformStatus → List String) :
    Except Panic (Except Err Value) :=
  match block with
  | none => .error .nilDereference
  | some b =>
    match ips b with
    | [] => .error .indexOutOfRange
    | ip :: _ => .ok (.ok (.str ip))

/-- The expression `block.IPs` behind a pointer `block`. -/
def allOf (block : Option OnPremPlatformStatus) (ips : OnPremPlatformStatus → List String) :
    Except Panic (Except Err Value) :=
  match block with
  | none => .error .nilDereference
  | some b => .ok (.ok (.strs (ips b)))

/-- The function `onPremPlatformIngressIP`. -/
def onPremPlatformIngressIP (cfg : RenderConfig) : Except Panic (Except Err Value) :=
  match cfg.ControllerConfigSpec.Infra with
  | none => .error .nilDereference
  | some infra =>
    match infra.Status.PlatformStatus with
    | some ps =>
      if ps.type = BareMetalPlatformType then firstOf ps.BareMetal (fun b => b.IngressIPs)
      else if ps.type = OvirtPlatformType then firstOf ps.Ovirt (fun b => b.IngressIPs)
      else if ps.type = OpenStackPlatformType then firstOf ps.OpenStack (fun b => b.IngressIPs)
      else if ps.type = VSpherePlatformType then
        match ps.VSphere with
        | some vsphere =>
          if vsphere.IngressIPs.length > 0 then firstOf ps.VSphere (fun b => b.IngressIPs)
          else .ok (.ok .nil)
        | none => .ok (.ok .nil)
      else if ps.type = NutanixPlatformType then firstOf ps.Nutanix (fun b => b.IngressIPs)
      else .ok (.error .invalidPlatformIngressIP)
    | none => .ok (.error .emptyMessage)

/-- The function `onPremPlatformIngressIPs`. -/
def onPremPlatformIngressIPs (cfg : RenderConfig) : Except Panic (Except Err Value) :=
  match cfg.ControllerConfigSpec.Infra with
  | none => .error .nilDereference
  | some infra =>
    match infra.Status.PlatformStatus with
    | some ps =>
      if ps.type = BareMetalPlatformType then allOf ps.BareMetal (fun b => b.IngressIPs)
      else if ps.type = OvirtPlatformType then allOf ps.Ovirt (fun b => b.IngressIPs)
      else if ps.type = OpenStackPlatformType then allOf ps.OpenStack (fun b => b.IngressIPs)
      else if ps.type = VSpherePlatformType then
        match ps.VSphere with
        | some _ => allOf ps.VSphere (fun b => b.IngressIPs)
        | none => .ok (.ok (.strs []))
      else if ps.type = NutanixPlatformType then allOf ps.Nutanix (fun b => b.IngressIPs)
      else .ok (.error .invalidPlatformIngressIP)
    | none => .ok (.error .emptyMessage)

/-- The function `onPremPlatformAPIServerInternalIP`. -/
def onPremPlatformAPIServerInternalIP (cfg : RenderConfig) : Except Panic (Except Err Value) :=
  match cfg.ControllerConfigSpec.Infra with
  | none => .error .nilDereference
  | some infra =>
    match infra.Status.PlatformStatus with
    | some ps =>
      if ps.type = BareMetalPlatformType then
        firstOf ps.BareMetal (fun b => b.APIServerInternalIPs)
      else if ps.type = OvirtPlatformType then
        firstOf ps.Ovirt (fun b => b.APIServerInternalIPs)
      else if ps.type = OpenStackPlatformType then
        firstOf ps.OpenStack (fun b => b.APIServerInternalIPs)
      else if ps.type = VSpherePlatformType then
        match ps.VSphere with
        | some vsphere =>
          if vsphere.APIServerInternalIPs.length > 0 then
            firstOf ps.VSphere (fun b => b.APIServerInternalIPs)
          else .ok (.ok .nil)
        | none => .ok (.ok .nil)
      else if ps.type = NutanixPlatformType then
        firstOf ps.Nutanix (fun b => b.APIServerInternalIPs)
      else .ok (.error .invalidPlatformAPIServerInternalIP)
    | none => .ok (.error .emptyMessage)

/-- The function `onPremPlatformAPIServerInternalIPs`. -/
def onPremPlatformAPIServerInternalIPs (cfg : RenderConfig) : Except Panic (Except Err Value) :=
  match cfg.ControllerConfigSpec.Infra with
  | none => .error .nilDereference
  | some infra =>
    match infra.Status.PlatformStatus with
    | some ps =>
      if ps.type = BareMetalPlatformType then
        allOf ps.BareMetal (fun b => b.APIServerInternalIPs)
      else if ps.type = OvirtPlatformType then
        allOf ps.Ovirt (fun b => b.APIServerInternalIPs)
      else if ps.type = OpenStackPlatformType then
        allOf ps.OpenStack (fun b => b.APIServerInternalIPs)
      else if ps.type = VSpherePlatformType then
        match ps.VSphere with
        | some _ => allOf ps.VSphere (fun b => b.APIServerInternalIPs)
        | none => .ok (.ok (.strs []))
      else if ps.type = NutanixPlatformType then
        allOf ps.Nutanix (fun b => b.APIServerInternalIPs)
      else .ok (.error .invalidPlatformAPIServerInternalIP)
    | none => .ok (.error .emptyMessage)

/-- The block shared by four cases of `isOpenShiftManagedDefaultLB`: with the per-platform
block present, compare the load balancer type, the default when none is set; `none` when the
block is nil and the case is left without a result. -/
def lbOfBlock (block : Option OnPremPlatformStatus) : Option Bool :=
  match block with
  | some b =>
    let lbType :=
      match b.LoadBalancer with
      | some lb => lb.type
      | none => LoadBalancerTypeOpenShiftManagedDefault
    some (decide (lbType = LoadBalancerTypeOpenShiftManagedDefault))
  | none => none

/-- The function `isOpenShiftManagedDefaultLB`. -/
def isOpenShiftManagedDefaultLB (cfg : RenderConfig) : Except Panic Bool :=
  match cfg.ControllerConfigSpec.Infra with
  | none => .error .nilDereference
  | some infra =>
    match infra.Status.PlatformStatus with
    | some ps =>
      if ps.type = BareMetalPlatformType then .ok ((lbOfBlock ps.BareMetal).getD false)
      else if ps.type = OvirtPlatformType then .ok ((lbOfBlock ps.Ovirt).getD false)
      else if ps.type = OpenStackPlatformType then .ok ((lbOfBlock ps.OpenStack).getD false)
      else if ps.type = VSpherePlatformType then
        match ps.VSphere with
        | some vsphere =>
          if vsphere.APIServerInternalIPs.length = 0 then .ok false
          else .ok ((lbOfBlock ps.VSphere).getD false)
        | none => .ok false
      else if ps.type = NutanixPlatformType then .ok ((lbOfBlock ps.Nutanix).getD false)
      else .ok true
    | none => .ok false

/-- The split of a text at its first `"://"`: what stands before it (after `scheme`, the
characters already passed), and what stands after it. -/
def splitScheme (scheme : List Char) : List Char → Option (List Char × List Char)
  | [] => none
  | c :: rest =>
    if "://".data.isPrefixOf (c :: rest) then some (scheme, (c :: rest).drop 3)
    else splitScheme (scheme ++ [c]) rest

/-- A model of `url.Parse` on texts of the form `scheme://host`, the host possibly followed
by a colon and a port and by a path, a query or a fragment, and holding no user name: the
scheme is the text before the first `"://"` in lower case, the host what follows up to the
first `/`, `?` or `#`. -/
def exampleParse (u : String) : Except String URL :=
  match splitScheme [] u.data with
  | some (scheme, rest) =>
    .ok { Scheme := stringsToLower ⟨scheme⟩,
          Host := ⟨rest.takeWhile (fun c => c ≠ '/' ∧ c ≠ '?' ∧ c ≠ '#')⟩ }
  | none => .error "missing protocol scheme"

/-! ## Reference notions used to state the properties -/

/-- What one visit does to the merge set: `none` leaves it as it is, `some none` erases the
entry of the visit's name, `some (some c)` stores `c` under the visit's name. -/
def effect (w : World) (config : RenderConfig) (v : WalkVisit) : Option (Option String) :=
  match v.err with
  | some _ => none
  | none =>
    if v.info.isDir then none
    else if v.info.size = 0 then some none
    else
      match w.ReadFile v.path with
      | .error _ => none
      | .ok filedata =>
        match w.renderTemplate config v.path filedata with
        | .error _ => none
        | .ok renderedData =>
          if (trimSpace renderedData).length > 0 then some (some renderedData) else none

/-- The lookup function of a merge set after an effect on the name `name`. -/
def applyEffect (name : String) (e : Option (Option String)) (g : String → Option String) :
    String → Option String :=
  match e with
  | none => g
  | some o => fun k => if k = name then o else g k

/-- The lookup function of a merge set after one visit. -/
def stepLookup (w : World) (config : RenderConfig) (g : String → Option String)
    (v : WalkVisit) : String → Option String :=
  applyEffect v.info.name (effect w config v) g

/-- Two visits do not collide: one of them is a directory, or their base names differ. -/
def noCollision (x y : WalkVisit) : Prop :=
  x.info.isDir = true ∨ y.info.isDir = true ∨ x.info.name ≠ y.info.name

/-- The visits made in the area `area` (`files` or `units`) of the tier directories `dirs`,
in processing order: tier by tier, and within a tier in walk order. -/
def areaVisits (w : World) (area : String) (dirs : List String) : List WalkVisit :=
  dirs.flatMap (fun platformDir =>
    match existsDir w (filepathJoin [platformDir, area]) with
    | .ok true => w.Walk (filepathJoin [platformDir, area])
    | _ => [])

/-- The per-platform status block that belongs to the platform type, for the five on-prem
platform types. -/
def blockOf (ps : PlatformStatus) : Option OnPremPlatformStatus :=
  if ps.type = BareMetalPlatformType then ps.BareMetal
  else if ps.type = OvirtPlatformType then ps.Ovirt
  else if ps.type = OpenStackPlatformType then ps.OpenStack
  else if ps.type = VSpherePlatformType then ps.VSphere
  else if ps.type = NutanixPlatformType then ps.Nutanix
  else none

/-- A configuration of the platform type `t` in which no per-platform status block is set. -/
def absentBlockConfig (t : String) : RenderConfig :=
  { ControllerConfigSpec := { Infra := some { Status := { PlatformStatus := some { type := t } } } } }

/-- A platform status of the type `t` in which every per-platform status block is set to
`b`. -/
def blockStatus (t : String) (b : OnPremPlatformStatus) : PlatformStatus :=
  { type := t, BareMetal := some b, Ovirt := some b, OpenStack := some b, VSphere := some b,
    Nutanix := some b }

/-- The infrastructure object with the platform status `blockStatus t b`. -/
def blockInfra (t : String) (b : OnPremPlatformStatus) : Infrastructure :=
  { Status := { PlatformStatus := some (blockStatus t b) } }

/-- A configuration with the platform status `blockStatus t b`. -/
def blockConfig (t : String) (b : OnPremPlatformStatus) : RenderConfig :=
  { ControllerConfigSpec := { Infra := some (blockInfra t b) } }

/-- A feature gate accessor whose query reports `external`. -/
def gateAnswering (external : Bool) : FeatureGateAccess :=
  { IsCloudProviderExternal := fun _ => .ok external }

/-- A configuration of the platform type `t` with a cloud provider configuration, and with
the feature gate accessor `fga`. -/
def cloudConfig (t : String) (fga : Option FeatureGateAccess) : RenderConfig :=
  { ControllerConfigSpec :=
      { Infra := some { Status := { PlatformStatus := some { type := t } } },
        CloudProviderConfig := "cloud.conf" },
    FeatureGateAccess := fga }

/-- A visit is a zero-length fragment: a regular file of size zero, visited without error. -/
def isZeroLength (v : WalkVisit) : Bool :=
  v.err.isNone && !v.info.isDir && decide (v.info.size = 0)

/-- The content a visit renders to, when it is a regular file that is not zero-length, is
visited, read and rendered without error, and whose rendered content is not blank after
trimming; `none` otherwise. -/
def renderedContent (w : World) (config : RenderConfig) (v : WalkVisit) : Option String :=
  if v.err.isNone && !v.info.isDir && !decide (v.info.size = 0) then
    match w.ReadFile v.path with
    | .ok filedata =>
      match w.renderTemplate config v.path filedata with
      | .ok renderedData =>
        if (trimSpace renderedData).length > 0 then some renderedData else none
      | .error _ => none
    | .error _ => none
  else none

/-- A visit counts for the name `n`: it is named `n` and is either zero-length or renders to
content that is not blank. -/
def countsFor (w : World) (config : RenderConfig) (n : String) (v : WalkVisit) : Bool :=
  decide (v.info.name = n) && (isZeroLength v || (renderedContent w config v).isSome)

/-- The reference semantics of the merge: among the visits that count for `n`, in processing
order, the last one decides; `n` is absent when there is none or the last one is zero-length,
and is mapped to the rendered content of the last one otherwise. -/
def referenceMerge (w : World) (config : RenderConfig) (visits : List WalkVisit)
    (n : String) : Option String :=
  match (visits.filter (countsFor w config n)).getLast? with
  | none => none
  | some v => if isZeroLength v then none else renderedContent w config v

/-- The common tier directories that exist, in tier order. -/
def commonTierDirs (w : World) (paths : List String) (templateDir : String) : List String :=
  (paths.filter (fun d => decide
      (existsDir w (filepathJoin [templateDir, "common", d]) = .ok true))).map
    (fun dir => filepathJoin [templateDir, "common", dir])

/-- The tier directories of a role and name that exist, in tier order; `path` is the
directory of the name. -/
def ownTierDirs (w : World) (paths : List String) (path : String) : List String :=
  (paths.filter (fun d => decide (existsDir w (filepathJoin [path, d]) = .ok true))).map
    (fun dir => filepathJoin [path, dir])

/-- Every directory of the tree holds pairwise distinct names, as the directories of a file
system do. -/
inductive DistinctNames : FsNode → Prop
  | file (size : Nat) : DistinctNames (.file size)
  | unreadable : DistinctNames .unreadable
  | broken : DistinctNames .broken
  | dir (entries : List (String × FsNode)) :
      (entries.map Prod.fst).Nodup → (∀ e ∈ entries, DistinctNames e.2) →
      DistinctNames (.dir entries)

/-- The same files listed in another order: the second tree is obtained from the first by
rearranging, any number of times, the entries of a directory at any depth. -/
inductive Relisted : FsNode → FsNode → Prop
  | refl (t : FsNode) : Relisted t t
  | trans {a b c : FsNode} : Relisted a b → Relisted b c → Relisted a c
  | perm (entries entries' : List (String × FsNode)) :
      entries.Perm entries' → Relisted (.dir entries) (.dir entries')
  | child (pre post : List (String × FsNode)) (n : String) (c c' : FsNode) :
      Relisted c c' →
      Relisted (.dir (pre ++ (n, c) :: post)) (.dir (pre ++ (n, c') :: post))

/-- A name as a directory listing returns it, which is also the form of a tier name: not
empty, without a separator, and neither `.` nor `..`. -/
def isPlainName (s : String) : Prop :=
  s ≠ "" ∧ '/' ∉ s.data ∧ s ≠ "." ∧ s ≠ ".."

instance : DecidablePred isPlainName := fun s =>
  inferInstanceAs (Decidable (s ≠ "" ∧ '/' ∉ s.data ∧ s ≠ "." ∧ s ≠ ".."))

/-! ## A small template repository -/

/-- The directories of the example repository. -/
def exampleDirs : List String :=
  ["t", "t/common", "t/common/_base", "t/common/_base/units",
   "t/worker", "t/worker/00-worker",
   "t/worker/00-worker/_base", "t/worker/00-worker/_base/files",
   "t/worker/00-worker/aws", "t/worker/00-worker/aws/files",
   "t/worker/00-worker/sno", "t/worker/00-worker/sno/files",
   "t/worker/01-worker-kubelet", "t/worker/01-worker-kubelet/_base",
   "t/worker/01-worker-kubelet/_base/units"]

/-- The regular files of the example repository: path and content.  The text `"?"` stands
for a template whose whole body is conditioned on a value that is false. -/
def exampleFiles : List (String × String) :=
  [("t/common/_base/units/crio.service", "crio"),
   ("t/worker/00-worker/_base/files/a.conf", "A0"),
   ("t/worker/00-worker/_base/files/b.conf", "B0"),
   ("t/worker/00-worker/_base/files/c.conf", "C0"),
   ("t/worker/00-worker/aws/files/a.conf", "?"),
   ("t/worker/00-worker/aws/files/b.conf", ""),
   ("t/worker/00-worker/aws/files/c.conf", "C1"),
   ("t/worker/00-worker/aws/files/d.conf", "D1"),
   ("t/worker/00-worker/sno/files/c.conf", "C2"),
   ("t/worker/01-worker-kubelet/_base/units/kubelet.service", "kubelet")]

/-- The visit of a regular file of the example repository. -/
def exampleVisit (dir name : String) : WalkVisit :=
  { path := dir ++ "/" ++ name,
    info := { name := name,
              size := ((exampleFiles.lookup (dir ++ "/" ++ name)).getD "").length } }

/-- The visits of `filepath.Walk` in the example repository: the root, then its files in
lexical order. -/
def exampleWalk (p : String) : List WalkVisit :=
  if p = "t/common/_base/units" then
    [{ path := p, info := { name := "units", isDir := true } }, exampleVisit p "crio.service"]
  else if p = "t/worker/00-worker/_base/files" then
    [{ path := p, info := { name := "files", isDir := true } }, exampleVisit p "a.conf",
     exampleVisit p "b.conf", exampleVisit p "c.conf"]
  else if p = "t/worker/00-worker/aws/files" then
    [{ path := p, info := { name := "files", isDir := true } }, exampleVisit p "a.conf",
     exampleVisit p "b.conf", exampleVisit p "c.conf", exampleVisit p "d.conf"]
  else if p = "t/worker/00-worker/sno/files" then
    [{ path := p, info := { name := "files", isDir := true } }, exampleVisit p "c.conf"]
  else if p = "t/worker/01-worker-kubelet/_base/units" then
    [{ path := p, info := { name := "units", isDir := true } },
     exampleVisit p "kubelet.service"]
  else [{ path := p, info := { name := p }, err := some (.walk p) }]

/-- The example repository as a world: a template conditioned on a false value renders to a
single newline, every other template to its own text. -/
def exampleWorld : World where
  Stat := fun p =>
    if p ∈ exampleDirs then .ok { name := p, isDir := true }
    else
      match exampleFiles.lookup p with
      | some data => .ok { name := p, size := data.length }
      | none => .error .notExist
  Walk := exampleWalk
  ReadFile := fun p =>
    match exampleFiles.lookup p with
    | some data => .ok data
    | none => .error (.readFile p)
  ReadDir := fun p =>
    if p = "t/worker" then
      .ok [{ name := "00-worker", isDir := true }, { name := "01-worker-kubelet", isDir := true },
           { name := "README.md", size := 10 }]
    else .error (.readDir p)
  renderTemplate := fun _ _ data => .ok (if data = "?" then "\n" else data)
  TranspileCoreOSConfigToIgn := fun files units =>
    .ok { raw := "files:" ++ ",".intercalate files ++ ";units:" ++ ",".intercalate units }
  MachineConfigFromIgnConfig := fun role name ignCfg =>
    .ok { Name := name, Labels := [("machineconfiguration.openshift.io/role", role)],
          Spec := { Config := ignCfg.raw } }
  GetDefaultBaseImageContainer := fun _ => "base-image"

/-- A configuration for AWS with a single-replica control plane. -/
def exampleConfig : RenderConfig :=
  { ControllerConfigSpec := { Infra := some { Status :=
      { PlatformStatus := some { type := "AWS" }, ControlPlaneTopology := "SingleReplica" } } } }

/-- A configuration for AWS with a highly available control plane: no single-node tier. -/
def highlyAvailableConfig : RenderConfig :=
  { ControllerConfigSpec := { Infra := some { Status :=
      { PlatformStatus := some { type := "AWS" }, ControlPlaneTopology := "HighlyAvailable" } } } }

/-- The area `files` of the base tier of `00-worker` in a repository `r`: two
subdirectories `x` and `y`, each holding a file `k.conf`, listed `x` first. -/
def nestedTree (p : String) : FsNode :=
  if p = "r/worker/00-worker/_base/files" then
    .dir [("x", .dir [("k.conf", .file 1)]), ("y", .dir [("k.conf", .file 1)])]
  else .broken

/-- The same area with the two subdirectories listed `y` first. -/
def nestedTreeRelisted (p : String) : FsNode :=
  if p = "r/worker/00-worker/_base/files" then
    .dir [("y", .dir [("k.conf", .file 1)]), ("x", .dir [("k.conf", .file 1)])]
  else .broken

/-- The repository `r` as a world: `tree` is the tree found at each root, and the two files
`k.conf` hold `X` and `Y`. -/
def nestedWorld (tree : String → FsNode) : World :=
  { exampleWorld with
    Stat := fun p =>
      if p ∈ ["r/worker/00-worker/_base", "r/worker/00-worker/_base/files"] then
        .ok { name := p, isDir := true }
      else .error .notExist
    Walk := filepathWalk tree
    ReadFile := fun p =>
      if p = "r/worker/00-worker/_base/files/x/k.conf" then .ok "X"
      else if p = "r/worker/00-worker/_base/files/y/k.conf" then .ok "Y"
      else .error (.readFile p) }

/-- A repository in which the unit `k.service` is held by the common base tier, by the
common single-node tier, and by the base tier of `00-worker`. -/
def overrideWorld : World :=
  { exampleWorld with
    Stat := fun p =>
      if p ∈ ["o/common/_base", "o/common/_base/units", "o/common/sno", "o/common/sno/units",
          "o/worker/00-worker/_base", "o/worker/00-worker/_base/units"] then
        .ok { name := p, isDir := true }
      else .error .notExist
    Walk := fun p =>
      [{ path := p, info := { name := "units", isDir := true } },
       { path := p ++ "/k.service", info := { name := "k.service", size := 1 } }]
    ReadFile := fun p =>
      if p = "o/common/_base/units/k.service" then .ok "common-base"
      else if p = "o/common/sno/units/k.service" then .ok "common-sno"
      else if p = "o/worker/00-worker/_base/units/k.service" then .ok "own-base"
      else .error (.readFile p) }

/-! ## The order of strings -/

theorem Char.toNat_injective {a b : Char} (h : a.toNat = b.toNat) : a = b := by
  apply Char.ext
  apply UInt32.ext
  exact h

theorem lexLE_refl : ∀ a : List Char, lexLE a a = true
  | [] => rfl
  | a :: as => by simp [lexLE, lexLE_refl as]

theorem lexLE_total : ∀ a b : List Char, lexLE a b = true ∨ lexLE b a = true
  | [], _ => Or.inl rfl
  | _ :: _, [] => Or.inr rfl
  | a :: as, b :: bs => by
    rcases Nat.lt_trichotomy a.toNat b.toNat with h | h | h
    · left; simp [lexLE, h]
    · rcases lexLE_total as bs with h1 | h1
      · left; simp [lexLE, h, h1]
      · right; simp [lexLE, h, h1]
    · right; simp [lexLE, h]

theorem lexLE_antisymm : ∀ a b : List Char, lexLE a b = true → lexLE b a = true → a = b
  | [], [], _, _ => rfl
  | [], _ :: _, _, h => by simp [lexLE] at h
  | _ :: _, [], h, _ => by simp [lexLE] at h
  | a :: as, b :: bs, h1, h2 => by
    simp only [lexLE, Bool.or_eq_true, Bool.and_eq_true, decide_eq_true_eq] at h1 h2
    rcases h1 with h1 | ⟨e1, t1⟩
    · rcases h2 with h2 | ⟨e2, _⟩ <;> omega
    · rcases h2 with h2 | ⟨_, t2⟩
      · omega
      · rw [Char.toNat_injective e1, lexLE_antisymm as bs t1 t2]

theorem lexLE_trans : ∀ a b c : List Char, lexLE a b = true → lexLE b c = true → lexLE a c = true
  | [], _, _, _, _ => rfl
  | _ :: _, [], _, h, _ => by simp [lexLE] at h
  | _ :: _, _ :: _, [], _, h => by simp [lexLE] at h
  | a :: as, b :: bs, c :: cs, h1, h2 => by
    simp only [lexLE, Bool.or_eq_true, Bool.and_eq_true, decide_eq_true_eq] at h1 h2 ⊢
    rcases h1 with h1 | ⟨e1, t1⟩
    · rcases h2 with h2 | ⟨e2, _⟩
      · left; omega
      · left; omega
    · rcases h2 with h2 | ⟨e2, t2⟩
      · left; omega
      · right; exact ⟨by omega, lexLE_trans as bs cs t1 t2⟩

instance strLE.isTotal : IsTotal String strLE := ⟨fun a b => lexLE_total a.data b.data⟩

instance strLE.isTrans : IsTrans String strLE :=
  ⟨fun a b c h1 h2 => lexLE_trans a.data b.data c.data h1 h2⟩

instance strLE.isAntisymm : IsAntisymm String strLE :=
  ⟨fun a b h1 h2 => String.ext (lexLE_antisymm a.data b.data h1 h2)⟩

theorem sortStrings_perm (ks : List String) : (sortStrings ks).Perm ks :=
  List.perm_insertionSort strLE ks

theorem sortStrings_sorted (ks : List String) : (sortStrings ks).Pairwise strLE :=
  List.sorted_insertionSort strLE ks

theorem sortStrings_strict (ks : List String) (h : ks.Nodup) :
    (sortStrings ks).Pairwise strLT := by
  have hnd : (sortStrings ks).Nodup := (sortStrings_perm ks).nodup_iff.mpr h
  exact ((sortStrings_sorted ks).and hnd).imp (fun h => h)

theorem sortStrings_eq_of_perm {ks ks' : List String} (h : ks.Perm ks') :
    sortStrings ks = sortStrings ks' :=
  List.eq_of_perm_of_sorted (((sortStrings_perm ks).trans h).trans (sortStrings_perm ks').symm)
    (sortStrings_sorted ks) (sortStrings_sorted ks')

/-! ## Maps with equal lookups -/

theorem GoMap.keys_perm_of_lookup_eq {m m' : GoMap} (h : ∀ k, m'.lookup k = m.lookup k) :
    m'.keys.Perm m.keys := by
  rw [List.perm_ext_iff_of_nodup m'.keys_nodup m.keys_nodup]
  intro k
  rw [← AList.mem_keys, ← AList.mem_keys, ← AList.lookup_isSome, ← AList.lookup_isSome, h k]

theorem GoMap.lookup_of_mem_keys {m : GoMap} {k : String} (h : k ∈ m.keys) :
    m.lookup k = some (m.index k) := by
  have h1 : (m.lookup k).isSome := AList.lookup_isSome.mpr (AList.mem_keys.mpr h)
  obtain ⟨v, hv⟩ := Option.isSome_iff_exists.mp h1
  simp [GoMap.index, hv]


/-! ## Platform classification and tier paths -/

/-- C1: for a configuration whose platform status is present, `getPaths` returns the base
tier, then the on-prem tier when the platform type is BareMetal, oVirt, OpenStack, VSphere or
Nutanix, then the platform identifier, then the single-node tier when the control-plane
topology is SingleReplica, in that order. -/
theorem getPaths_eq (config : RenderConfig) (p : String) (infra : Infrastructure)
    (ps : PlatformStatus) (hInfra : config.ControllerConfigSpec.Infra = some infra)
    (hStatus : infra.Status.PlatformStatus = some ps) :
    getPaths config p = some (["_base"]
      ++ (if ps.type ∈ ["BareMetal", "oVirt", "OpenStack", "VSphere", "Nutanix"]
            then ["on-prem"] else [])
      ++ [p]
      ++ (if infra.Status.ControlPlaneTopology = "SingleReplica" then ["sno"] else [])) := by
  have hOn : onPremPlatform ps.type = true ↔
      ps.type ∈ ["BareMetal", "oVirt", "OpenStack", "VSphere", "Nutanix"] := by
    simp [onPremPlatform, BareMetalPlatformType, OvirtPlatformType, OpenStackPlatformType,
      VSpherePlatformType, NutanixPlatformType]
  simp only [getPaths, hInfra, hStatus, platformBase, platformOnPrem, sno,
    SingleReplicaTopologyMode]
  by_cases h1 : ps.type ∈ ["BareMetal", "oVirt", "OpenStack", "VSphere", "Nutanix"]
  · have h2 : onPremPlatform ps.type = true := hOn.mpr h1
    by_cases h3 : infra.Status.ControlPlaneTopology = "SingleReplica" <;> simp [h1, h2, h3]
  · have h2 : onPremPlatform ps.type = false := by
      cases h : onPremPlatform ps.type
      · rfl
      · exact absurd (hOn.mp h) h1
    by_cases h3 : infra.Status.ControlPlaneTopology = "SingleReplica" <;> simp [h1, h2, h3]

/-- C1, the two instances named by the claim: BareMetal with SingleReplica, and AWS with
another topology. -/
theorem getPaths_eq_witness :
    getPaths { ControllerConfigSpec := { Infra := some { Status :=
        { PlatformStatus := some { type := "BareMetal" },
          ControlPlaneTopology := "SingleReplica" } } } } "baremetal"
      = some ["_base", "on-prem", "baremetal", "sno"]
    ∧ getPaths { ControllerConfigSpec := { Infra := some { Status :=
        { PlatformStatus := some { type := "AWS" },
          ControlPlaneTopology := "HighlyAvailable" } } } } "aws"
      = some ["_base", "aws"] :=
  ⟨(getPaths_eq _ "baremetal" _ _ rfl rfl).trans (by decide),
   (getPaths_eq _ "aws" _ _ rfl rfl).trans (by decide)⟩

theorem platformTypeOf_eq (ic : ControllerConfigSpec) :
    platformTypeOf ic =
      match ic.Infra with
      | none => ""
      | some i =>
        match i.Status.PlatformStatus with
        | none => ""
        | some ps => ps.type := by
  unfold platformTypeOf fillPlatformStatus
  cases hI : ic.Infra with
  | none => rfl
  | some i =>
    cases hP : i.Status.PlatformStatus with
    | none => simp [hP]
    | some ps => simp [hP]

theorem platformString_error_type (ic : ControllerConfigSpec) :
    (∃ e, (platformStringFromControllerConfigSpec ic).1 = .error e) ↔
      (platformTypeOf ic = "" ∨ platformTypeOf ic = "_base") := by
  unfold platformStringFromControllerConfigSpec
  simp only [platformBase]
  by_cases h1 : platformTypeOf ic = ""
  · simp [h1]
  · by_cases h2 : platformTypeOf ic = "_base"
    · simp [h2]
    · by_cases h3 : platformTypeOf ic ∈ listedPlatformTypes <;> simp [h1, h2, h3]

/-- C2: `platformStringFromControllerConfigSpec` returns an error exactly when the platform
type is unset (`Infra` nil, `PlatformStatus` nil, or the type empty) or equals `"_base"`; in
every other case it returns an identifier. -/
theorem platformString_error_iff (ic : ControllerConfigSpec) :
    ((∃ e, (platformStringFromControllerConfigSpec ic).1 = .error e) ↔
      (ic.Infra = none
        ∨ (∃ i, ic.Infra = some i ∧ i.Status.PlatformStatus = none)
        ∨ (∃ i ps, ic.Infra = some i ∧ i.Status.PlatformStatus = some ps
            ∧ (ps.type = "" ∨ ps.type = "_base"))))
    ∧ ((∃ s, (platformStringFromControllerConfigSpec ic).1 = .ok s) ↔
      ∃ i ps, ic.Infra = some i ∧ i.Status.PlatformStatus = some ps
        ∧ ps.type ≠ "" ∧ ps.type ≠ "_base") := by
  have key := platformString_error_type ic
  have hcases : (∃ s, (platformStringFromControllerConfigSpec ic).1 = .ok s) ↔
      ¬ (∃ e, (platformStringFromControllerConfigSpec ic).1 = .error e) := by
    cases (platformStringFromControllerConfigSpec ic).1 <;> simp
  rw [hcases, key, platformTypeOf_eq]
  cases hI : ic.Infra with
  | none => simp
  | some i =>
    cases hP : i.Status.PlatformStatus with
    | none => simp [hP]
    | some ps => simp [hP]

theorem platformString_ok_present (ic ic' : ControllerConfigSpec) (p : String)
    (h : platformStringFromControllerConfigSpec ic = (.ok p, ic')) :
    ic' = ic ∧ ∃ infra ps, ic.Infra = some infra ∧ infra.Status.PlatformStatus = some ps := by
  have hT := platformTypeOf_eq ic
  have hne : platformTypeOf ic ≠ "" := by
    intro h0
    simp [platformStringFromControllerConfigSpec, h0] at h
  have h2 : ic' = fillPlatformStatus ic := by
    have := congrArg Prod.snd h
    unfold platformStringFromControllerConfigSpec at this
    simp only at this
    split_ifs at this <;> exact this.symm
  cases hI : ic.Infra with
  | none => rw [hI] at hT; exact absurd hT hne
  | some i =>
    cases hP : i.Status.PlatformStatus with
    | none => rw [hI] at hT; simp only [hP] at hT; exact absurd hT hne
    | some ps =>
      refine ⟨?_, i, ps, rfl, hP⟩
      rw [h2]
      unfold fillPlatformStatus
      simp only [hI, hP]
      cases ic
      simp_all

theorem listed_ne_empty {t : String} (h : t ∈ listedPlatformTypes) : t ≠ "" ∧ t ≠ "_base" := by
  simp only [listedPlatformTypes, List.mem_cons, List.mem_singleton, List.mem_nil_iff,
    or_false] at h
  rcases h with h | h | h | h | h | h | h | h | h | h | h | h | h <;> subst h <;> decide

/-- C3: with the platform status present, a platform type among the thirteen listed ones
yields its lowercase form, and every other type that is neither empty nor `"_base"` yields
the fallback identifier `"none"`. -/
theorem platformString_value (ic : ControllerConfigSpec) (i : Infrastructure)
    (ps : PlatformStatus) (hInfra : ic.Infra = some i)
    (hStatus : i.Status.PlatformStatus = some ps) :
    (ps.type ∈ ["AWS", "AlibabaCloud", "Azure", "BareMetal", "GCP", "OpenStack", "Libvirt",
        "oVirt", "VSphere", "KubeVirt", "PowerVS", "None", "Nutanix"] →
      (platformStringFromControllerConfigSpec ic).1 = .ok (stringsToLower ps.type)
      ∧ stringsToLower ps.type ∈ ["aws", "alibabacloud", "azure", "baremetal", "gcp",
        "openstack", "libvirt", "ovirt", "vsphere", "kubevirt", "powervs", "none", "nutanix"])
    ∧ (ps.type ∉ ["AWS", "AlibabaCloud", "Azure", "BareMetal", "GCP", "OpenStack", "Libvirt",
        "oVirt", "VSphere", "KubeVirt", "PowerVS", "None", "Nutanix"] →
      ps.type ≠ "" → ps.type ≠ "_base" →
      (platformStringFromControllerConfigSpec ic).1 = .ok "none") := by
  have hT : platformTypeOf ic = ps.type := by
    rw [platformTypeOf_eq]; simp [hInfra, hStatus]
  have hL : listedPlatformTypes = ["AWS", "AlibabaCloud", "Azure", "BareMetal", "GCP",
      "OpenStack", "Libvirt", "oVirt", "VSphere", "KubeVirt", "PowerVS", "None", "Nutanix"] := rfl
  have hNone : stringsToLower NonePlatformType = "none" := by decide
  constructor
  · intro h
    have h' : ps.type ∈ listedPlatformTypes := hL ▸ h
    obtain ⟨h1, h2⟩ := listed_ne_empty h'
    constructor
    · unfold platformStringFromControllerConfigSpec
      simp [hT, h1, h2, h', platformBase]
    · simp only [List.mem_cons, List.mem_singleton, List.mem_nil_iff, or_false] at h
      rcases h with h | h | h | h | h | h | h | h | h | h | h | h | h <;> rw [h] <;> decide
  · intro h h1 h2
    have h' : ps.type ∉ listedPlatformTypes := hL ▸ h
    unfold platformStringFromControllerConfigSpec
    simp [hT, h1, h2, h', platformBase, hNone]

/-- C3, instances: BareMetal gives `"baremetal"`, and the unlisted types IBMCloud and External
give `"none"`. -/
theorem platformString_value_witness :
    (platformStringFromControllerConfigSpec
        { Infra := some { Status := { PlatformStatus := some { type := "BareMetal" } } } }).1
      = .ok "baremetal"
    ∧ (platformStringFromControllerConfigSpec
        { Infra := some { Status := { PlatformStatus := some { type := "IBMCloud" } } } }).1
      = .ok "none"
    ∧ (platformStringFromControllerConfigSpec
        { Infra := some { Status := { PlatformStatus := some { type := "External" } } } }).1
      = .ok "none" :=
  ⟨((platformString_value _ _ { type := "BareMetal" } rfl rfl).1 (by decide)).1,
   (platformString_value _ _ { type := "IBMCloud" } rfl rfl).2
     (by decide) (by decide) (by decide),
   (platformString_value _ _ { type := "External" } rfl rfl).2
     (by decide) (by decide) (by decide)⟩


/-! ## One step of the walk -/

theorem walkFn_lookup_ne (w : World) (config : RenderConfig) (m : GoMap) (u : WalkVisit)
    (k : String) (h : k ≠ u.info.name) : (walkFn w config m u).1.lookup k = m.lookup k := by
  unfold walkFn
  split
  · rfl
  · split
    · rfl
    · split
      · exact AList.lookup_erase_ne h
      · split
        · rfl
        · split
          · rfl
          · split
            · exact AList.lookup_insert_ne h
            · rfl

theorem walkFn_lookup_none (w : World) (config : RenderConfig) (m : GoMap) (u : WalkVisit)
    (n : String) (hm : m.lookup n = none) (hu : ¬ reAdds w config n u) :
    (walkFn w config m u).1.lookup n = none := by
  by_cases hn : n = u.info.name
  · subst hn
    unfold walkFn
    split
    · exact hm
    · rename_i hErr
      split
      · exact hm
      · rename_i hDir
        split
        · exact AList.lookup_erase _ _
        · rename_i hSize
          split
          · exact hm
          · rename_i data hRead
            split
            · exact hm
            · rename_i rendered hRender
              split
              · rename_i hLen
                exact absurd ⟨rfl, hErr, by simpa using hDir, hSize, data, rendered, hRead,
                  hRender, hLen⟩ hu
              · exact hm
  · rw [walkFn_lookup_ne w config m u n hn]; exact hm

theorem walkVisits_lookup_none (w : World) (config : RenderConfig) (n : String) :
    ∀ (later : List WalkVisit) (m : GoMap), m.lookup n = none →
      (∀ u ∈ later, ¬ reAdds w config n u) → (walkVisits w config m later).1.lookup n = none
  | [], m, hm, _ => hm
  | u :: us, m, hm, hl => by
    have h1 := walkFn_lookup_none w config m u n hm (hl u (List.mem_cons_self _ _))
    unfold walkVisits
    split
    · rename_i m1 e heq
      rw [heq] at h1; exact h1
    · rename_i m1 heq
      rw [heq] at h1
      exact walkVisits_lookup_none w config n us m1 h1
        (fun u hu => hl u (List.mem_cons_of_mem _ hu))

theorem keySortVals_congr {m m' : GoMap} (h : ∀ k, m'.lookup k = m.lookup k) :
    keySortVals m' = keySortVals m := by
  simp only [keySortVals]
  rw [sortStrings_eq_of_perm (GoMap.keys_perm_of_lookup_eq h)]
  apply List.map_congr_left
  intro k _
  simp [GoMap.index, h k]

/-- C5: a zero-length regular file named `n`, visited without error, makes the walk function
erase `n` from the merge set: afterwards there is no entry for `n`, every other entry is as
before, no error is returned, and the file is neither read nor rendered.  If none of the later
visits re-adds `n`, the final merge set has no entry for `n` and the serialised sequence is
that of the set without `n`. -/
theorem walkFn_tombstone (w : World) (config : RenderConfig) (toFilter : GoMap) (v : WalkVisit)
    (hErr : v.err = none) (hFile : v.info.isDir = false) (hSize : v.info.size = 0) :
    (walkFn w config toFilter v).2 = none
    ∧ (walkFn w config toFilter v).1.lookup v.info.name = none
    ∧ (∀ k, k ≠ v.info.name → (walkFn w config toFilter v).1.lookup k = toFilter.lookup k)
    ∧ (∀ w' : World, walkFn w' config toFilter v = walkFn w config toFilter v)
    ∧ (∀ later : List WalkVisit, (∀ u ∈ later, ¬ reAdds w config v.info.name u) →
        (walkVisits w config (walkFn w config toFilter v).1 later).1.lookup v.info.name = none
        ∧ v.info.name ∉ (walkVisits w config (walkFn w config toFilter v).1 later).1.keys
        ∧ keySortVals (walkVisits w config (walkFn w config toFilter v).1 later).1
            = keySortVals
                ((walkVisits w config (walkFn w config toFilter v).1 later).1.erase
                  v.info.name)) := by
  have hstep : ∀ w' : World, walkFn w' config toFilter v = (toFilter.erase v.info.name, none) := by
    intro w'
    simp [walkFn, hErr, hFile, hSize]
  have hnone : (walkFn w config toFilter v).1.lookup v.info.name = none := by
    rw [hstep w]; exact AList.lookup_erase _ _
  refine ⟨by rw [hstep w], hnone, ?_, ?_, ?_⟩
  · intro k hk
    exact walkFn_lookup_ne w config toFilter v k hk
  · intro w'
    rw [hstep w, hstep w']
  · intro later hl
    have hfin := walkVisits_lookup_none w config v.info.name later _ hnone hl
    refine ⟨hfin, ?_, ?_⟩
    · rw [← AList.mem_keys, ← AList.lookup_eq_none]; exact hfin
    · apply keySortVals_congr
      intro k
      by_cases hk : k = v.info.name
      · rw [hk, AList.lookup_erase, hfin]
      · exact (AList.lookup_erase_ne hk).symm

/-- C5, instance: a zero-length `kubelet.conf` removes the entry a lower tier contributed and
leaves the entry `hostname` alone; nothing is serialised for it. -/
theorem walkFn_tombstone_witness :
    (∀ w : World,
      (walkFn w {} (((∅ : GoMap).insert "hostname" "h").insert "kubelet.conf" "k")
          { path := "t/aws/units/kubelet.conf", info := { name := "kubelet.conf" } }).1.lookup
        "kubelet.conf" = none)
    ∧ (∀ w : World,
      (walkFn w {} (((∅ : GoMap).insert "hostname" "h").insert "kubelet.conf" "k")
          { path := "t/aws/units/kubelet.conf", info := { name := "kubelet.conf" } }).1.lookup
        "hostname" = some "h") :=
  ⟨fun w => (walkFn_tombstone w {} _
      { path := "t/aws/units/kubelet.conf", info := { name := "kubelet.conf" } }
      rfl rfl rfl).2.1,
   fun w => ((walkFn_tombstone w {} _
      { path := "t/aws/units/kubelet.conf", info := { name := "kubelet.conf" } }
      rfl rfl rfl).2.2.1 "hostname" (by decide)).trans (by decide)⟩

/-- C6: a regular file that is not zero-length, is read and rendered without error, and whose
rendered output is empty after trimming white space, leaves the merge set exactly as it was
and returns no error; in particular an entry of the same name keeps its earlier content. -/
theorem walkFn_blank (w : World) (config : RenderConfig) (toFilter : GoMap) (v : WalkVisit)
    (data rendered : String) (hErr : v.err = none) (hFile : v.info.isDir = false)
    (hSize : v.info.size ≠ 0) (hRead : w.ReadFile v.path = .ok data)
    (hRender : w.renderTemplate config v.path data = .ok rendered)
    (hBlank : trimSpace rendered = "") :
    walkFn w config toFilter v = (toFilter, none)
    ∧ (∀ k, (walkFn w config toFilter v).1.lookup k = toFilter.lookup k) := by
  have h : walkFn w config toFilter v = (toFilter, none) := by
    simp [walkFn, hErr, hFile, hSize, hRead, hRender, hBlank]
  exact ⟨h, fun k => by rw [h]⟩

/-- C6, instance: in the example repository `a.conf` of the platform tier `aws` renders to
a newline, and the entry `a.conf` of the base tier stays. -/
theorem walkFn_blank_witness :
    walkFn exampleWorld exampleConfig ((∅ : GoMap).insert "a.conf" "A0")
        (exampleVisit "t/worker/00-worker/aws/files" "a.conf")
      = ((∅ : GoMap).insert "a.conf" "A0", none) :=
  (walkFn_blank exampleWorld exampleConfig ((∅ : GoMap).insert "a.conf" "A0")
    (exampleVisit "t/worker/00-worker/aws/files" "a.conf") "?" "\n"
    (by decide) (by decide) (by decide) (by decide) (by decide) (by decide)).1

/-- C7: `keySortVals m` has one element per key of `m`; it lists, for the keys of `m` in
strictly ascending order, the content stored under each key; and two maps with the same
lookups, whatever the order of their entries, give the same list. -/
theorem keySortVals_spec (m : GoMap) :
    (keySortVals m).length = m.keys.length
    ∧ (∃ ks : List String, ks.Perm m.keys ∧ ks.Pairwise strLT
        ∧ (keySortVals m).map some = ks.map (fun k => m.lookup k))
    ∧ (∀ m' : GoMap, (∀ k, m'.lookup k = m.lookup k) → keySortVals m' = keySortVals m) := by
  refine ⟨?_, ⟨sortStrings m.keys, sortStrings_perm _, sortStrings_strict _ m.keys_nodup, ?_⟩,
    fun m' h => keySortVals_congr h⟩
  · simp [keySortVals, (sortStrings_perm m.keys).length_eq]
  · simp only [keySortVals, List.map_map]
    apply List.map_congr_left
    intro k hk
    have hk' : k ∈ m.keys := (sortStrings_perm m.keys).mem_iff.mp hk
    simp [GoMap.lookup_of_mem_keys hk']


/-! ## The walk as a sequence of effects -/

theorem walkFn_lookup (w : World) (config : RenderConfig) (m : GoMap) (v : WalkVisit) :
    (fun k => (walkFn w config m v).1.lookup k)
      = stepLookup w config (fun k => m.lookup k) v := by
  funext k
  unfold walkFn stepLookup effect
  split
  · rfl
  · split
    · rfl
    · split
      · simp only [applyEffect]
        by_cases hk : k = v.info.name
        · subst hk; simp [AList.lookup_erase]
        · simp [hk, AList.lookup_erase_ne hk]
      · split
        · rfl
        · split
          · rfl
          · split
            · simp only [applyEffect]
              by_cases hk : k = v.info.name
              · subst hk; simp [AList.lookup_insert]
              · simp [hk, AList.lookup_insert_ne hk]
            · rfl

theorem walkFn_err_indep (w : World) (config : RenderConfig) (m m' : GoMap) (v : WalkVisit) :
    (walkFn w config m v).2 = (walkFn w config m' v).2 := by
  unfold walkFn
  split
  · rfl
  · split
    · rfl
    · split
      · rfl
      · split
        · rfl
        · split
          · rfl
          · split <;> rfl

theorem walkVisits_cons_ok (w : World) (config : RenderConfig) (m m1 : GoMap) (v : WalkVisit)
    (vs : List WalkVisit) (h : walkFn w config m v = (m1, none)) :
    walkVisits w config m (v :: vs) = walkVisits w config m1 vs := by
  simp [walkVisits, h]

theorem walkVisits_cons_err (w : World) (config : RenderConfig) (m m1 : GoMap) (v : WalkVisit)
    (vs : List WalkVisit) (e : Err) (h : walkFn w config m v = (m1, some e)) :
    walkVisits w config m (v :: vs) = (m1, some e) := by
  simp [walkVisits, h]

theorem walkVisits_err_none_iff (w : World) (config : RenderConfig) :
    ∀ (l : List WalkVisit) (m : GoMap),
      (walkVisits w config m l).2 = none ↔ ∀ v ∈ l, (walkFn w config ∅ v).2 = none
  | [], m => by simp [walkVisits]
  | v :: vs, m => by
    have hv := walkFn_err_indep w config m ∅ v
    rcases hstep : walkFn w config m v with ⟨m1, _ | e⟩
    · rw [walkVisits_cons_ok w config m m1 v vs hstep, walkVisits_err_none_iff w config vs m1]
      rw [hstep] at hv
      constructor
      · intro h u hu
        rcases List.mem_cons.mp hu with rfl | hu
        · exact hv.symm
        · exact h u hu
      · intro h u hu
        exact h u (List.mem_cons_of_mem _ hu)
    · rw [walkVisits_cons_err w config m m1 v vs e hstep]
      rw [hstep] at hv
      constructor
      · intro h; simp at h
      · intro h
        have h1 := h v (List.mem_cons_self _ _)
        rw [← hv] at h1
        simp at h1

theorem walkVisits_lookup (w : World) (config : RenderConfig) :
    ∀ (l : List WalkVisit) (m : GoMap), (walkVisits w config m l).2 = none →
      (fun k => (walkVisits w config m l).1.lookup k)
        = l.foldl (stepLookup w config) (fun k => m.lookup k)
  | [], m, _ => rfl
  | v :: vs, m, h => by
    rcases hstep : walkFn w config m v with ⟨m1, _ | e⟩
    · rw [walkVisits_cons_ok w config m m1 v vs hstep] at h ⊢
      rw [walkVisits_lookup w config vs m1 h, List.foldl_cons, ← walkFn_lookup, hstep]
    · rw [walkVisits_cons_err w config m m1 v vs e hstep] at h
      simp at h

theorem walkVisits_append (w : World) (config : RenderConfig) :
    ∀ (l l' : List WalkVisit) (m : GoMap), (walkVisits w config m l).2 = none →
      walkVisits w config m (l ++ l') = walkVisits w config (walkVisits w config m l).1 l'
  | [], l', m, _ => rfl
  | v :: vs, l', m, h => by
    rcases hstep : walkFn w config m v with ⟨m1, _ | e⟩
    · rw [walkVisits_cons_ok w config m m1 v vs hstep] at h ⊢
      rw [List.cons_append, walkVisits_cons_ok w config m m1 v (vs ++ l') hstep]
      exact walkVisits_append w config vs l' m1 h
    · rw [walkVisits_cons_err w config m m1 v vs e hstep] at h
      simp at h

theorem stepLookup_comm (w : World) (config : RenderConfig) (g : String → Option String)
    (x y : WalkVisit) (h : noCollision x y) :
    stepLookup w config (stepLookup w config g x) y
      = stepLookup w config (stepLookup w config g y) x := by
  have hdir : ∀ v : WalkVisit, v.info.isDir = true → effect w config v = none := by
    intro v hv
    unfold effect
    split
    · rfl
    · simp [hv]
  unfold stepLookup
  rcases h with h | h | h
  · rw [hdir x h]; rfl
  · rw [hdir y h]; rfl
  · cases hx : effect w config x with
    | none => rfl
    | some ox =>
      cases hy : effect w config y with
      | none => rfl
      | some oy =>
        funext k
        simp only [applyEffect]
        by_cases h1 : k = y.info.name
        · have h2 : k ≠ x.info.name := fun h2 => h (h2.symm.trans h1)
          simp [h1, h2, Ne.symm h]
        · simp [h1]

theorem foldl_stepLookup_perm (w : World) (config : RenderConfig) {l l' : List WalkVisit}
    (hp : l.Perm l') (hd : l.Pairwise noCollision) (g : String → Option String) :
    l.foldl (stepLookup w config) g = l'.foldl (stepLookup w config) g := by
  have hsymm : Symmetric noCollision := by
    intro x y h
    rcases h with h | h | h
    · exact Or.inr (Or.inl h)
    · exact Or.inl h
    · exact Or.inr (Or.inr (Ne.symm h))
  apply hp.foldl_eq'
  intro x hx y hy z
  by_cases hxy : x = y
  · rw [hxy]
  · exact stepLookup_comm w config z x y (hd.forall hsymm hx hy hxy)


/-! ## The tier loop as one walk per area -/

theorem areaVisits_cons (w : World) (area d : String) (rest : List String) :
    areaVisits w area (d :: rest)
      = (match existsDir w (filepathJoin [d, area]) with
         | .ok true => w.Walk (filepathJoin [d, area])
         | _ => []) ++ areaVisits w area rest := by
  simp [areaVisits, List.flatMap_cons]

theorem areaVisits_append (w : World) (area : String) (l l' : List String) :
    areaVisits w area (l ++ l') = areaVisits w area l ++ areaVisits w area l' := by
  simp [areaVisits, List.flatMap_append]

theorem mergeArea_ok (w : World) (config : RenderConfig) (m m' : GoMap) (p : String)
    (h : mergeArea w config m p = .ok m') :
    walkVisits w config m
      (match existsDir w p with
       | .ok true => w.Walk p
       | _ => []) = (m', none) := by
  unfold mergeArea at h
  rcases hE : existsDir w p with e | b
  · rw [hE] at h; simp at h
  · cases b
    · rw [hE] at h
      simp only [Except.ok.injEq] at h
      simp [walkVisits, h]
    · rw [hE] at h
      simp only at h
      rcases hF : filterTemplates w config m p with ⟨m1, _ | e⟩
      · rw [hF] at h
        simp only [Except.ok.injEq] at h
        rw [← h]
        exact hF
      · rw [hF] at h; simp at h

theorem mergeTiers_ok (w : World) (config : RenderConfig) :
    ∀ (dirs : List String) (files units files' units' : GoMap),
      mergeTiers w config dirs files units = .ok (files', units') →
      walkVisits w config files (areaVisits w filesDir dirs) = (files', none)
      ∧ walkVisits w config units (areaVisits w unitsDir dirs) = (units', none)
  | [], files, units, files', units', h => by
    simp only [mergeTiers, Except.ok.injEq, Prod.mk.injEq] at h
    simp [areaVisits, walkVisits, h.1, h.2]
  | d :: rest, files, units, files', units', h => by
    rw [mergeTiers] at h
    rcases hF : mergeArea w config files (filepathJoin [d, filesDir]) with e | f1
    · rw [hF] at h; simp at h
    · rw [hF] at h
      simp only at h
      rcases hU : mergeArea w config units (filepathJoin [d, unitsDir]) with e | u1
      · rw [hU] at h; simp at h
      · rw [hU] at h
        simp only at h
        obtain ⟨ih1, ih2⟩ := mergeTiers_ok w config rest f1 u1 files' units' h
        have a1 := mergeArea_ok w config files f1 _ hF
        have a2 := mergeArea_ok w config units u1 _ hU
        constructor
        · rw [areaVisits_cons, walkVisits_append w config _ _ files (by rw [a1]), a1]
          exact ih1
        · rw [areaVisits_cons, walkVisits_append w config _ _ units (by rw [a2]), a2]
          exact ih2

theorem foldl_stepLookup_keep (w : World) (config : RenderConfig) (n : String) :
    ∀ (l : List WalkVisit) (g : String → Option String),
      (∀ u ∈ l, u.info.name = n → effect w config u = none) →
      (l.foldl (stepLookup w config) g) n = g n
  | [], _, _ => rfl
  | u :: us, g, h => by
    rw [List.foldl_cons,
      foldl_stepLookup_keep w config n us _ (fun x hx => h x (List.mem_cons_of_mem _ hx))]
    unfold stepLookup
    by_cases hn : u.info.name = n
    · rw [h u (List.mem_cons_self _ _) hn]; rfl
    · cases effect w config u with
      | none => rfl
      | some o => simp [applyEffect, Ne.symm hn]

theorem foldl_stepLookup_last (w : World) (config : RenderConfig) (n : String)
    (o : Option String) (l1 l2 : List WalkVisit) (v : WalkVisit) (g : String → Option String)
    (hName : v.info.name = n) (hEff : effect w config v = some o)
    (hLater : ∀ u ∈ l2, u.info.name = n → effect w config u = none) :
    ((l1 ++ v :: l2).foldl (stepLookup w config) g) n = o := by
  rw [List.foldl_append, List.foldl_cons, foldl_stepLookup_keep w config n l2 _ hLater]
  simp [stepLookup, hEff, applyEffect, hName]

/-! ## Precedence between tiers -/

/-- C4, as stated, fails: in the example repository (AWS, single-replica control plane) the
names `a.conf`, `b.conf` and `c.conf` are present in the base tier and in the platform tier
`aws` of `00-worker`, and the platform tier renders `a.conf` to a newline, holds a
zero-length `b.conf`, and renders `c.conf` to `C1`; yet the merged files map `a.conf` to the
base tier's `A0`, has no entry `b.conf`, and maps `c.conf` to the single-node tier's `C2`. -/
theorem platform_tier_not_always_kept :
    getPaths exampleConfig "aws" = some ["_base", "aws", "sno"]
    ∧ resolveSequences exampleWorld exampleConfig "t" "t/worker/00-worker" true
      = (.ok (["A0", "C2", "D1"], []), true)
    ∧ platformDirsOf exampleWorld ["_base", "aws", "sno"] "t" "t/worker/00-worker" true
      = (.ok ["t/worker/00-worker/_base", "t/worker/00-worker/aws",
              "t/worker/00-worker/sno"], true)
    ∧ (exampleWorld.Walk "t/worker/00-worker/_base/files").map (fun v => v.info.name)
        = ["files", "a.conf", "b.conf", "c.conf"]
    ∧ (exampleWorld.Walk "t/worker/00-worker/aws/files").map (fun v => v.info.name)
        = ["files", "a.conf", "b.conf", "c.conf", "d.conf"]
    ∧ exampleWorld.renderTemplate exampleConfig "t/worker/00-worker/aws/files/a.conf" "?"
        = .ok "\n"
    ∧ exampleWorld.renderTemplate exampleConfig "t/worker/00-worker/aws/files/c.conf" "C1"
        = .ok "C1"
    ∧ (mergeTiers exampleWorld exampleConfig
          ["t/worker/00-worker/_base", "t/worker/00-worker/aws", "t/worker/00-worker/sno"]
          ∅ ∅).toOption.map
        (fun r => (r.1.lookup "a.conf", r.1.lookup "b.conf", r.1.lookup "c.conf"))
        = some (some "A0", none, some "C2") := by
  refine ⟨by decide, by decide, by decide, by decide, by decide, by decide, by decide,
    by decide⟩

/-- C4, amended: let the tier loop succeed on a list of tier directories and let `area` be
`files` or `units`.  If the tier directory `platformDir` has that area, the walk of the area
visits a fragment named `n` that is a regular, not zero-length file rendering to the
non-blank content `c`, and every fragment named `n` visited later (in the rest of that walk
or in the same area of a later tier) is neither zero-length nor rendering to non-blank
content, then the merged set of the area maps `n` to `c`, whatever the earlier tiers, the
base tier among them, hold under `n`. -/
theorem mergeTiers_platform_wins (w : World) (config : RenderConfig) (pre post : List String)
    (platformDir area : String) (files0 units0 files units merged : GoMap)
    (n c : String) (before after : List WalkVisit) (v : WalkVisit)
    (hOk : mergeTiers w config (pre ++ platformDir :: post) files0 units0 = .ok (files, units))
    (hArea : (area = filesDir ∧ merged = files) ∨ (area = unitsDir ∧ merged = units))
    (hExists : existsDir w (filepathJoin [platformDir, area]) = .ok true)
    (hWalk : w.Walk (filepathJoin [platformDir, area]) = before ++ v :: after)
    (hName : v.info.name = n) (hEff : effect w config v = some (some c))
    (hLater : ∀ u ∈ after ++ areaVisits w area post,
      u.info.name = n → effect w config u = none) :
    merged.lookup n = some c := by
  obtain ⟨hF, hU⟩ := mergeTiers_ok w config _ files0 units0 files units hOk
  have hVisits : areaVisits w area (pre ++ platformDir :: post)
      = (areaVisits w area pre ++ before) ++ v :: (after ++ areaVisits w area post) := by
    rw [areaVisits_append, areaVisits_cons, hExists]
    simp [hWalk]
  have key : ∀ (m0 m : GoMap),
      walkVisits w config m0 (areaVisits w area (pre ++ platformDir :: post)) = (m, none) →
      m.lookup n = some c := by
    intro m0 m hm
    have h1 := walkVisits_lookup w config _ m0 (by rw [hm])
    rw [hm] at h1
    have h2 := congrFun h1 n
    simp only at h2
    rw [h2, hVisits]
    exact foldl_stepLookup_last w config n (some c) _ _ v _ hName hEff hLater
  rcases hArea with ⟨ha, hm⟩ | ⟨ha, hm⟩
  · rw [hm]; exact key files0 files (ha ▸ hF)
  · rw [hm]; exact key units0 units (ha ▸ hU)

/-- C4, amended, instance: on AWS with a highly available control plane the tiers of
`00-worker` are `_base` and `aws`; both hold `c.conf` in the area `files`, the base tier with
the content `C0` and the platform tier with the content `C1`, and the merged files map
`c.conf` to the platform tier's `C1`, which replaces the base tier's `C0` in the output. -/
theorem mergeTiers_platform_wins_witness :
    getPaths highlyAvailableConfig "aws" = some ["_base", "aws"]
    ∧ platformDirsOf exampleWorld ["_base", "aws"] "t" "t/worker/00-worker" true
      = (.ok ["t/worker/00-worker/_base", "t/worker/00-worker/aws"], true)
    ∧ effect exampleWorld highlyAvailableConfig
        (exampleVisit "t/worker/00-worker/_base/files" "c.conf") = some (some "C0")
    ∧ effect exampleWorld highlyAvailableConfig
        (exampleVisit "t/worker/00-worker/aws/files" "c.conf") = some (some "C1")
    ∧ resolveSequences exampleWorld highlyAvailableConfig "t" "t/worker/00-worker" true
      = (.ok (["A0", "C1", "D1"], []), true)
    ∧ ((((∅ : GoMap).insert "a.conf" "A0").insert "c.conf" "C1").insert "d.conf" "D1").lookup
        "c.conf" = some "C1" :=
  ⟨by decide, by decide, by decide, by decide, by decide,
   mergeTiers_platform_wins exampleWorld highlyAvailableConfig ["t/worker/00-worker/_base"]
    [] "t/worker/00-worker/aws" "files" ∅ ∅
    ((((∅ : GoMap).insert "a.conf" "A0").insert "c.conf" "C1").insert "d.conf" "D1") ∅
    ((((∅ : GoMap).insert "a.conf" "A0").insert "c.conf" "C1").insert "d.conf" "D1")
    "c.conf" "C1"
    [{ path := "t/worker/00-worker/aws/files", info := { name := "files", isDir := true } },
     exampleVisit "t/worker/00-worker/aws/files" "a.conf",
     exampleVisit "t/worker/00-worker/aws/files" "b.conf"]
    [exampleVisit "t/worker/00-worker/aws/files" "d.conf"]
    (exampleVisit "t/worker/00-worker/aws/files" "c.conf")
    (by rfl) (Or.inl ⟨rfl, rfl⟩) (by decide) (by decide) (by decide) (by decide)
    (by decide)⟩


/-! ## Independence of the order of a walk -/

theorem walkVisits_perm (w : World) (config : RenderConfig) (l l' : List WalkVisit)
    (m m' : GoMap) (hp : l'.Perm l) (hd : l.Pairwise noCollision)
    (hm : ∀ k, m'.lookup k = m.lookup k) :
    ((walkVisits w config m' l').2 = none ↔ (walkVisits w config m l).2 = none)
    ∧ ((walkVisits w config m l).2 = none →
        ∀ k, (walkVisits w config m' l').1.lookup k = (walkVisits w config m l).1.lookup k) := by
  have hiff : (walkVisits w config m' l').2 = none ↔ (walkVisits w config m l).2 = none := by
    rw [walkVisits_err_none_iff, walkVisits_err_none_iff]
    constructor
    · intro h v hv; exact h v (hp.mem_iff.mpr hv)
    · intro h v hv; exact h v (hp.mem_iff.mp hv)
  refine ⟨hiff, fun hok k => ?_⟩
  have h1 := congrFun (walkVisits_lookup w config l m hok) k
  have h2 := congrFun (walkVisits_lookup w config l' m' (hiff.mpr hok)) k
  simp only at h1 h2
  have hg : (fun k => m'.lookup k) = (fun k => m.lookup k) := funext hm
  rw [h1, h2, hg, foldl_stepLookup_perm w config hp.symm hd]

theorem existsDir_congr (w w' : World) (hS : w'.Stat = w.Stat) (p : String) :
    existsDir w' p = existsDir w p := by
  unfold existsDir
  rw [hS]

theorem walkFn_congr (w w' : World) (hR : w'.ReadFile = w.ReadFile)
    (hT : w'.renderTemplate = w.renderTemplate) (config : RenderConfig) (m : GoMap)
    (v : WalkVisit) : walkFn w' config m v = walkFn w config m v := by
  unfold walkFn
  rw [hR, hT]

theorem walkVisits_congr (w w' : World) (hR : w'.ReadFile = w.ReadFile)
    (hT : w'.renderTemplate = w.renderTemplate) (config : RenderConfig) :
    ∀ (l : List WalkVisit) (m : GoMap), walkVisits w' config m l = walkVisits w config m l
  | [], _ => rfl
  | v :: vs, m => by
    have hstep := walkFn_congr w w' hR hT config m v
    rcases h : walkFn w config m v with ⟨m1, _ | e⟩
    · rw [walkVisits_cons_ok w' config m m1 v vs (hstep.trans h),
        walkVisits_cons_ok w config m m1 v vs h]
      exact walkVisits_congr w w' hR hT config vs m1
    · rw [walkVisits_cons_err w' config m m1 v vs e (hstep.trans h),
        walkVisits_cons_err w config m m1 v vs e h]

theorem collectDirs_congr (w w' : World) (hS : w'.Stat = w.Stat) (mk : String → String) :
    ∀ (l acc : List String), collectDirs w' mk l acc = collectDirs w mk l acc
  | [], _ => rfl
  | d :: rest, acc => by
    rw [collectDirs, collectDirs, existsDir_congr w w' hS]
    rcases existsDir w (mk d) with e | b
    · rfl
    · cases b
      · exact collectDirs_congr w w' hS mk rest acc
      · exact collectDirs_congr w w' hS mk rest _

theorem platformDirsOf_congr (w w' : World) (hS : w'.Stat = w.Stat)
    (paths : List String) (templateDir path : String) (commonAdded : Bool) :
    platformDirsOf w' paths templateDir path commonAdded
      = platformDirsOf w paths templateDir path commonAdded := by
  unfold platformDirsOf
  simp only [collectDirs_congr w w' hS]

theorem mergeArea_congr (w w' : World) (hS : w'.Stat = w.Stat) (hW : w'.Walk = w.Walk)
    (hR : w'.ReadFile = w.ReadFile) (hT : w'.renderTemplate = w.renderTemplate)
    (config : RenderConfig) (m : GoMap) (p : String) :
    mergeArea w' config m p = mergeArea w config m p := by
  unfold mergeArea filterTemplates
  rw [existsDir_congr w w' hS, hW, walkVisits_congr w w' hR hT]

theorem mergeTiers_congr (w w' : World) (hS : w'.Stat = w.Stat) (hW : w'.Walk = w.Walk)
    (hR : w'.ReadFile = w.ReadFile) (hT : w'.renderTemplate = w.renderTemplate)
    (config : RenderConfig) :
    ∀ (dirs : List String) (f u : GoMap),
      mergeTiers w' config dirs f u = mergeTiers w config dirs f u
  | [], _, _ => rfl
  | d :: rest, f, u => by
    rw [mergeTiers, mergeTiers, mergeArea_congr w w' hS hW hR hT]
    rcases mergeArea w config f (filepathJoin [d, filesDir]) with e | f1
    · rfl
    · simp only
      rw [mergeArea_congr w w' hS hW hR hT]
      rcases mergeArea w config u (filepathJoin [d, unitsDir]) with e | u1
      · rfl
      · exact mergeTiers_congr w w' hS hW hR hT config rest f1 u1

theorem resolveSequences_congr (w w' : World) (hS : w'.Stat = w.Stat) (hW : w'.Walk = w.Walk)
    (hR : w'.ReadFile = w.ReadFile) (hT : w'.renderTemplate = w.renderTemplate)
    (config : RenderConfig) (templateDir path : String) (commonAdded : Bool) :
    resolveSequences w' config templateDir path commonAdded
      = resolveSequences w config templateDir path commonAdded := by
  unfold resolveSequences
  simp only [platformDirsOf_congr w w' hS, mergeTiers_congr w w' hS hW hR hT]

theorem walkVisits_setWalk (w : World) (config : RenderConfig)
    (walk' : String → List WalkVisit) (l : List WalkVisit) (m : GoMap) :
    walkVisits { w with Walk := walk' } config m l = walkVisits w config m l :=
  walkVisits_congr w { w with Walk := walk' } rfl rfl config l m

theorem platformDirsOf_setWalk (w : World) (walk' : String → List WalkVisit)
    (paths : List String) (templateDir path : String) (commonAdded : Bool) :
    platformDirsOf { w with Walk := walk' } paths templateDir path commonAdded
      = platformDirsOf w paths templateDir path commonAdded :=
  platformDirsOf_congr w { w with Walk := walk' } rfl paths templateDir path commonAdded

theorem mergeArea_perm (w : World) (config : RenderConfig) (walk' : String → List WalkVisit)
    (hPerm : ∀ p, (walk' p).Perm (w.Walk p)) (hDistinct : ∀ p, (w.Walk p).Pairwise noCollision)
    (m m' : GoMap) (p : String) (hm : ∀ k, m'.lookup k = m.lookup k) :
    (∀ e, mergeArea w config m p = .error e →
        ∃ e', mergeArea { w with Walk := walk' } config m' p = .error e')
    ∧ (∀ a, mergeArea w config m p = .ok a →
        ∃ a', mergeArea { w with Walk := walk' } config m' p = .ok a'
          ∧ ∀ k, a'.lookup k = a.lookup k) := by
  have hE : existsDir { w with Walk := walk' } p = existsDir w p := rfl
  have hF : filterTemplates { w with Walk := walk' } config m' p
      = walkVisits w config m' (walk' p) := by
    unfold filterTemplates
    exact walkVisits_setWalk w config walk' _ m'
  obtain ⟨hiff, hlook⟩ := walkVisits_perm w config (w.Walk p) (walk' p) m m' (hPerm p)
    (hDistinct p) hm
  unfold mergeArea
  rw [hE, hF]
  rcases existsDir w p with e | b
  · exact ⟨fun e' _ => ⟨e, rfl⟩, fun a h => by simp at h⟩
  · cases b
    · refine ⟨fun e h => by simp at h, fun a h => ⟨m', rfl, ?_⟩⟩
      simp only [Except.ok.injEq] at h
      rw [← h]; exact hm
    · simp only [filterTemplates]
      rcases h1 : walkVisits w config m (w.Walk p) with ⟨a1, _ | e1⟩
      · have hok : (walkVisits w config m (w.Walk p)).2 = none := by rw [h1]
        have hok' := hiff.mpr hok
        rcases h2 : walkVisits w config m' (walk' p) with ⟨a2, _ | e2⟩
        · refine ⟨fun e h => by simp at h, fun a h => ⟨a2, rfl, ?_⟩⟩
          simp only [Except.ok.injEq] at h
          intro k
          have := hlook hok k
          rw [h1, h2] at this
          rw [← h]; exact this
        · rw [h2] at hok'; simp at hok'
      · have hne : (walkVisits w config m' (walk' p)).2 ≠ none := by
          intro h
          have := hiff.mp h
          rw [h1] at this
          simp at this
        rcases h2 : walkVisits w config m' (walk' p) with ⟨a2, _ | e2⟩
        · rw [h2] at hne; simp at hne
        · exact ⟨fun e _ => ⟨e2, rfl⟩, fun a h => by simp at h⟩

theorem mergeTiers_perm (w : World) (config : RenderConfig) (walk' : String → List WalkVisit)
    (hPerm : ∀ p, (walk' p).Perm (w.Walk p))
    (hDistinct : ∀ p, (w.Walk p).Pairwise noCollision) :
    ∀ (dirs : List String) (f f' u u' : GoMap),
      (∀ k, f'.lookup k = f.lookup k) → (∀ k, u'.lookup k = u.lookup k) →
      (∀ e, mergeTiers w config dirs f u = .error e →
          ∃ e', mergeTiers { w with Walk := walk' } config dirs f' u' = .error e')
      ∧ (∀ a b, mergeTiers w config dirs f u = .ok (a, b) →
          ∃ a' b', mergeTiers { w with Walk := walk' } config dirs f' u' = .ok (a', b')
            ∧ (∀ k, a'.lookup k = a.lookup k) ∧ (∀ k, b'.lookup k = b.lookup k))
  | [], f, f', u, u', hf, hu => by
    refine ⟨fun e h => by simp [mergeTiers] at h, fun a b h => ⟨f', u', rfl, ?_⟩⟩
    simp only [mergeTiers, Except.ok.injEq, Prod.mk.injEq] at h
    rw [← h.1, ← h.2]
    exact ⟨hf, hu⟩
  | d :: rest, f, f', u, u', hf, hu => by
    obtain ⟨fe, fo⟩ := mergeArea_perm w config walk' hPerm hDistinct f f'
      (filepathJoin [d, filesDir]) hf
    obtain ⟨ue, uo⟩ := mergeArea_perm w config walk' hPerm hDistinct u u'
      (filepathJoin [d, unitsDir]) hu
    rw [mergeTiers, mergeTiers]
    rcases h1 : mergeArea w config f (filepathJoin [d, filesDir]) with e1 | f1
    · obtain ⟨e', he'⟩ := fe e1 h1
      rw [he']
      exact ⟨fun e _ => ⟨e', rfl⟩, fun a b h => by simp at h⟩
    · obtain ⟨f1', hf1', hf1⟩ := fo f1 h1
      rw [hf1']
      simp only
      rcases h2 : mergeArea w config u (filepathJoin [d, unitsDir]) with e2 | u1
      · obtain ⟨e', he'⟩ := ue e2 h2
        rw [he']
        exact ⟨fun e _ => ⟨e', rfl⟩, fun a b h => by simp at h⟩
      · obtain ⟨u1', hu1', hu1⟩ := uo u1 h2
        rw [hu1']
        exact mergeTiers_perm w config walk' hPerm hDistinct rest f1 f1' u1 u1' hf1 hu1


/-- If in every walk no two regular files share a base name, then handing the visits of
every walk to the walk function in any other order leaves the outcome of the resolution as
it is: the flag is left the same, and the files and units sequences are produced in the one
case exactly when they are in the other, and are the same.  Moreover the two sequences
depend on the merged sets only through their lookups, not on the iteration order of the
maps. -/
theorem resolveSequences_walk_order (w : World) (config : RenderConfig)
    (templateDir path : String) (commonAdded : Bool) (walk' : String → List WalkVisit)
    (hPerm : ∀ p, (walk' p).Perm (w.Walk p))
    (hDistinct : ∀ p, (w.Walk p).Pairwise noCollision) :
    (resolveSequences { w with Walk := walk' } config templateDir path commonAdded).2
      = (resolveSequences w config templateDir path commonAdded).2
    ∧ (resolveSequences { w with Walk := walk' } config templateDir path commonAdded).1.toOption
      = (resolveSequences w config templateDir path commonAdded).1.toOption
    ∧ (∀ files files' units units' : GoMap,
        (∀ k, files'.lookup k = files.lookup k) → (∀ k, units'.lookup k = units.lookup k) →
        (keySortVals files', keySortVals units') = (keySortVals files, keySortVals units)) := by
  refine ⟨?_, ?_, fun files files' units units' hf hu => by
    rw [keySortVals_congr hf, keySortVals_congr hu]⟩
  all_goals
    unfold resolveSequences
    rcases platformStringFromControllerConfigSpec config.ControllerConfigSpec with ⟨_ | ps, ic⟩
    · rfl
    · simp only
      rcases getPaths { config with ControllerConfigSpec := ic } ps with _ | paths
      · rfl
      · simp only [platformDirsOf_setWalk]
        rcases platformDirsOf w paths templateDir path commonAdded with ⟨_ | dirs, gate⟩
        · rfl
        · simp only
          obtain ⟨he, ho⟩ := mergeTiers_perm w { config with ControllerConfigSpec := ic } walk'
            hPerm hDistinct dirs ∅ ∅ ∅ ∅ (fun _ => rfl) (fun _ => rfl)
          rcases h : mergeTiers w { config with ControllerConfigSpec := ic } dirs ∅ ∅
            with e | ⟨a, b⟩
          · obtain ⟨e', he'⟩ := he e h
            rw [he']
            try rfl
          · obtain ⟨a', b', hab, ha, hb⟩ := ho a b h
            rw [hab]
            try simp only [keySortVals_congr ha, keySortVals_congr hb]


/-! ## The common tiers and the one-shot flag -/

theorem collectDirs_ok (w : World) (mk : String → String) :
    ∀ (l acc dirs : List String), collectDirs w mk l acc = .ok dirs →
      dirs = acc ++ (l.filter (fun d => decide (existsDir w (mk d) = .ok true))).map mk
  | [], acc, dirs, h => by
    simp only [collectDirs, Except.ok.injEq] at h
    simp [h]
  | d :: rest, acc, dirs, h => by
    rw [collectDirs] at h
    rcases hE : existsDir w (mk d) with e | b
    · rw [hE] at h; simp at h
    · cases b
      · rw [hE] at h
        simp only at h
        rw [collectDirs_ok w mk rest acc dirs h]
        simp [hE]
      · rw [hE] at h
        simp only at h
        rw [collectDirs_ok w mk rest _ dirs h]
        simp [hE]

theorem platformDirsOf_closed (w : World) (paths : List String) (templateDir path : String) :
    platformDirsOf w paths templateDir path true
      = (collectDirs w (fun dir => filepathJoin [path, dir]) paths [], true) := by
  simp [platformDirsOf]

theorem platformDirsOf_ok_flag (w : World) (paths : List String) (templateDir path : String)
    (commonAdded : Bool) (dirs : List String)
    (h : (platformDirsOf w paths templateDir path commonAdded).1 = .ok dirs) :
    (platformDirsOf w paths templateDir path commonAdded).2 = true := by
  cases commonAdded
  · unfold platformDirsOf at h ⊢
    simp only [Bool.not_false, if_true] at h ⊢
    rcases hC : collectDirs w (fun dir => filepathJoin [templateDir, "common", dir]) paths []
      with e | ds
    · rw [hC] at h; simp at h
    · rfl
  · rw [platformDirsOf_closed]

theorem platformDirsOf_open (w : World) (paths : List String) (templateDir path : String)
    (dirs : List String) (h : (platformDirsOf w paths templateDir path false).1 = .ok dirs) :
    dirs = (paths.filter (fun d => decide
              (existsDir w (filepathJoin [templateDir, "common", d]) = .ok true))).map
            (fun dir => filepathJoin [templateDir, "common", dir])
        ++ (paths.filter (fun d => decide
              (existsDir w (filepathJoin [path, d]) = .ok true))).map
            (fun dir => filepathJoin [path, dir]) := by
  unfold platformDirsOf at h
  simp only [Bool.not_false, if_true] at h
  rcases hC : collectDirs w (fun dir => filepathJoin [templateDir, "common", dir]) paths []
    with e | ds
  · rw [hC] at h; simp at h
  · rw [hC] at h
    simp only at h
    have h1 := collectDirs_ok w _ paths [] ds hC
    have h2 := collectDirs_ok w _ paths ds dirs h
    rw [h2, h1]
    simp

theorem resolveSequences_ok_flag (w : World) (config : RenderConfig)
    (templateDir path : String) (commonAdded flag : Bool) (r : List String × List String)
    (h : resolveSequences w config templateDir path commonAdded = (.ok r, flag)) :
    flag = true := by
  unfold resolveSequences at h
  rcases hS : platformStringFromControllerConfigSpec config.ControllerConfigSpec
    with ⟨_ | ps, ic⟩
  · rw [hS] at h; simp at h
  · rw [hS] at h
    simp only at h
    rcases hGP : getPaths { config with ControllerConfigSpec := ic } ps with _ | paths
    · rw [hGP] at h; simp at h
    · rw [hGP] at h
      simp only at h
      have hflag := platformDirsOf_ok_flag w paths templateDir path commonAdded
      rcases hP : platformDirsOf w paths templateDir path commonAdded with ⟨_ | dirs, g⟩
      · rw [hP] at h; simp at h
      · rw [hP] at h hflag
        simp only at h
        have hg : g = true := hflag dirs rfl
        rcases hM : mergeTiers w { config with ControllerConfigSpec := ic } dirs ∅ ∅
          with e | ⟨a, b⟩
        · rw [hM] at h; simp at h
        · rw [hM] at h
          simp only [Prod.mk.injEq] at h
          rw [← h.2, hg]

theorem generateMachineConfigForName_ok_flag (w : World) (config : RenderConfig)
    (role name templateDir path : String) (commonAdded flag : Bool) (mc : MachineConfig)
    (h : generateMachineConfigForName w config role name templateDir path commonAdded
      = (.ok mc, flag)) : flag = true := by
  unfold generateMachineConfigForName at h
  rcases hR : resolveSequences w config templateDir path commonAdded with ⟨_ | ⟨fs, us⟩, g⟩
  · rw [hR] at h; simp at h
  · have hg := resolveSequences_ok_flag w config templateDir path commonAdded g _ hR
    rw [hR] at h
    simp only at h
    rcases hT : w.TranspileCoreOSConfigToIgn fs us with e | ign
    · rw [hT] at h; simp at h
    · rw [hT] at h
      simp only at h
      rcases hB : w.MachineConfigFromIgnConfig role name ign with e | m
      · rw [hB] at h; simp at h
      · rw [hB] at h
        simp only [Prod.mk.injEq] at h
        rw [← h.2, hg]

theorem roleLoop_from (w : World) (config : RenderConfig) (role templateDir path : String) :
    ∀ (infos : List FileInfo) (gate : Bool) (acc cfgs : List MachineConfig),
      roleLoop w config role templateDir path infos gate acc = .ok cfgs →
      ∃ mcs, cfgs = acc ++ mcs
        ∧ List.Forall₂
            (fun (dg : FileInfo × Bool) (out : MachineConfig) =>
              ∃ mc, generateMachineConfigForName w config role dg.1.name templateDir
                  (filepathJoin [path, dg.1.name]) dg.2 = (.ok mc, true)
                ∧ out = if dg.1.name = baseMasterKubeletMC ∨ dg.1.name = baseWorkerKubeletMC
                    then updateMCwithDefaultCgroupsVersion mc else mc)
            (match infos.filter (fun i => i.isDir) with
             | [] => []
             | first :: later => (first, gate) :: later.map (fun d => (d, true)))
            mcs
  | [], gate, acc, cfgs, h => by
    simp only [roleLoop, Except.ok.injEq] at h
    exact ⟨[], by simp [h], by simp⟩
  | info :: rest, gate, acc, cfgs, h => by
    rw [roleLoop] at h
    cases hD : info.isDir
    · rw [hD] at h
      simp only [Bool.not_false, if_true] at h
      obtain ⟨mcs, h1, h2⟩ := roleLoop_from w config role templateDir path rest gate acc cfgs h
      refine ⟨mcs, h1, ?_⟩
      simpa [List.filter_cons, hD] using h2
    · rw [hD] at h
      simp only [Bool.not_true, Bool.false_eq_true, if_false] at h
      rcases hG : generateMachineConfigForName w config role info.name templateDir
        (filepathJoin [path, info.name]) gate with ⟨_ | mc, g⟩
      · rw [hG] at h; simp at h
      · have hg := generateMachineConfigForName_ok_flag w config role info.name templateDir
          (filepathJoin [path, info.name]) gate g mc hG
        subst hg
        rw [hG] at h
        simp only at h
        obtain ⟨mcs, h1, h2⟩ := roleLoop_from w config role templateDir path rest true _ cfgs h
        refine ⟨(if info.name = baseMasterKubeletMC ∨ info.name = baseWorkerKubeletMC
            then updateMCwithDefaultCgroupsVersion mc else mc) :: mcs, by rw [h1]; simp, ?_⟩
        simp only [List.filter_cons, hD, if_true]
        refine List.Forall₂.cons ⟨mc, hG, rfl⟩ ?_
        cases hL : rest.filter (fun i => i.isDir) with
        | nil => rw [hL] at h2; simpa using h2
        | cons a l => rw [hL] at h2; simpa using h2


/-! ## Paths of the common tiers and of the tiers of a name -/

theorem filepathJoin_single (x : String) : filepathJoin [x] = x := by
  by_cases h : x = ""
  · simp [filepathJoin, h]
  · simp [filepathJoin, h]

theorem ne_empty_of_data {x : String} {c : Char} {cs : List Char} (h : x.data = c :: cs) :
    x ≠ "" := by
  intro hx
  rw [hx] at h
  simp at h

theorem filepathJoin_cons_data (t : String) (es : List String) (c : Char) (cs : List Char)
    (h : (filepathJoin es).data = c :: cs) :
    (filepathJoin (t :: es)).data
      = (if t = "" then [] else t.data ++ ['/']) ++ (filepathJoin es).data := by
  have hne : filepathJoin es ≠ "" := ne_empty_of_data h
  by_cases ht : t = ""
  · simp [filepathJoin, ht]
  · simp [filepathJoin, ht, hne]

theorem filepathJoin_pair_data (a b : String) (c : Char) (cs : List Char)
    (h : a.data = c :: cs) : ∃ suf, (filepathJoin [a, b]).data = a.data ++ suf := by
  have hne : a ≠ "" := ne_empty_of_data h
  by_cases hb : b = ""
  · exact ⟨[], by simp [filepathJoin, hne, hb]⟩
  · exact ⟨'/' :: b.data, by simp [filepathJoin, hne, hb, filepathJoin_single]⟩

theorem rolePathOf_cases (role : String) : rolePathOf role = "worker" ∨ rolePathOf role = "master" := by
  unfold rolePathOf
  by_cases h1 : role = "worker"
  · simp [h1]
  · by_cases h2 : role = "master"
    · simp [h2]
    · simp [h1, h2]

theorem ownDir_ne_commonDir (templateDir role name dir dir' : String) :
    filepathJoin [filepathJoin [filepathJoin [templateDir, rolePathOf role], name], dir]
      ≠ filepathJoin [templateDir, "common", dir'] := by
  obtain ⟨r, rs, hr, hrc⟩ : ∃ r rs, (rolePathOf role).data = r :: rs ∧ r ≠ 'c' := by
    rcases rolePathOf_cases role with h | h
    · exact ⟨'w', "orker".data, by rw [h], by decide⟩
    · exact ⟨'m', "aster".data, by rw [h], by decide⟩
  have h1 := filepathJoin_cons_data templateDir [rolePathOf role] r rs
    (by rw [filepathJoin_single]; exact hr)
  rw [filepathJoin_single] at h1
  have h1' : ∃ c cs, (filepathJoin [templateDir, rolePathOf role]).data = c :: cs := by
    rw [h1, hr]
    by_cases ht : templateDir = ""
    · exact ⟨r, rs, by simp [ht]⟩
    · rcases hd : templateDir.data with _ | ⟨c, cs⟩
      · exact absurd (String.ext_iff.mpr (by rw [hd])) ht
      · exact ⟨c, cs ++ '/' :: r :: rs, by simp [ht]⟩
  obtain ⟨c1, cs1, hc1⟩ := h1'
  obtain ⟨suf1, h2⟩ := filepathJoin_pair_data _ name c1 cs1 hc1
  have h2' : (filepathJoin [filepathJoin [templateDir, rolePathOf role], name]).data
      = c1 :: (cs1 ++ suf1) := by rw [h2, hc1]; rfl
  obtain ⟨suf2, h3⟩ := filepathJoin_pair_data _ dir c1 (cs1 ++ suf1) h2'
  obtain ⟨suf3, h4⟩ := filepathJoin_pair_data "common" dir' 'c' "ommon".data rfl
  have h4' : (filepathJoin ["common", dir']).data = 'c' :: ("ommon".data ++ suf3) := by
    rw [h4]; rfl
  have h5 := filepathJoin_cons_data templateDir ["common", dir'] 'c' _ h4'
  intro heq
  have hdata := congrArg String.data heq
  rw [h3, h2, h1, h5, h4', hr] at hdata
  simp only [List.append_assoc] at hdata
  have := List.append_cancel_left hdata
  simp only [List.cons_append, List.cons.injEq] at this
  exact hrc this.1


/-! ## Custom roles -/

theorem generateMachineConfigForName_relabel (w : World) (config : RenderConfig)
    (role name templateDir path : String) (commonAdded : Bool) :
    generateMachineConfigForName
        { w with MachineConfigFromIgnConfig :=
            fun _ name ignCfg => w.MachineConfigFromIgnConfig role name ignCfg }
        config "worker" name templateDir path commonAdded
      = generateMachineConfigForName w config role name templateDir path commonAdded := by
  unfold generateMachineConfigForName
  rw [resolveSequences_congr w
    { w with MachineConfigFromIgnConfig :=
        fun _ name ignCfg => w.MachineConfigFromIgnConfig role name ignCfg }
    rfl rfl rfl rfl]

theorem roleLoop_relabel (w : World) (config : RenderConfig) (role templateDir path : String) :
    ∀ (infos : List FileInfo) (gate : Bool) (acc : List MachineConfig),
      roleLoop
          { w with MachineConfigFromIgnConfig :=
              fun _ name ignCfg => w.MachineConfigFromIgnConfig role name ignCfg }
          config "worker" templateDir path infos gate acc
        = roleLoop w config role templateDir path infos gate acc
  | [], _, _ => rfl
  | info :: rest, gate, acc => by
    rw [roleLoop, roleLoop]
    simp only [generateMachineConfigForName_relabel]
    cases info.isDir
    · simp only [Bool.not_false, if_true]
      exact roleLoop_relabel w config role templateDir path rest gate acc
    · simp only [Bool.not_true, Bool.false_eq_true, if_false]
      rcases generateMachineConfigForName w config role info.name templateDir
        (filepathJoin [path, info.name]) gate with ⟨_ | mc, g⟩
      · rfl
      · exact roleLoop_relabel w config role templateDir path rest g _

/-- C10: for a role other than `master` and `worker` the role directory is
`<templateDir>/worker`; every name is resolved from the same paths to the same files and units
sequences as for role `worker`; and the whole result is the one of role `worker` with the
builder of the objects given the custom role instead of `worker`.  For `master` and `worker`
the role directory is `<templateDir>/<role>`. -/
theorem custom_role_alias (w : World) (config : RenderConfig) (role templateDir : String)
    (hWorker : role ≠ "worker") (hMaster : role ≠ "master") :
    filepathJoin [templateDir, rolePathOf role] = filepathJoin [templateDir, "worker"]
    ∧ (∀ (name : String) (commonAdded : Bool),
        resolveSequences w config templateDir
            (filepathJoin [filepathJoin [templateDir, rolePathOf role], name]) commonAdded
          = resolveSequences w config templateDir
            (filepathJoin [filepathJoin [templateDir, rolePathOf "worker"], name]) commonAdded)
    ∧ GenerateMachineConfigsForRole w config role templateDir
        = GenerateMachineConfigsForRole
            { w with MachineConfigFromIgnConfig :=
                fun _ name ignCfg => w.MachineConfigFromIgnConfig role name ignCfg }
            config "worker" templateDir
    ∧ filepathJoin [templateDir, rolePathOf "master"] = filepathJoin [templateDir, "master"]
    ∧ filepathJoin [templateDir, rolePathOf "worker"] = filepathJoin [templateDir, "worker"] := by
  have hR : rolePathOf role = "worker" := by simp [rolePathOf, hWorker, hMaster]
  have hW : rolePathOf "worker" = "worker" := by decide
  have hM : rolePathOf "master" = "master" := by decide
  refine ⟨by rw [hR], fun name g => by rw [hR, hW], ?_, by rw [hM], by rw [hW]⟩
  unfold GenerateMachineConfigsForRole
  simp only [hR, hW]
  rcases w.ReadDir (filepathJoin [templateDir, "worker"]) with e | infos
  · rfl
  · exact (roleLoop_relabel w config role templateDir _ infos false []).symm

/-- C10, instance: in the example repository the custom role `infra` gets the objects of
`worker`, labelled `infra`. -/
theorem custom_role_alias_witness :
    GenerateMachineConfigsForRole exampleWorld exampleConfig "infra" "t"
      = .ok [{ Name := "00-worker",
               Labels := [("machineconfiguration.openshift.io/role", "infra")],
               Spec := { OSImageURL := "base-image", Config := "files:A0,C2,D1;units:crio" } },
             { Name := "01-worker-kubelet",
               Labels := [("machineconfiguration.openshift.io/role", "infra")],
               Spec := { OSImageURL := "base-image", Config := "files:;units:kubelet",
                         KernelArguments := ["systemd.unified_cgroup_hierarchy=0",
                           "systemd.legacy_systemd_cgroup_controller=1"] } }] :=
  (custom_role_alias exampleWorld exampleConfig "infra" "t" (by decide) (by decide)).2.2.1.trans
    (by decide)



/-! ## Missing tier directories -/

theorem collectDirs_error_iff (w : World) (mk : String → String) :
    ∀ (l acc : List String),
      (∃ e, collectDirs w mk l acc = .error e) ↔ ∃ d ∈ l, ∃ e, existsDir w (mk d) = .error e
  | [], acc => by simp [collectDirs]
  | d :: rest, acc => by
    rw [collectDirs]
    rcases hE : existsDir w (mk d) with e | b
    · simp only [List.mem_cons, exists_eq_or_imp]
      constructor
      · intro _; exact Or.inl ⟨e, hE⟩
      · intro _; exact ⟨e, rfl⟩
    · have hno : ¬ ∃ e, existsDir w (mk d) = .error e := by rw [hE]; simp
      cases b
      · simp only
        rw [collectDirs_error_iff w mk rest acc]
        simp only [List.mem_cons, exists_eq_or_imp, hno, false_or]
      · simp only
        rw [collectDirs_error_iff w mk rest _]
        simp only [List.mem_cons, exists_eq_or_imp, hno, false_or]

theorem collectDirs_ok_filter (w : World) (mk : String → String) (l acc dirs : List String)
    (h : collectDirs w mk l acc = .ok dirs) :
    dirs = acc ++ (l.map mk).filter (fun q => decide (existsDir w q = .ok true)) := by
  rw [collectDirs_ok w mk l acc dirs h, List.filter_map]
  rfl

/-- C11: `existsDir` returns false without error exactly when the path does not exist, true
without error exactly when it is a directory, and an error exactly when the path cannot be
inspected or is not a directory.  The tier selection of `generateMachineConfigForName` (the
two loops over the tier names, the common one only while the flag is false) fails exactly
when `existsDir` returns an error for one of the tier directories it examines, and otherwise
its list is the examined tier directories, in their order, without those that do not exist. -/
theorem missing_tier_skipped (w : World) (p : String) (paths : List String)
    (templateDir path : String) (commonAdded : Bool) :
    (existsDir w p = .ok false ↔ w.Stat p = .error .notExist)
    ∧ (existsDir w p = .ok true ↔ ∃ info, w.Stat p = .ok info ∧ info.isDir = true)
    ∧ ((∃ e, existsDir w p = .error e) ↔
        (w.Stat p = .error .other ∨ ∃ info, w.Stat p = .ok info ∧ info.isDir = false))
    ∧ ((∃ e, (platformDirsOf w paths templateDir path commonAdded).1 = .error e) ↔
        ∃ q ∈ (if commonAdded then []
                else paths.map (fun dir => filepathJoin [templateDir, "common", dir]))
              ++ paths.map (fun dir => filepathJoin [path, dir]),
          ∃ e, existsDir w q = .error e)
    ∧ (∀ dirs, (platformDirsOf w paths templateDir path commonAdded).1 = .ok dirs →
        dirs = ((if commonAdded then []
                  else paths.map (fun dir => filepathJoin [templateDir, "common", dir]))
                ++ paths.map (fun dir => filepathJoin [path, dir])).filter
              (fun q => decide (existsDir w q = .ok true))
        ∧ ∀ q ∈ (if commonAdded then []
                  else paths.map (fun dir => filepathJoin [templateDir, "common", dir]))
                ++ paths.map (fun dir => filepathJoin [path, dir]),
            q ∉ dirs → existsDir w q = .ok false) := by
  have hStat : (existsDir w p = .ok false ↔ w.Stat p = .error .notExist)
      ∧ (existsDir w p = .ok true ↔ ∃ info, w.Stat p = .ok info ∧ info.isDir = true)
      ∧ ((∃ e, existsDir w p = .error e) ↔
          (w.Stat p = .error .other ∨ ∃ info, w.Stat p = .ok info ∧ info.isDir = false)) := by
    unfold existsDir
    rcases w.Stat p with e | info
    · cases e <;> simp
    · cases hD : info.isDir <;> simp [hD]
  have hErr : (∃ e, (platformDirsOf w paths templateDir path commonAdded).1 = .error e) ↔
      ∃ q ∈ (if commonAdded then []
              else paths.map (fun dir => filepathJoin [templateDir, "common", dir]))
            ++ paths.map (fun dir => filepathJoin [path, dir]),
        ∃ e, existsDir w q = .error e := by
    have hC := collectDirs_error_iff w (fun dir => filepathJoin [templateDir, "common", dir])
      paths []
    cases commonAdded
    · unfold platformDirsOf
      simp only [Bool.not_false, if_true, Bool.false_eq_true, if_false, List.mem_append,
        List.mem_map, or_and_right, exists_or]
      rcases hR : collectDirs w (fun dir => filepathJoin [templateDir, "common", dir]) paths []
        with e | ds
      · have h1 := hC.mp ⟨e, hR⟩
        simp only
        constructor
        · intro _
          obtain ⟨d, hd, e', he'⟩ := h1
          exact Or.inl ⟨_, ⟨d, hd, rfl⟩, e', he'⟩
        · intro _; exact ⟨e, rfl⟩
      · have h1 : ¬ ∃ d ∈ paths, ∃ e,
            existsDir w (filepathJoin [templateDir, "common", d]) = .error e := by
          rw [← hC, hR]; simp
        simp only
        rw [collectDirs_error_iff w (fun dir => filepathJoin [path, dir]) paths ds]
        constructor
        · rintro ⟨d, hd, e, he⟩
          exact Or.inr ⟨_, ⟨d, hd, rfl⟩, e, he⟩
        · rintro (⟨q, ⟨d, hd, rfl⟩, e, he⟩ | ⟨q, ⟨d, hd, rfl⟩, e, he⟩)
          · exact absurd ⟨d, hd, e, he⟩ h1
          · exact ⟨d, hd, e, he⟩
    · rw [platformDirsOf_closed]
      simp only [if_true, List.nil_append, List.mem_map]
      rw [collectDirs_error_iff w (fun dir => filepathJoin [path, dir]) paths []]
      constructor
      · rintro ⟨d, hd, e, he⟩
        exact ⟨_, ⟨d, hd, rfl⟩, e, he⟩
      · rintro ⟨q, ⟨d, hd, rfl⟩, e, he⟩
        exact ⟨d, hd, e, he⟩
  refine ⟨hStat.1, hStat.2.1, hStat.2.2, hErr, ?_⟩
  intro dirs hOk
  have hEq : dirs = ((if commonAdded then []
                  else paths.map (fun dir => filepathJoin [templateDir, "common", dir]))
                ++ paths.map (fun dir => filepathJoin [path, dir])).filter
              (fun q => decide (existsDir w q = .ok true)) := by
    cases commonAdded
    · have := platformDirsOf_open w paths templateDir path dirs hOk
      rw [this]
      simp only [Bool.false_eq_true, if_false, List.filter_append, List.filter_map]
      rfl
    · rw [platformDirsOf_closed] at hOk
      have := collectDirs_ok_filter w _ paths [] dirs hOk
      simpa using this
  refine ⟨hEq, ?_⟩
  intro q hq hnot
  have hnoErr : ¬ ∃ e, existsDir w q = .error e := by
    intro he
    have := hErr.mpr ⟨q, hq, he⟩
    rw [hOk] at this
    simp at this
  rcases hE : existsDir w q with e | b
  · exact absurd ⟨e, hE⟩ hnoErr
  · cases b
    · rfl
    · exfalso
      apply hnot
      rw [hEq, List.mem_filter]
      exact ⟨hq, by simp [hE]⟩

/-! ## Kernel arguments -/

theorem foldl_keep (v2 : List String) :
    ∀ (l init : List String),
      l.foldl (fun acc arg => if !(decide (arg ∈ v2)) then acc ++ [arg] else acc) init
        = init ++ l.filter (fun arg => !(decide (arg ∈ v2)))
  | [], init => by simp
  | a :: rest, init => by
    rw [List.foldl_cons, foldl_keep v2 rest]
    by_cases h : a ∈ v2
    · simp [h]
    · simp [h]

theorem kernelArguments_eq (mc : MachineConfig) :
    (updateMCwithDefaultCgroupsVersion mc).Spec.KernelArguments
      = mc.Spec.KernelArguments.filter (fun arg => !(decide (arg ∈
            ["systemd.unified_cgroup_hierarchy=1", "cgroup_no_v1=\"all\"", "psi=1"])))
        ++ ["systemd.unified_cgroup_hierarchy=0",
            "systemd.legacy_systemd_cgroup_controller=1"].filter
          (fun arg => !(decide (arg ∈ mc.Spec.KernelArguments.filter (fun arg =>
            !(decide (arg ∈
              ["systemd.unified_cgroup_hierarchy=1", "cgroup_no_v1=\"all\"", "psi=1"])))))) := by
  unfold updateMCwithDefaultCgroupsVersion
  simp only [foldl_keep, List.nil_append, List.foldl_cons, List.foldl_nil]
  generalize mc.Spec.KernelArguments.filter (fun arg => !(decide (arg ∈
    ["systemd.unified_cgroup_hierarchy=1", "cgroup_no_v1=\"all\"", "psi=1"]))) = retained
  have hne : ("systemd.legacy_systemd_cgroup_controller=1" : String)
      ≠ "systemd.unified_cgroup_hierarchy=0" := by decide
  by_cases h0 : "systemd.unified_cgroup_hierarchy=0" ∈ retained
  · by_cases h1 : "systemd.legacy_systemd_cgroup_controller=1" ∈ retained
    · simp [h0, h1, List.filter]
    · simp [h0, h1, List.filter]
  · by_cases h1 : "systemd.legacy_systemd_cgroup_controller=1" ∈ retained
    · simp [h0, h1, List.filter]
    · simp [h0, h1, hne, List.filter]

/-- C12: `updateMCwithDefaultCgroupsVersion` sets the kernel arguments to the existing
arguments without the three cgroup-v2 markers, in their order, followed by each of the two v1
arguments, in their order, that is not among the retained ones.  The result holds no v2
marker, holds both v1 arguments, and holds a v1 argument that was present before as many
times as before. -/
theorem kernelArguments_normalized (mc : MachineConfig) :
    (updateMCwithDefaultCgroupsVersion mc).Spec.KernelArguments
      = mc.Spec.KernelArguments.filter (fun arg => !(decide (arg ∈
            ["systemd.unified_cgroup_hierarchy=1", "cgroup_no_v1=\"all\"", "psi=1"])))
        ++ ["systemd.unified_cgroup_hierarchy=0",
            "systemd.legacy_systemd_cgroup_controller=1"].filter
          (fun arg => !(decide (arg ∈ mc.Spec.KernelArguments.filter (fun arg =>
            !(decide (arg ∈
              ["systemd.unified_cgroup_hierarchy=1", "cgroup_no_v1=\"all\"", "psi=1"]))))))
    ∧ (mc.Spec.KernelArguments.filter (fun arg => !(decide (arg ∈
            ["systemd.unified_cgroup_hierarchy=1", "cgroup_no_v1=\"all\"", "psi=1"])))).Sublist
        mc.Spec.KernelArguments
    ∧ (∀ a ∈ ["systemd.unified_cgroup_hierarchy=1", "cgroup_no_v1=\"all\"", "psi=1"],
        a ∉ (updateMCwithDefaultCgroupsVersion mc).Spec.KernelArguments)
    ∧ (∀ a ∈ ["systemd.unified_cgroup_hierarchy=0",
              "systemd.legacy_systemd_cgroup_controller=1"],
        a ∈ (updateMCwithDefaultCgroupsVersion mc).Spec.KernelArguments)
    ∧ (∀ a ∈ ["systemd.unified_cgroup_hierarchy=0",
              "systemd.legacy_systemd_cgroup_controller=1"],
        a ∈ mc.Spec.KernelArguments →
        (updateMCwithDefaultCgroupsVersion mc).Spec.KernelArguments.count a
          = mc.Spec.KernelArguments.count a) := by
  have hv1 : ∀ a ∈ ["systemd.unified_cgroup_hierarchy=0",
      "systemd.legacy_systemd_cgroup_controller=1"],
      a ∉ ["systemd.unified_cgroup_hierarchy=1", "cgroup_no_v1=\"all\"", "psi=1"] := by
    decide
  refine ⟨kernelArguments_eq mc, List.filter_sublist _, ?_, ?_, ?_⟩
  · intro a ha hin
    rw [kernelArguments_eq, List.mem_append, List.mem_filter, List.mem_filter] at hin
    rcases hin with ⟨_, h⟩ | ⟨h, _⟩
    · simp [ha] at h
    · exact hv1 a h ha
  · intro a ha
    rw [kernelArguments_eq, List.mem_append]
    by_cases h : a ∈ mc.Spec.KernelArguments.filter (fun arg => !(decide (arg ∈
        ["systemd.unified_cgroup_hierarchy=1", "cgroup_no_v1=\"all\"", "psi=1"])))
    · exact Or.inl h
    · exact Or.inr (List.mem_filter.mpr ⟨ha, by
        rw [Bool.not_eq_true', decide_eq_false_iff_not]; exact h⟩)
  · intro a ha hin
    have hkeep : (!(decide (a ∈
        ["systemd.unified_cgroup_hierarchy=1", "cgroup_no_v1=\"all\"", "psi=1"]))) = true := by
      simp [hv1 a ha]
    have hret : a ∈ mc.Spec.KernelArguments.filter (fun arg => !(decide (arg ∈
        ["systemd.unified_cgroup_hierarchy=1", "cgroup_no_v1=\"all\"", "psi=1"]))) :=
      List.mem_filter.mpr ⟨hin, hkeep⟩
    have hnot : a ∉ ["systemd.unified_cgroup_hierarchy=0",
        "systemd.legacy_systemd_cgroup_controller=1"].filter
          (fun arg => !(decide (arg ∈ mc.Spec.KernelArguments.filter (fun arg =>
            !(decide (arg ∈
              ["systemd.unified_cgroup_hierarchy=1", "cgroup_no_v1=\"all\"", "psi=1"])))))) := by
      intro h
      have h2 := (List.mem_filter.mp h).2
      rw [Bool.not_eq_true', decide_eq_false_iff_not] at h2
      exact h2 hret
    rw [kernelArguments_eq, List.count_append, List.count_eq_zero_of_not_mem hnot,
      Nat.add_zero]
    exact List.count_filter (p := fun arg => !(decide (arg ∈
        ["systemd.unified_cgroup_hierarchy=1", "cgroup_no_v1=\"all\"", "psi=1"])))
      (l := mc.Spec.KernelArguments) hkeep

/-! ## The functions offered to templates -/

theorem skipKeyValidate_iff (key : String) :
    skipKeyValidate key = true ↔
      ∃ c cs, key.data = c :: cs
        ∧ (c = '_' ∨ ('a'.toNat ≤ c.toNat ∧ c.toNat ≤ 'z'.toNat))
        ∧ ∀ x ∈ cs, ('A'.toNat ≤ x.toNat ∧ x.toNat ≤ 'Z'.toNat)
            ∨ ('a'.toNat ≤ x.toNat ∧ x.toNat ≤ 'z'.toNat)
            ∨ ('0'.toNat ≤ x.toNat ∧ x.toNat ≤ '9'.toNat) ∨ x = '_' := by
  unfold skipKeyValidate
  rcases hd : key.data with _ | ⟨c, cs⟩
  · simp
  · simp only [Bool.and_eq_true, List.all_eq_true, List.cons.injEq, isSkipKeyStart, isWordChar,
      Bool.or_eq_true, decide_eq_true_eq]
    constructor
    · rintro ⟨h1, h2⟩
      refine ⟨c, cs, ⟨rfl, rfl⟩, h1, fun x hx => ?_⟩
      rcases h2 x hx with ((h | h) | h) | h
      · exact Or.inr (Or.inr (Or.inl h))
      · exact Or.inl h
      · exact Or.inr (Or.inr (Or.inr h))
      · exact Or.inr (Or.inl h)
    · rintro ⟨c', cs', ⟨rfl, rfl⟩, h1, h2⟩
      refine ⟨h1, fun x hx => ?_⟩
      rcases h2 x hx with h | h | h | h
      · exact Or.inl (Or.inl (Or.inr h))
      · exact Or.inr h
      · exact Or.inl (Or.inl (Or.inl h))
      · exact Or.inl (Or.inr h)

/-- C13: `skipMissing key` succeeds exactly when `key` is not empty, its first character is an
underscore or a lowercase ASCII letter, and every further character is an ASCII letter, a
digit or an underscore; on success the result is the key between `"\x7b\x7b."` and
`"\x7d\x7d"`, and otherwise it is the error of an invalid key.  For `"Foo"` it fails, for
`"foo_bar"` it gives the placeholder of `foo_bar`. -/
theorem skipMissing_spec (key : String) :
    ((∃ s, skipMissing key = .ok s) ↔
      ∃ c cs, key.data = c :: cs
        ∧ (c = '_' ∨ ('a'.toNat ≤ c.toNat ∧ c.toNat ≤ 'z'.toNat))
        ∧ ∀ x ∈ cs, ('A'.toNat ≤ x.toNat ∧ x.toNat ≤ 'Z'.toNat)
            ∨ ('a'.toNat ≤ x.toNat ∧ x.toNat ≤ 'z'.toNat)
            ∨ ('0'.toNat ≤ x.toNat ∧ x.toNat ≤ '9'.toNat) ∨ x = '_')
    ∧ (∀ s, skipMissing key = .ok s → s = "\x7b\x7b." ++ key ++ "\x7d\x7d")
    ∧ ((¬ ∃ s, skipMissing key = .ok s) → skipMissing key = .error .invalidSkipKey)
    ∧ skipMissing "Foo" = .error .invalidSkipKey
    ∧ skipMissing "foo_bar" = .ok "\x7b\x7b.foo_bar\x7d\x7d" := by
  refine ⟨?_, ?_, ?_, by decide, by decide⟩
  · rw [← skipKeyValidate_iff]
    unfold skipMissing
    cases skipKeyValidate key <;> simp
  · intro s h
    unfold skipMissing at h
    cases hv : skipKeyValidate key
    · simp [hv] at h
    · simp only [hv, Bool.not_true, Bool.false_eq_true, if_false, Except.ok.injEq] at h
      exact h.symm
  · intro h
    unfold skipMissing at h ⊢
    cases hv : skipKeyValidate key
    · simp
    · simp [hv] at h

/-- C14: when the text parses, `urlPort` returns the port of the parsed URL if it is not
empty, whatever the scheme; otherwise `"443"` for the scheme `https` and `"80"` for the
scheme `http`; otherwise the error of an unknown scheme.  It returns the error of an invalid
URL exactly when parsing fails. -/
theorem urlPort_spec (parse : String → Except String URL) (u : String) :
    (∀ parsed, parse u = .ok parsed →
      (parsed.Port ≠ "" → urlPort parse u = .ok parsed.Port)
      ∧ (parsed.Port = "" → parsed.Scheme = "http" → urlPort parse u = .ok "80")
      ∧ (parsed.Port = "" → parsed.Scheme = "https" → urlPort parse u = .ok "443")
      ∧ (parsed.Port = "" → parsed.Scheme ≠ "http" → parsed.Scheme ≠ "https" →
          urlPort parse u = .error (.unknownScheme u)))
    ∧ (urlPort parse u = .error .invalidURL ↔ ∃ e, parse u = .error e) := by
  constructor
  · intro parsed h
    unfold urlPort
    rw [h]
    refine ⟨fun hp => by simp [hp], fun hp hs => ?_, fun hp hs => by simp [hp, hs],
      fun hp h1 h2 => by simp [hp, h1, h2]⟩
    have : ¬ (parsed.Scheme = "https") := by rw [hs]; decide
    simp [hp, hs]
  · unfold urlPort
    rcases parse u with e | parsed
    · simp
    · simp only [reduceCtorEq, exists_false, iff_false]
      split_ifs <;> simp

/-- C14, the three instances named by the claim, under a model of `url.Parse` on texts of
the form `scheme://host:port`. -/
theorem urlPort_spec_witness :
    urlPort exampleParse "http://h" = .ok "80"
    ∧ urlPort exampleParse "https://h:8443" = .ok "8443"
    ∧ urlPort exampleParse "ftp://h" = .error (.unknownScheme "ftp://h") :=
  ⟨((urlPort_spec exampleParse "http://h").1 { Scheme := "http", Host := "h" } (by decide)).2.1
      (by decide) (by decide),
   ((urlPort_spec exampleParse "https://h:8443").1 { Scheme := "https", Host := "h:8443" }
      (by decide)).1 (by decide),
   ((urlPort_spec exampleParse "ftp://h").1 { Scheme := "ftp", Host := "h" } (by decide)).2.2.2
      (by decide) (by decide) (by decide)⟩

/-! ## The accessors of the on-prem platforms -/

theorem onPrem_cases {t : String}
    (h : t ∈ ["BareMetal", "oVirt", "OpenStack", "VSphere", "Nutanix"]) :
    t = "BareMetal" ∨ t = "oVirt" ∨ t = "OpenStack" ∨ t = "VSphere" ∨ t = "Nutanix" := by
  simpa using h

/-- C15, as stated, fails: for BareMetal, oVirt, OpenStack and Nutanix with the per-platform
block absent, the four accessors dereference the nil block and abort. -/
theorem absent_block_aborts_outside_vsphere :
    onPremPlatformIngressIP (absentBlockConfig "BareMetal") = .error .nilDereference
    ∧ onPremPlatformIngressIPs (absentBlockConfig "BareMetal") = .error .nilDereference
    ∧ onPremPlatformAPIServerInternalIP (absentBlockConfig "BareMetal")
        = .error .nilDereference
    ∧ onPremPlatformAPIServerInternalIPs (absentBlockConfig "BareMetal")
        = .error .nilDereference
    ∧ onPremPlatformIngressIP (absentBlockConfig "oVirt") = .error .nilDereference
    ∧ onPremPlatformIngressIP (absentBlockConfig "OpenStack") = .error .nilDereference
    ∧ onPremPlatformIngressIP (absentBlockConfig "Nutanix") = .error .nilDereference := by
  refine ⟨by decide, by decide, by decide, by decide, by decide, by decide, by decide⟩

/-- C15, amended: for VSphere with the block `VSphere` absent, the two singular accessors
return nil and the two plural accessors return an empty list, without error and without
aborting; and for each of the five on-prem platform types with its block absent,
`isOpenShiftManagedDefaultLB` returns false. -/
theorem absent_block_vsphere (cfg : RenderConfig) (infra : Infrastructure)
    (ps : PlatformStatus) (hInfra : cfg.ControllerConfigSpec.Infra = some infra)
    (hStatus : infra.Status.PlatformStatus = some ps) :
    (ps.type = "VSphere" → ps.VSphere = none →
      onPremPlatformIngressIP cfg = .ok (.ok .nil)
      ∧ onPremPlatformIngressIPs cfg = .ok (.ok (.strs []))
      ∧ onPremPlatformAPIServerInternalIP cfg = .ok (.ok .nil)
      ∧ onPremPlatformAPIServerInternalIPs cfg = .ok (.ok (.strs [])))
    ∧ (ps.type ∈ ["BareMetal", "oVirt", "OpenStack", "VSphere", "Nutanix"] →
        blockOf ps = none → isOpenShiftManagedDefaultLB cfg = .ok false) := by
  constructor
  · intro ht hb
    simp [onPremPlatformIngressIP, onPremPlatformIngressIPs, onPremPlatformAPIServerInternalIP,
      onPremPlatformAPIServerInternalIPs, hInfra, hStatus, ht, hb, BareMetalPlatformType,
      OvirtPlatformType, OpenStackPlatformType, VSpherePlatformType]
  · intro ht hb
    rcases onPrem_cases ht with h | h | h | h | h <;>
      simp [blockOf, h, BareMetalPlatformType, OvirtPlatformType, OpenStackPlatformType,
        VSpherePlatformType, NutanixPlatformType] at hb <;>
      simp [isOpenShiftManagedDefaultLB, hInfra, hStatus, h, hb, lbOfBlock,
        BareMetalPlatformType, OvirtPlatformType, OpenStackPlatformType, VSpherePlatformType,
        NutanixPlatformType]

/-- C15, amended, instance: VSphere without its block. -/
theorem absent_block_vsphere_witness :
    (onPremPlatformIngressIP (absentBlockConfig "VSphere") = .ok (.ok .nil)
      ∧ onPremPlatformIngressIPs (absentBlockConfig "VSphere") = .ok (.ok (.strs []))
      ∧ onPremPlatformAPIServerInternalIP (absentBlockConfig "VSphere") = .ok (.ok .nil)
      ∧ onPremPlatformAPIServerInternalIPs (absentBlockConfig "VSphere")
          = .ok (.ok (.strs [])))
    ∧ isOpenShiftManagedDefaultLB (absentBlockConfig "BareMetal") = .ok false :=
  ⟨(absent_block_vsphere (absentBlockConfig "VSphere") _ { type := "VSphere" } rfl rfl).1
      rfl rfl,
   (absent_block_vsphere (absentBlockConfig "BareMetal") _ { type := "BareMetal" } rfl rfl).2
      (by decide) (by decide)⟩

/-- C16: for each of the five on-prem platform types with its block present, the plural
accessors return the IP lists of the block; the singular accessors return the first element
of the list when it is not empty; when it is empty they return nil without error for VSphere
and abort on the index for BareMetal, oVirt, OpenStack and Nutanix. -/
theorem singular_is_first_of_plural (cfg : RenderConfig) (infra : Infrastructure)
    (ps : PlatformStatus) (b : OnPremPlatformStatus)
    (hInfra : cfg.ControllerConfigSpec.Infra = some infra)
    (hStatus : infra.Status.PlatformStatus = some ps)
    (hType : ps.type ∈ ["BareMetal", "oVirt", "OpenStack", "VSphere", "Nutanix"])
    (hBlock : blockOf ps = some b) :
    onPremPlatformIngressIPs cfg = .ok (.ok (.strs b.IngressIPs))
    ∧ onPremPlatformAPIServerInternalIPs cfg = .ok (.ok (.strs b.APIServerInternalIPs))
    ∧ onPremPlatformIngressIP cfg
        = (match b.IngressIPs with
           | ip :: _ => .ok (.ok (.str ip))
           | [] => if ps.type = "VSphere" then .ok (.ok .nil) else .error .indexOutOfRange)
    ∧ onPremPlatformAPIServerInternalIP cfg
        = (match b.APIServerInternalIPs with
           | ip :: _ => .ok (.ok (.str ip))
           | [] => if ps.type = "VSphere" then .ok (.ok .nil) else .error .indexOutOfRange) := by
  rcases onPrem_cases hType with h | h | h | h | h <;>
    simp [blockOf, h, BareMetalPlatformType, OvirtPlatformType, OpenStackPlatformType,
      VSpherePlatformType, NutanixPlatformType] at hBlock <;>
    (refine ⟨?_, ?_, ?_, ?_⟩ <;>
      simp [onPremPlatformIngressIP, onPremPlatformIngressIPs,
        onPremPlatformAPIServerInternalIP, onPremPlatformAPIServerInternalIPs, hInfra,
        hStatus, h, hBlock, firstOf, allOf, BareMetalPlatformType, OvirtPlatformType,
        OpenStackPlatformType, VSpherePlatformType, NutanixPlatformType])
  all_goals first
    | (cases b.IngressIPs <;> simp)
    | (cases b.APIServerInternalIPs <;> simp)

/-- C16, instances: OpenStack with two ingress addresses, VSphere with none, and BareMetal
with none. -/
theorem singular_is_first_of_plural_witness :
    onPremPlatformIngressIP
        (blockConfig "OpenStack" { IngressIPs := ["10.0.0.7", "fd00::7"] })
      = .ok (.ok (.str "10.0.0.7"))
    ∧ onPremPlatformIngressIP (blockConfig "VSphere" {}) = .ok (.ok .nil)
    ∧ onPremPlatformIngressIP (blockConfig "BareMetal" {}) = .error .indexOutOfRange :=
  ⟨(singular_is_first_of_plural
      (blockConfig "OpenStack" { IngressIPs := ["10.0.0.7", "fd00::7"] })
      (blockInfra "OpenStack" { IngressIPs := ["10.0.0.7", "fd00::7"] })
      (blockStatus "OpenStack" { IngressIPs := ["10.0.0.7", "fd00::7"] })
      { IngressIPs := ["10.0.0.7", "fd00::7"] } rfl rfl (by decide) (by decide)).2.2.1,
   (singular_is_first_of_plural (blockConfig "VSphere" {})
      (blockInfra "VSphere" {})
      (blockStatus "VSphere" {}) {} rfl rfl (by decide) (by decide)).2.2.1,
   (singular_is_first_of_plural (blockConfig "BareMetal" {})
      (blockInfra "BareMetal" {})
      (blockStatus "BareMetal" {}) {} rfl rfl (by decide) (by decide)).2.2.1⟩

theorem firstOf_not_error (block : Option OnPremPlatformStatus)
    (ips : OnPremPlatformStatus → List String) (e : Err) : firstOf block ips ≠ .ok (.error e) := by
  unfold firstOf
  rcases block with _ | b
  · simp
  · simp only
    split <;> simp

theorem allOf_not_error (block : Option OnPremPlatformStatus)
    (ips : OnPremPlatformStatus → List String) (e : Err) : allOf block ips ≠ .ok (.error e) := by
  unfold allOf
  rcases block with _ | b <;> simp

/-- C17: with `Infra` and `PlatformStatus` present, each of the four accessors returns an
error exactly when the platform type is none of BareMetal, oVirt, OpenStack, VSphere and
Nutanix, and the error is then the one of an invalid platform; with `PlatformStatus` absent
each returns an error; `onPremPlatformShortName` returns the empty string in both cases and
always returns a string. -/
theorem accessors_invalid_platform (cfg : RenderConfig) (infra : Infrastructure)
    (hInfra : cfg.ControllerConfigSpec.Infra = some infra) :
    (∀ ps, infra.Status.PlatformStatus = some ps →
      ((∃ e, onPremPlatformIngressIP cfg = .ok (.error e)) ↔ onPremPlatform ps.type = false)
      ∧ ((∃ e, onPremPlatformIngressIPs cfg = .ok (.error e)) ↔ onPremPlatform ps.type = false)
      ∧ ((∃ e, onPremPlatformAPIServerInternalIP cfg = .ok (.error e)) ↔
          onPremPlatform ps.type = false)
      ∧ ((∃ e, onPremPlatformAPIServerInternalIPs cfg = .ok (.error e)) ↔
          onPremPlatform ps.type = false)
      ∧ (onPremPlatform ps.type = false →
          onPremPlatformIngressIP cfg = .ok (.error .invalidPlatformIngressIP)
          ∧ onPremPlatformIngressIPs cfg = .ok (.error .invalidPlatformIngressIP)
          ∧ onPremPlatformAPIServerInternalIP cfg
              = .ok (.error .invalidPlatformAPIServerInternalIP)
          ∧ onPremPlatformAPIServerInternalIPs cfg
              = .ok (.error .invalidPlatformAPIServerInternalIP)
          ∧ onPremPlatformShortName cfg = .ok "")
      ∧ (onPremPlatform ps.type = false ↔
          ps.type ∉ ["BareMetal", "oVirt", "OpenStack", "VSphere", "Nutanix"]))
    ∧ (infra.Status.PlatformStatus = none →
        onPremPlatformIngressIP cfg = .ok (.error .emptyMessage)
        ∧ onPremPlatformIngressIPs cfg = .ok (.error .emptyMessage)
        ∧ onPremPlatformAPIServerInternalIP cfg = .ok (.error .emptyMessage)
        ∧ onPremPlatformAPIServerInternalIPs cfg = .ok (.error .emptyMessage)
        ∧ onPremPlatformShortName cfg = .ok "")
    ∧ (∃ s, onPremPlatformShortName cfg = .ok s) := by
  refine ⟨?_, ?_, ?_⟩
  · intro ps hStatus
    have hOn : onPremPlatform ps.type = false ↔
        ps.type ∉ ["BareMetal", "oVirt", "OpenStack", "VSphere", "Nutanix"] := by
      simp [onPremPlatform, BareMetalPlatformType, OvirtPlatformType, OpenStackPlatformType,
        VSpherePlatformType, NutanixPlatformType]
    have hInvalid : onPremPlatform ps.type = false →
        onPremPlatformIngressIP cfg = .ok (.error .invalidPlatformIngressIP)
        ∧ onPremPlatformIngressIPs cfg = .ok (.error .invalidPlatformIngressIP)
        ∧ onPremPlatformAPIServerInternalIP cfg
            = .ok (.error .invalidPlatformAPIServerInternalIP)
        ∧ onPremPlatformAPIServerInternalIPs cfg
            = .ok (.error .invalidPlatformAPIServerInternalIP)
        ∧ onPremPlatformShortName cfg = .ok "" := by
      intro h
      have h' := hOn.mp h
      simp only [List.mem_cons, List.mem_singleton, List.mem_nil_iff, or_false, not_or] at h'
      obtain ⟨h1, h2, h3, h4, h5⟩ := h'
      simp [onPremPlatformIngressIP, onPremPlatformIngressIPs,
        onPremPlatformAPIServerInternalIP, onPremPlatformAPIServerInternalIPs,
        onPremPlatformShortName, hInfra, hStatus, h1, h2, h3, h4, h5, BareMetalPlatformType,
        OvirtPlatformType, OpenStackPlatformType, VSpherePlatformType, NutanixPlatformType]
    have hValid : onPremPlatform ps.type = true → ∀ e,
        onPremPlatformIngressIP cfg ≠ .ok (.error e)
        ∧ onPremPlatformIngressIPs cfg ≠ .ok (.error e)
        ∧ onPremPlatformAPIServerInternalIP cfg ≠ .ok (.error e)
        ∧ onPremPlatformAPIServerInternalIPs cfg ≠ .ok (.error e) := by
      intro h e
      have f := fun b i => firstOf_not_error b i e
      have a := fun b i => allOf_not_error b i e
      have hNot : ∀ {P : Prop}, ¬ ps.type = BareMetalPlatformType →
          ¬ ps.type = OvirtPlatformType → ¬ ps.type = OpenStackPlatformType →
          ¬ ps.type = VSpherePlatformType → ¬ ps.type = NutanixPlatformType → P := by
        intro P h1 h2 h3 h4 h5
        simp [onPremPlatform, h1, h2, h3, h4, h5] at h
      refine ⟨?_, ?_, ?_, ?_⟩
      · simp only [onPremPlatformIngressIP, hInfra, hStatus]
        split_ifs with h1 h2 h3 h4 h5
        · exact f _ _
        · exact f _ _
        · exact f _ _
        · split
          · split_ifs
            · exact f _ _
            · simp
          · simp
        · exact f _ _
        · exact hNot h1 h2 h3 h4 h5
      · simp only [onPremPlatformIngressIPs, hInfra, hStatus]
        split_ifs with h1 h2 h3 h4 h5
        · exact a _ _
        · exact a _ _
        · exact a _ _
        · split
          · exact a _ _
          · simp
        · exact a _ _
        · exact hNot h1 h2 h3 h4 h5
      · simp only [onPremPlatformAPIServerInternalIP, hInfra, hStatus]
        split_ifs with h1 h2 h3 h4 h5
        · exact f _ _
        · exact f _ _
        · exact f _ _
        · split
          · split_ifs
            · exact f _ _
            · simp
          · simp
        · exact f _ _
        · exact hNot h1 h2 h3 h4 h5
      · simp only [onPremPlatformAPIServerInternalIPs, hInfra, hStatus]
        split_ifs with h1 h2 h3 h4 h5
        · exact a _ _
        · exact a _ _
        · exact a _ _
        · split
          · exact a _ _
          · simp
        · exact a _ _
        · exact hNot h1 h2 h3 h4 h5
    have hIff : ∀ (r : Except Panic (Except Err Value)) (e0 : Err),
        (onPremPlatform ps.type = false → r = .ok (.error e0)) →
        (onPremPlatform ps.type = true → ∀ e, r ≠ .ok (.error e)) →
        ((∃ e, r = .ok (.error e)) ↔ onPremPlatform ps.type = false) := by
      intro r e0 h1 h2
      constructor
      · rintro ⟨e, he⟩
        cases h : onPremPlatform ps.type
        · rfl
        · exact absurd he (h2 h e)
      · intro h; exact ⟨e0, h1 h⟩
    refine ⟨hIff _ _ (fun h => (hInvalid h).1) (fun h e => (hValid h e).1),
      hIff _ _ (fun h => (hInvalid h).2.1) (fun h e => (hValid h e).2.1),
      hIff _ _ (fun h => (hInvalid h).2.2.1) (fun h e => (hValid h e).2.2.1),
      hIff _ _ (fun h => (hInvalid h).2.2.2.1) (fun h e => (hValid h e).2.2.2),
      hInvalid, hOn⟩
  · intro hStatus
    simp [onPremPlatformIngressIP, onPremPlatformIngressIPs,
      onPremPlatformAPIServerInternalIP, onPremPlatformAPIServerInternalIPs,
      onPremPlatformShortName, hInfra, hStatus]
  · simp only [onPremPlatformShortName, hInfra]
    rcases hS : infra.Status.PlatformStatus with _ | ps
    · exact ⟨_, rfl⟩
    · simp only
      split_ifs <;> exact ⟨_, rfl⟩

/-- C17, instances: on AWS the accessors return the error of an invalid platform and the
short name is empty; without a platform status they return an error too. -/
theorem accessors_invalid_platform_witness :
    (onPremPlatformIngressIP (absentBlockConfig "AWS") = .ok (.error .invalidPlatformIngressIP)
      ∧ onPremPlatformIngressIPs (absentBlockConfig "AWS")
          = .ok (.error .invalidPlatformIngressIP)
      ∧ onPremPlatformAPIServerInternalIP (absentBlockConfig "AWS")
          = .ok (.error .invalidPlatformAPIServerInternalIP)
      ∧ onPremPlatformAPIServerInternalIPs (absentBlockConfig "AWS")
          = .ok (.error .invalidPlatformAPIServerInternalIP)
      ∧ onPremPlatformShortName (absentBlockConfig "AWS") = .ok "")
    ∧ (onPremPlatformIngressIP { ControllerConfigSpec := { Infra := some {} } }
          = .ok (.error .emptyMessage)
      ∧ onPremPlatformIngressIPs { ControllerConfigSpec := { Infra := some {} } }
          = .ok (.error .emptyMessage)
      ∧ onPremPlatformAPIServerInternalIP { ControllerConfigSpec := { Infra := some {} } }
          = .ok (.error .emptyMessage)
      ∧ onPremPlatformAPIServerInternalIPs { ControllerConfigSpec := { Infra := some {} } }
          = .ok (.error .emptyMessage)
      ∧ onPremPlatformShortName { ControllerConfigSpec := { Infra := some {} } } = .ok "") :=
  ⟨((accessors_invalid_platform (absentBlockConfig "AWS")
      { Status := { PlatformStatus := some { type := "AWS" } } } rfl).1
        { type := "AWS" } rfl).2.2.2.2.1 (by decide),
   (accessors_invalid_platform { ControllerConfigSpec := { Infra := some {} } } {} rfl).2.1
      rfl⟩

/-! ## The cloud provider functions -/

theorem fillPlatformStatus_present (ic : ControllerConfigSpec) :
    ∃ infra ps, (fillPlatformStatus ic).Infra = some infra
      ∧ infra.Status.PlatformStatus = some ps ∧ ps.type = platformTypeOf ic := by
  unfold platformTypeOf fillPlatformStatus
  rcases hI : ic.Infra with _ | i
  · exact ⟨_, _, rfl, rfl, rfl⟩
  · rcases hP : i.Status.PlatformStatus with _ | ps
    · simp [hP]
    · simp [hP]

/-- C18: `cloudProvider` aborts on the nil feature gate accessor exactly when the platform
status is present and the accessor is nil, and `cloudConfigFlag` aborts, and then on the nil
accessor, exactly when `CloudProviderConfig` is not empty and the accessor is nil.  With the
accessor nil, `cloudProvider` on an absent platform status and `cloudConfigFlag` on an empty
`CloudProviderConfig` return the empty string. -/
theorem featureGateAccess_nil_fatal (cfg : RenderConfig) :
    (cloudProvider cfg = .error .featureGateAccessNil ↔
      (∃ infra ps, cfg.ControllerConfigSpec.Infra = some infra
        ∧ infra.Status.PlatformStatus = some ps) ∧ cfg.FeatureGateAccess = none)
    ∧ (∀ infra, cfg.ControllerConfigSpec.Infra = some infra →
        ((∃ p, cloudProvider cfg = .error p) ↔
          (∃ ps, infra.Status.PlatformStatus = some ps) ∧ cfg.FeatureGateAccess = none))
    ∧ ((cloudConfigFlag cfg).1 = .error .featureGateAccessNil ↔
        cfg.ControllerConfigSpec.CloudProviderConfig ≠ "" ∧ cfg.FeatureGateAccess = none)
    ∧ ((∃ p, (cloudConfigFlag cfg).1 = .error p) ↔
        cfg.ControllerConfigSpec.CloudProviderConfig ≠ "" ∧ cfg.FeatureGateAccess = none)
    ∧ (∀ infra, cfg.FeatureGateAccess = none → cfg.ControllerConfigSpec.Infra = some infra →
        infra.Status.PlatformStatus = none → cloudProvider cfg = .ok (.ok ""))
    ∧ (cfg.FeatureGateAccess = none → cfg.ControllerConfigSpec.CloudProviderConfig = "" →
        (cloudConfigFlag cfg).1 = .ok "") := by
  have hProv : ∀ infra, cfg.ControllerConfigSpec.Infra = some infra →
      ((∃ p, cloudProvider cfg = .error p) ↔
        (∃ ps, infra.Status.PlatformStatus = some ps) ∧ cfg.FeatureGateAccess = none)
      ∧ (cloudProvider cfg = .error .featureGateAccessNil ↔
        (∃ ps, infra.Status.PlatformStatus = some ps) ∧ cfg.FeatureGateAccess = none) := by
    intro infra hI
    simp only [cloudProvider, hI]
    rcases hS : infra.Status.PlatformStatus with _ | ps
    · simp
    · rcases hF : cfg.FeatureGateAccess with _ | fga
      · simp
      · simp only
        split
        · simp
        · split_ifs <;> simp
  have hFlag : ((cloudConfigFlag cfg).1 = .error .featureGateAccessNil ↔
        cfg.ControllerConfigSpec.CloudProviderConfig ≠ "" ∧ cfg.FeatureGateAccess = none)
      ∧ ((∃ p, (cloudConfigFlag cfg).1 = .error p) ↔
        cfg.ControllerConfigSpec.CloudProviderConfig ≠ "" ∧ cfg.FeatureGateAccess = none) := by
    obtain ⟨infra, ps, h1, h2, _⟩ := fillPlatformStatus_present cfg.ControllerConfigSpec
    unfold cloudConfigFlag
    by_cases hC : cfg.ControllerConfigSpec.CloudProviderConfig = ""
    · simp [hC]
    · rcases hF : cfg.FeatureGateAccess with _ | fga
      · simp [hC]
      · simp only [hC, if_false, h1, h2]
        split
        · simp
        · split_ifs <;> simp
  refine ⟨?_, fun infra hI => (hProv infra hI).1, hFlag.1, hFlag.2, ?_, ?_⟩
  · rcases hI : cfg.ControllerConfigSpec.Infra with _ | infra
    · simp [cloudProvider, hI]
    · rw [(hProv infra hI).2]
      simp
  · intro infra _ hI hS
    simp [cloudProvider, hI, hS]
  · intro _ hC
    simp [cloudConfigFlag, hC]

/-- C18, instances: with a nil accessor `cloudProvider` aborts on AWS and
`cloudConfigFlag` aborts when a cloud provider configuration is set. -/
theorem featureGateAccess_nil_fatal_witness :
    cloudProvider (cloudConfig "AWS" none) = .error .featureGateAccessNil
    ∧ (cloudConfigFlag (cloudConfig "AWS" none)).1 = .error .featureGateAccessNil :=
  ⟨(featureGateAccess_nil_fatal (cloudConfig "AWS" none)).1.mpr
      ⟨⟨{ Status := { PlatformStatus := some { type := "AWS" } } }, { type := "AWS" },
        rfl, rfl⟩, rfl⟩,
   (featureGateAccess_nil_fatal (cloudConfig "AWS" none)).2.2.1.mpr ⟨by decide, rfl⟩⟩

theorem fillPlatformStatus_of_present (ic : ControllerConfigSpec) (infra : Infrastructure)
    (ps : PlatformStatus) (hI : ic.Infra = some infra)
    (hS : infra.Status.PlatformStatus = some ps) : fillPlatformStatus ic = ic := by
  unfold fillPlatformStatus
  simp only [hI, hS]
  cases ic
  simp_all

/-- C19: `cloudConfigFlag` returns the empty string or the flag
`--cloud-config=/etc/kubernetes/cloud.conf` whenever it returns; with a feature gate accessor it
returns the flag exactly when `CloudProviderConfig` is not empty, the query whether the cloud
provider is external does not answer true (an error of the query counts as not external), and
the platform type is one of AWS, Azure, GCP, OpenStack and VSphere; an empty
`CloudProviderConfig` always gives the empty string. -/
theorem cloudConfigFlag_spec (cfg : RenderConfig) :
    (∀ s, (cloudConfigFlag cfg).1 = .ok s →
      s = "" ∨ s = "--cloud-config=/etc/kubernetes/cloud.conf")
    ∧ (∀ fga infra ps, cfg.FeatureGateAccess = some fga →
        (fillPlatformStatus cfg.ControllerConfigSpec).Infra = some infra →
        infra.Status.PlatformStatus = some ps →
        ((cloudConfigFlag cfg).1 = .ok "--cloud-config=/etc/kubernetes/cloud.conf" ↔
          cfg.ControllerConfigSpec.CloudProviderConfig ≠ ""
          ∧ fga.IsCloudProviderExternal ps ≠ .ok true
          ∧ ps.type ∈ ["AWS", "Azure", "GCP", "OpenStack", "VSphere"])
        ∧ ((cloudConfigFlag cfg).1 = .ok "" ∨
          (cloudConfigFlag cfg).1 = .ok "--cloud-config=/etc/kubernetes/cloud.conf"))
    ∧ (∀ fga infra ps, cfg.FeatureGateAccess = some fga →
        cfg.ControllerConfigSpec.Infra = some infra →
        infra.Status.PlatformStatus = some ps →
        ((cloudConfigFlag cfg).1 = .ok "--cloud-config=/etc/kubernetes/cloud.conf" ↔
          cfg.ControllerConfigSpec.CloudProviderConfig ≠ ""
          ∧ fga.IsCloudProviderExternal ps ≠ .ok true
          ∧ ps.type ∈ ["AWS", "Azure", "GCP", "OpenStack", "VSphere"]))
    ∧ (cfg.ControllerConfigSpec.CloudProviderConfig = "" → (cloudConfigFlag cfg).1 = .ok "") := by
  have hMem : ∀ t : String, (t = AWSPlatformType ∨ t = AzurePlatformType ∨ t = GCPPlatformType
      ∨ t = OpenStackPlatformType ∨ t = VSpherePlatformType) ↔
      t ∈ ["AWS", "Azure", "GCP", "OpenStack", "VSphere"] := by
    intro t
    simp [AWSPlatformType, AzurePlatformType, GCPPlatformType, OpenStackPlatformType,
      VSpherePlatformType]
  have hFlagNe : ("--cloud-config=/etc/kubernetes/cloud.conf" : String) ≠ "" := by decide
  have hGen : ∀ fga infra ps, cfg.FeatureGateAccess = some fga →
      (fillPlatformStatus cfg.ControllerConfigSpec).Infra = some infra →
      infra.Status.PlatformStatus = some ps →
      ((cloudConfigFlag cfg).1 = .ok "--cloud-config=/etc/kubernetes/cloud.conf" ↔
        cfg.ControllerConfigSpec.CloudProviderConfig ≠ ""
        ∧ fga.IsCloudProviderExternal ps ≠ .ok true
        ∧ ps.type ∈ ["AWS", "Azure", "GCP", "OpenStack", "VSphere"])
      ∧ ((cloudConfigFlag cfg).1 = .ok "" ∨
        (cloudConfigFlag cfg).1 = .ok "--cloud-config=/etc/kubernetes/cloud.conf") := by
    intro fga infra ps hF hI hS
    unfold cloudConfigFlag
    by_cases hC : cfg.ControllerConfigSpec.CloudProviderConfig = ""
    · simp [hC, hFlagNe.symm]
    · simp only [hC, if_false, hF, hI, hS, ne_eq, not_false_eq_true, true_and]
      rw [← hMem]
      rcases hQ : fga.IsCloudProviderExternal ps with e | b
      · by_cases hT : ps.type = AWSPlatformType ∨ ps.type = AzurePlatformType
            ∨ ps.type = GCPPlatformType ∨ ps.type = OpenStackPlatformType
            ∨ ps.type = VSpherePlatformType
        · simp [hT]
        · simp [hT, hFlagNe.symm]
      · cases b
        · by_cases hT : ps.type = AWSPlatformType ∨ ps.type = AzurePlatformType
              ∨ ps.type = GCPPlatformType ∨ ps.type = OpenStackPlatformType
              ∨ ps.type = VSpherePlatformType
          · simp [hT]
          · simp [hT, hFlagNe.symm]
        · simp [hFlagNe.symm]
  refine ⟨?_, hGen, ?_, ?_⟩
  · intro s hs
    rcases hF : cfg.FeatureGateAccess with _ | fga
    · by_cases hC : cfg.ControllerConfigSpec.CloudProviderConfig = ""
      · simp [cloudConfigFlag, hC] at hs
        exact Or.inl hs.symm
      · simp [cloudConfigFlag, hC, hF] at hs
    · obtain ⟨infra, ps, h1, h2, _⟩ := fillPlatformStatus_present cfg.ControllerConfigSpec
      rcases (hGen fga infra ps hF h1 h2).2 with h | h
      · rw [h] at hs
        exact Or.inl (Except.ok.inj hs).symm
      · rw [h] at hs
        exact Or.inr (Except.ok.inj hs).symm
  · intro fga infra ps hF hI hS
    have hfill := fillPlatformStatus_of_present cfg.ControllerConfigSpec infra ps hI hS
    exact (hGen fga infra ps hF (by rw [hfill]; exact hI) hS).1
  · intro hC
    simp [cloudConfigFlag, hC]

/-- C19, instances: on AWS with a cloud provider configuration the flag is returned when the
query answers not external, and the empty string when it answers external. -/
theorem cloudConfigFlag_spec_witness :
    (cloudConfigFlag (cloudConfig "AWS" (some (gateAnswering false)))).1
      = .ok "--cloud-config=/etc/kubernetes/cloud.conf"
    ∧ (cloudConfigFlag (cloudConfig "AWS" (some (gateAnswering true)))).1 = .ok "" :=
  ⟨((cloudConfigFlag_spec (cloudConfig "AWS" (some (gateAnswering false)))).2.2.1
      (gateAnswering false) { Status := { PlatformStatus := some { type := "AWS" } } }
      { type := "AWS" } rfl rfl rfl).mpr ⟨by decide, by decide, by decide⟩,
   by decide⟩

/-! ## Reference semantics of the merge -/

theorem effect_eq (w : World) (config : RenderConfig) (v : WalkVisit) :
    effect w config v
      = if isZeroLength v then some none else (renderedContent w config v).map some := by
  unfold effect isZeroLength renderedContent
  rcases v.err with _ | e
  · by_cases hD : v.info.isDir = true
    · simp [hD]
    · by_cases hS : v.info.size = 0
      · simp [hD, hS]
      · simp only [hD, hS, Option.isNone_none, Bool.not_false, Bool.and_self, decide_False,
          Bool.and_false, Bool.false_eq_true, if_false, Bool.true_and, Bool.not_eq_true',
          Bool.and_true, if_true]
        rcases w.ReadFile v.path with e | data
        · rfl
        · simp only
          rcases w.renderTemplate config v.path data with e | r
          · rfl
          · simp only
            split_ifs <;> rfl
  · simp

theorem stepLookup_at (w : World) (config : RenderConfig) (g : String → Option String)
    (v : WalkVisit) (n : String) :
    stepLookup w config g v n
      = if countsFor w config n v then
          (if isZeroLength v then none else renderedContent w config v)
        else g n := by
  unfold stepLookup countsFor
  rw [effect_eq]
  by_cases hZ : isZeroLength v = true
  · by_cases hN : v.info.name = n
    · simp [hZ, hN, applyEffect]
    · simp [hZ, hN, applyEffect, Ne.symm hN]
  · rcases hR : renderedContent w config v with _ | c
    · simp [hZ, applyEffect]
    · by_cases hN : v.info.name = n
      · simp [hZ, hN, applyEffect]
      · simp [hZ, hN, applyEffect, Ne.symm hN]

theorem foldl_stepLookup_reference (w : World) (config : RenderConfig) (n : String) :
    ∀ (l : List WalkVisit) (g : String → Option String),
      (l.foldl (stepLookup w config) g) n
        = match (l.filter (countsFor w config n)).getLast? with
          | none => g n
          | some v => if isZeroLength v then none else renderedContent w config v
  | [], g => rfl
  | v :: vs, g => by
    rw [List.foldl_cons, foldl_stepLookup_reference w config n vs]
    by_cases hC : countsFor w config n v = true
    · rw [List.filter_cons_of_pos hC, List.getLast?_cons]
      rcases (vs.filter (countsFor w config n)).getLast? with _ | u
      · simp [stepLookup_at, hC]
      · rfl
    · rw [List.filter_cons_of_neg hC]
      rcases (vs.filter (countsFor w config n)).getLast? with _ | u
      · simp [stepLookup_at, hC]
      · rfl

theorem walkVisits_reference (w : World) (config : RenderConfig) (l : List WalkVisit)
    (m : GoMap) (h : walkVisits w config ∅ l = (m, none)) (n : String) :
    m.lookup n = referenceMerge w config l n := by
  have h1 := congrFun (walkVisits_lookup w config l ∅ (by rw [h])) n
  rw [h] at h1
  simp only at h1
  rw [h1, foldl_stepLookup_reference]
  unfold referenceMerge
  rcases (l.filter (countsFor w config n)).getLast? with _ | u
  · exact AList.lookup_empty n
  · rfl

/-- C20: when the tier loop succeeds from empty sets, each merged set maps a name `n` to the
value the reference semantics gives for the visits of its own area in processing order: the
last visit named `n` that is zero-length or renders to non-blank content decides, `n` being
absent when there is none or when it is zero-length, and mapped to its rendered content
otherwise.  The files set is determined by the visits of the files areas alone and the units
set by the visits of the units areas alone. -/
theorem merge_reference_semantics (w : World) (config : RenderConfig) (dirs : List String)
    (files units : GoMap) (hOk : mergeTiers w config dirs ∅ ∅ = .ok (files, units)) :
    (∀ n, files.lookup n = referenceMerge w config (areaVisits w filesDir dirs) n)
    ∧ (∀ n, units.lookup n = referenceMerge w config (areaVisits w unitsDir dirs) n)
    ∧ (∀ n c, files.lookup n = some c ↔
        ∃ v, ((areaVisits w filesDir dirs).filter (countsFor w config n)).getLast? = some v
          ∧ isZeroLength v = false ∧ renderedContent w config v = some c)
    ∧ (∀ n c, units.lookup n = some c ↔
        ∃ v, ((areaVisits w unitsDir dirs).filter (countsFor w config n)).getLast? = some v
          ∧ isZeroLength v = false ∧ renderedContent w config v = some c)
    ∧ (∀ (w' : World) (dirs' : List String) (files' units' : GoMap),
        mergeTiers w' config dirs' ∅ ∅ = .ok (files', units') →
        w'.ReadFile = w.ReadFile → w'.renderTemplate = w.renderTemplate →
        (areaVisits w' filesDir dirs' = areaVisits w filesDir dirs →
          ∀ n, files'.lookup n = files.lookup n)
        ∧ (areaVisits w' unitsDir dirs' = areaVisits w unitsDir dirs →
          ∀ n, units'.lookup n = units.lookup n)) := by
  obtain ⟨hF, hU⟩ := mergeTiers_ok w config dirs ∅ ∅ files units hOk
  have hfiles := walkVisits_reference w config _ files hF
  have hunits := walkVisits_reference w config _ units hU
  have hiff : ∀ (l : List WalkVisit) (n c : String),
      referenceMerge w config l n = some c ↔
        ∃ v, (l.filter (countsFor w config n)).getLast? = some v
          ∧ isZeroLength v = false ∧ renderedContent w config v = some c := by
    intro l n c
    unfold referenceMerge
    rcases (l.filter (countsFor w config n)).getLast? with _ | u
    · simp
    · cases hZ : isZeroLength u <;> simp [hZ]
  have href : ∀ (w' : World), w'.ReadFile = w.ReadFile →
      w'.renderTemplate = w.renderTemplate → ∀ l n,
      referenceMerge w' config l n = referenceMerge w config l n := by
    intro w' hR hT l n
    have hrc : ∀ v, renderedContent w' config v = renderedContent w config v := by
      intro v
      unfold renderedContent
      rw [hR, hT]
    have hcf : countsFor w' config n = countsFor w config n := by
      funext v
      unfold countsFor
      rw [hrc]
    unfold referenceMerge
    rw [hcf]
    rcases (l.filter (countsFor w config n)).getLast? with _ | u
    · rfl
    · simp only [hrc]
  refine ⟨hfiles, hunits, fun n c => by rw [hfiles, hiff], fun n c => by rw [hunits, hiff], ?_⟩
  intro w' dirs' files' units' hOk' hR hT
  obtain ⟨hF', hU'⟩ := mergeTiers_ok w' config dirs' ∅ ∅ files' units' hOk'
  constructor
  · intro hv n
    rw [walkVisits_reference w' config _ files' hF' n, hfiles, hv, href w' hR hT]
  · intro hv n
    rw [walkVisits_reference w' config _ units' hU' n, hunits, hv, href w' hR hT]

/-- C20, instance: in the example repository the merged files of `00-worker` are given by
the reference semantics; `a.conf` keeps the base tier's content, `b.conf` is absent, and
`c.conf` has the single-node tier's content. -/
theorem merge_reference_semantics_witness :
    referenceMerge exampleWorld exampleConfig
        (areaVisits exampleWorld filesDir
          ["t/worker/00-worker/_base", "t/worker/00-worker/aws", "t/worker/00-worker/sno"])
        "a.conf" = some "A0"
    ∧ referenceMerge exampleWorld exampleConfig
        (areaVisits exampleWorld filesDir
          ["t/worker/00-worker/_base", "t/worker/00-worker/aws", "t/worker/00-worker/sno"])
        "b.conf" = none
    ∧ referenceMerge exampleWorld exampleConfig
        (areaVisits exampleWorld filesDir
          ["t/worker/00-worker/_base", "t/worker/00-worker/aws", "t/worker/00-worker/sno"])
        "c.conf" = some "C2" :=
  ⟨((merge_reference_semantics exampleWorld exampleConfig
      ["t/worker/00-worker/_base", "t/worker/00-worker/aws", "t/worker/00-worker/sno"]
      ((((∅ : GoMap).insert "a.conf" "A0").insert "d.conf" "D1").insert "c.conf" "C2") ∅
      (by rfl)).1 "a.conf").symm.trans (by decide),
   ((merge_reference_semantics exampleWorld exampleConfig
      ["t/worker/00-worker/_base", "t/worker/00-worker/aws", "t/worker/00-worker/sno"]
      ((((∅ : GoMap).insert "a.conf" "A0").insert "d.conf" "D1").insert "c.conf" "C2") ∅
      (by rfl)).1 "b.conf").symm.trans (by decide),
   ((merge_reference_semantics exampleWorld exampleConfig
      ["t/worker/00-worker/_base", "t/worker/00-worker/aws", "t/worker/00-worker/sno"]
      ((((∅ : GoMap).insert "a.conf" "A0").insert "d.conf" "D1").insert "c.conf" "C2") ∅
      (by rfl)).1 "c.conf").symm.trans (by decide)⟩

/-! ## The decision table of the load balancer -/

/-- C22: with `Infra` present, `isOpenShiftManagedDefaultLB` returns false when the platform
status is absent; for BareMetal, oVirt, OpenStack and Nutanix with the block of the platform
present it returns true when no load balancer is set, and otherwise whether the load balancer
type is `OpenShiftManagedDefault`; for VSphere with its block present it returns false when
`APIServerInternalIPs` is empty, whatever the load balancer, and otherwise follows the same
rule; for every platform type outside the five it returns true. -/
theorem isOpenShiftManagedDefaultLB_table (cfg : RenderConfig) (infra : Infrastructure)
    (hInfra : cfg.ControllerConfigSpec.Infra = some infra) :
    (infra.Status.PlatformStatus = none → isOpenShiftManagedDefaultLB cfg = .ok false)
    ∧ (∀ ps b, infra.Status.PlatformStatus = some ps →
        ps.type ∈ ["BareMetal", "oVirt", "OpenStack", "Nutanix"] → blockOf ps = some b →
        (b.LoadBalancer = none → isOpenShiftManagedDefaultLB cfg = .ok true)
        ∧ (∀ lb, b.LoadBalancer = some lb →
            isOpenShiftManagedDefaultLB cfg
              = .ok (decide (lb.type = "OpenShiftManagedDefault"))))
    ∧ (∀ ps b, infra.Status.PlatformStatus = some ps → ps.type = "VSphere" →
        ps.VSphere = some b →
        (b.APIServerInternalIPs = [] → isOpenShiftManagedDefaultLB cfg = .ok false)
        ∧ (b.APIServerInternalIPs ≠ [] →
            (b.LoadBalancer = none → isOpenShiftManagedDefaultLB cfg = .ok true)
            ∧ (∀ lb, b.LoadBalancer = some lb →
                isOpenShiftManagedDefaultLB cfg
                  = .ok (decide (lb.type = "OpenShiftManagedDefault")))))
    ∧ (∀ ps, infra.Status.PlatformStatus = some ps →
        ps.type ∉ ["BareMetal", "oVirt", "OpenStack", "VSphere", "Nutanix"] →
        isOpenShiftManagedDefaultLB cfg = .ok true) := by
  refine ⟨?_, ?_, ?_, ?_⟩
  · intro hS
    simp [isOpenShiftManagedDefaultLB, hInfra, hS]
  · intro ps b hS hT hB
    have hT' : ps.type = "BareMetal" ∨ ps.type = "oVirt" ∨ ps.type = "OpenStack"
        ∨ ps.type = "Nutanix" := by simpa using hT
    rcases hT' with h | h | h | h <;>
      simp [blockOf, h, BareMetalPlatformType, OvirtPlatformType, OpenStackPlatformType,
        VSpherePlatformType, NutanixPlatformType] at hB <;>
      (constructor
       · intro hL
         simp [isOpenShiftManagedDefaultLB, hInfra, hS, h, hB, hL, lbOfBlock,
           BareMetalPlatformType, OvirtPlatformType, OpenStackPlatformType,
           VSpherePlatformType, NutanixPlatformType]
       · intro lb hL
         simp [isOpenShiftManagedDefaultLB, hInfra, hS, h, hB, hL, lbOfBlock,
           BareMetalPlatformType, OvirtPlatformType, OpenStackPlatformType,
           VSpherePlatformType, NutanixPlatformType, LoadBalancerTypeOpenShiftManagedDefault])
  · intro ps b hS hT hB
    constructor
    · intro hE
      simp [isOpenShiftManagedDefaultLB, hInfra, hS, hT, hB, hE, BareMetalPlatformType,
        OvirtPlatformType, OpenStackPlatformType, VSpherePlatformType]
    · intro hE
      have hLen : ¬ b.APIServerInternalIPs.length = 0 := by
        intro h0
        exact hE (List.length_eq_zero.mp h0)
      constructor
      · intro hL
        simp [isOpenShiftManagedDefaultLB, hInfra, hS, hT, hB, hE, hL, lbOfBlock,
          BareMetalPlatformType, OvirtPlatformType, OpenStackPlatformType,
          VSpherePlatformType]
      · intro lb hL
        simp [isOpenShiftManagedDefaultLB, hInfra, hS, hT, hB, hE, hL, lbOfBlock,
          BareMetalPlatformType, OvirtPlatformType, OpenStackPlatformType,
          VSpherePlatformType, LoadBalancerTypeOpenShiftManagedDefault]
  · intro ps hS hT
    simp only [List.mem_cons, List.mem_singleton, List.mem_nil_iff, or_false, not_or] at hT
    obtain ⟨h1, h2, h3, h4, h5⟩ := hT
    simp [isOpenShiftManagedDefaultLB, hInfra, hS, h1, h2, h3, h4, h5, BareMetalPlatformType,
      OvirtPlatformType, OpenStackPlatformType, VSpherePlatformType, NutanixPlatformType]

/-- C22, instances: Nutanix with a user-managed load balancer, VSphere without internal API
addresses, and AWS. -/
theorem isOpenShiftManagedDefaultLB_table_witness :
    isOpenShiftManagedDefaultLB
        (blockConfig "Nutanix" { LoadBalancer := some { type := "UserManaged" } }) = .ok false
    ∧ isOpenShiftManagedDefaultLB
        (blockConfig "VSphere" { LoadBalancer := some { type := "OpenShiftManagedDefault" } })
        = .ok false
    ∧ isOpenShiftManagedDefaultLB (absentBlockConfig "AWS") = .ok true :=
  ⟨(((isOpenShiftManagedDefaultLB_table
        (blockConfig "Nutanix" { LoadBalancer := some { type := "UserManaged" } })
        (blockInfra "Nutanix" { LoadBalancer := some { type := "UserManaged" } }) rfl).2.1
        (blockStatus "Nutanix" { LoadBalancer := some { type := "UserManaged" } })
        { LoadBalancer := some { type := "UserManaged" } } rfl (by decide) (by decide)).2
        { type := "UserManaged" } rfl).trans (by decide),
   ((isOpenShiftManagedDefaultLB_table
        (blockConfig "VSphere" { LoadBalancer := some { type := "OpenShiftManagedDefault" } })
        (blockInfra "VSphere" { LoadBalancer := some { type := "OpenShiftManagedDefault" } })
        rfl).2.2.1
        (blockStatus "VSphere" { LoadBalancer := some { type := "OpenShiftManagedDefault" } })
        { LoadBalancer := some { type := "OpenShiftManagedDefault" } } rfl rfl rfl).1 rfl,
   (isOpenShiftManagedDefaultLB_table (absentBlockConfig "AWS")
        { Status := { PlatformStatus := some { type := "AWS" } } } rfl).2.2.2
        { type := "AWS" } rfl (by decide)⟩

/-! ## Idempotence of the kernel argument normalisation -/

theorem kernelArguments_fixed (args : List String)
    (hNo : ∀ a ∈ args, a ∉ ["systemd.unified_cgroup_hierarchy=1", "cgroup_no_v1=\"all\"", "psi=1"])
    (h0 : "systemd.unified_cgroup_hierarchy=0" ∈ args)
    (h1 : "systemd.legacy_systemd_cgroup_controller=1" ∈ args) :
    args.filter (fun arg => !(decide (arg ∈
          ["systemd.unified_cgroup_hierarchy=1", "cgroup_no_v1=\"all\"", "psi=1"])))
      ++ ["systemd.unified_cgroup_hierarchy=0",
          "systemd.legacy_systemd_cgroup_controller=1"].filter
        (fun arg => !(decide (arg ∈ args.filter (fun arg =>
          !(decide (arg ∈
            ["systemd.unified_cgroup_hierarchy=1", "cgroup_no_v1=\"all\"", "psi=1"]))))))
      = args := by
  have hF : args.filter (fun arg => !(decide (arg ∈
      ["systemd.unified_cgroup_hierarchy=1", "cgroup_no_v1=\"all\"", "psi=1"]))) = args := by
    apply List.filter_eq_self.mpr
    intro a ha
    rw [Bool.not_eq_true', decide_eq_false_iff_not]
    exact hNo a ha
  rw [hF]
  have hE : ["systemd.unified_cgroup_hierarchy=0",
      "systemd.legacy_systemd_cgroup_controller=1"].filter
        (fun arg => !(decide (arg ∈ args))) = [] := by
    simp [List.filter, h0, h1]
  rw [hE, List.append_nil]

theorem kernelArguments_no_v2 (mc : MachineConfig) :
    ∀ a ∈ (updateMCwithDefaultCgroupsVersion mc).Spec.KernelArguments,
      a ∉ ["systemd.unified_cgroup_hierarchy=1", "cgroup_no_v1=\"all\"", "psi=1"] := by
  have hv1 : ∀ a ∈ ["systemd.unified_cgroup_hierarchy=0",
      "systemd.legacy_systemd_cgroup_controller=1"],
      a ∉ ["systemd.unified_cgroup_hierarchy=1", "cgroup_no_v1=\"all\"", "psi=1"] := by
    decide
  intro a hin ha
  rw [kernelArguments_eq, List.mem_append, List.mem_filter, List.mem_filter] at hin
  rcases hin with ⟨_, h⟩ | ⟨h, _⟩
  · simp [ha] at h
  · exact hv1 a h ha

theorem kernelArguments_has_v1 (mc : MachineConfig) :
    ∀ a ∈ ["systemd.unified_cgroup_hierarchy=0", "systemd.legacy_systemd_cgroup_controller=1"],
      a ∈ (updateMCwithDefaultCgroupsVersion mc).Spec.KernelArguments := by
  intro a ha
  rw [kernelArguments_eq, List.mem_append]
  by_cases h : a ∈ mc.Spec.KernelArguments.filter (fun arg => !(decide (arg ∈
      ["systemd.unified_cgroup_hierarchy=1", "cgroup_no_v1=\"all\"", "psi=1"])))
  · exact Or.inl h
  · exact Or.inr (List.mem_filter.mpr ⟨ha, by
      rw [Bool.not_eq_true', decide_eq_false_iff_not]; exact h⟩)

/-- C24: applying `updateMCwithDefaultCgroupsVersion` twice gives the same object as applying
it once, and the function leaves every field other than `Spec.KernelArguments` as it is. -/
theorem updateMCwithDefaultCgroupsVersion_idempotent (mc : MachineConfig) :
    updateMCwithDefaultCgroupsVersion (updateMCwithDefaultCgroupsVersion mc)
      = updateMCwithDefaultCgroupsVersion mc
    ∧ (updateMCwithDefaultCgroupsVersion
          (updateMCwithDefaultCgroupsVersion mc)).Spec.KernelArguments
        = (updateMCwithDefaultCgroupsVersion mc).Spec.KernelArguments
    ∧ updateMCwithDefaultCgroupsVersion mc
        = { mc with Spec := { mc.Spec with
              KernelArguments := (updateMCwithDefaultCgroupsVersion mc).Spec.KernelArguments } }
    ∧ (updateMCwithDefaultCgroupsVersion mc).Name = mc.Name
    ∧ (updateMCwithDefaultCgroupsVersion mc).Labels = mc.Labels
    ∧ (updateMCwithDefaultCgroupsVersion mc).Annotations = mc.Annotations
    ∧ (updateMCwithDefaultCgroupsVersion mc).Spec.OSImageURL = mc.Spec.OSImageURL
    ∧ (updateMCwithDefaultCgroupsVersion mc).Spec.Config = mc.Spec.Config
    ∧ (updateMCwithDefaultCgroupsVersion mc).Spec.Extensions = mc.Spec.Extensions
    ∧ (updateMCwithDefaultCgroupsVersion mc).Spec.FIPS = mc.Spec.FIPS
    ∧ (updateMCwithDefaultCgroupsVersion mc).Spec.KernelType = mc.Spec.KernelType := by
  have hArgs : (updateMCwithDefaultCgroupsVersion
        (updateMCwithDefaultCgroupsVersion mc)).Spec.KernelArguments
      = (updateMCwithDefaultCgroupsVersion mc).Spec.KernelArguments := by
    rw [kernelArguments_eq (updateMCwithDefaultCgroupsVersion mc)]
    exact kernelArguments_fixed _ (kernelArguments_no_v2 mc)
      (kernelArguments_has_v1 mc _ (by decide)) (kernelArguments_has_v1 mc _ (by decide))
  have hShape : ∀ m : MachineConfig, updateMCwithDefaultCgroupsVersion m
      = { m with Spec := { m.Spec with
            KernelArguments := (updateMCwithDefaultCgroupsVersion m).Spec.KernelArguments } } :=
    fun _ => rfl
  refine ⟨?_, hArgs, hShape mc, rfl, rfl, rfl, rfl, rfl, rfl, rfl, rfl⟩
  rw [hShape (updateMCwithDefaultCgroupsVersion mc), hArgs]

/-! ## The platform identifier among the tier names -/

theorem platformString_ok_mem (ic ic' : ControllerConfigSpec) (p : String)
    (h : platformStringFromControllerConfigSpec ic = (.ok p, ic')) :
    p ∈ ["aws", "alibabacloud", "azure", "baremetal", "gcp", "openstack", "libvirt", "ovirt",
      "vsphere", "kubevirt", "powervs", "none", "nutanix"] := by
  have h1 := congrArg Prod.fst h
  unfold platformStringFromControllerConfigSpec at h1
  simp only at h1
  split_ifs at h1 with h2 h3 h4
  · simp only [Except.ok.injEq] at h1
    rw [← h1]
    simp only [listedPlatformTypes, List.mem_cons, List.mem_singleton, List.mem_nil_iff,
      or_false] at h4
    rcases h4 with h | h | h | h | h | h | h | h | h | h | h | h | h <;> rw [h] <;> decide
  · simp only [Except.ok.injEq] at h1
    rw [← h1]
    decide

theorem filepathJoin_snoc_ne (d : String) (hd : d ≠ "") :
    ∀ pre : List String, filepathJoin (pre ++ [d]) ≠ ""
  | [] => by rw [List.nil_append, filepathJoin_single]; exact hd
  | e :: rest => by
    have ih := filepathJoin_snoc_ne d hd rest
    rw [List.cons_append, filepathJoin]
    by_cases he : e = ""
    · simp only [he, if_true]; exact ih
    · simp only [he, if_false, ih]
      intro h
      have := congrArg String.data h
      simp only [String.data_append] at this
      have hnil : e.data = [] := by
        rcases hd' : e.data with _ | ⟨c, cs⟩
        · rfl
        · rw [hd'] at this; simp at this
      exact he (String.ext_iff.mpr hnil)

theorem filepathJoin_snoc_injective (d d' : String) (hd : d ≠ "") (hd' : d' ≠ "") :
    ∀ pre : List String, filepathJoin (pre ++ [d]) = filepathJoin (pre ++ [d']) → d = d'
  | [] => by
    rw [List.nil_append, List.nil_append, filepathJoin_single, filepathJoin_single]
    exact id
  | e :: rest => by
    have ih := filepathJoin_snoc_injective d d' hd hd' rest
    have n1 := filepathJoin_snoc_ne d hd rest
    have n2 := filepathJoin_snoc_ne d' hd' rest
    rw [List.cons_append, List.cons_append, filepathJoin, filepathJoin]
    by_cases he : e = ""
    · simp only [he, if_true]; exact ih
    · simp only [he, if_false, n1, n2]
      intro h
      apply ih
      have := congrArg String.data h
      simp only [String.data_append, List.append_assoc] at this
      exact String.ext_iff.mpr (List.append_cancel_left (List.append_cancel_left this))

/-- C23: when `platformStringFromControllerConfigSpec` succeeds with the identifier `p`, then
`p` is not empty, is its own lowercase form, holds no uppercase letter, and is none of
`"_base"`, `"on-prem"` and `"sno"`; and for the configuration as the call leaves it `getPaths`
returns a list that starts with `"_base"`, has between two and four entries and no entry
twice, so that under one root no tier directory occurs twice. -/
theorem platformString_tier_names (ic ic' : ControllerConfigSpec) (p : String)
    (config : RenderConfig)
    (h : platformStringFromControllerConfigSpec ic = (.ok p, ic'))
    (hc : config.ControllerConfigSpec = ic') :
    p ≠ "" ∧ stringsToLower p = p ∧ (∀ c ∈ p.data, c.isUpper = false)
    ∧ p ≠ "_base" ∧ p ≠ "on-prem" ∧ p ≠ "sno"
    ∧ ∃ l, getPaths config p = some l ∧ l.head? = some "_base" ∧ 2 ≤ l.length ∧ l.length ≤ 4
        ∧ l.Nodup
        ∧ (∀ templateDir : String,
            (l.map (fun dir => filepathJoin [templateDir, "common", dir])).Nodup)
        ∧ (∀ path : String, (l.map (fun dir => filepathJoin [path, dir])).Nodup) := by
  have hmem := platformString_ok_mem ic ic' p h
  have hfacts : ∀ q ∈ ["aws", "alibabacloud", "azure", "baremetal", "gcp", "openstack",
      "libvirt", "ovirt", "vsphere", "kubevirt", "powervs", "none", "nutanix"],
      q ≠ "" ∧ stringsToLower q = q ∧ (∀ c ∈ q.data, c.isUpper = false)
        ∧ q ≠ "_base" ∧ q ≠ "on-prem" ∧ q ≠ "sno" := by
    decide
  obtain ⟨p1, p2, p3, p4, p5, p6⟩ := hfacts p hmem
  refine ⟨p1, p2, p3, p4, p5, p6, ?_⟩
  obtain ⟨hEq, infra, ps, hI, hS⟩ := platformString_ok_present ic ic' p h
  have hI' : config.ControllerConfigSpec.Infra = some infra := by rw [hc, hEq]; exact hI
  have hList : ∀ l : List String, (∀ d ∈ l, d ≠ "") → l.Nodup →
      (∀ templateDir : String,
          (l.map (fun dir => filepathJoin [templateDir, "common", dir])).Nodup)
        ∧ (∀ path : String, (l.map (fun dir => filepathJoin [path, dir])).Nodup) := by
    intro l hne hnd
    constructor
    · intro templateDir
      exact List.Nodup.map_on (fun x hx y hy hxy =>
        filepathJoin_snoc_injective x y (hne x hx) (hne y hy) [templateDir, "common"] hxy) hnd
    · intro path
      exact List.Nodup.map_on (fun x hx y hy hxy =>
        filepathJoin_snoc_injective x y (hne x hx) (hne y hy) [path] hxy) hnd
  have hb : ("_base" : String) ≠ "" := by decide
  have ho : ("on-prem" : String) ≠ "" := by decide
  have hs : ("sno" : String) ≠ "" := by decide
  have hbo : ("_base" : String) ≠ "on-prem" := by decide
  have hbs : ("_base" : String) ≠ "sno" := by decide
  have hos : ("on-prem" : String) ≠ "sno" := by decide
  simp only [getPaths, hI', hS, platformBase, platformOnPrem, sno]
  by_cases h1 : onPremPlatform ps.type = true
  · by_cases h2 : infra.Status.ControlPlaneTopology = SingleReplicaTopologyMode
    · refine ⟨["_base", "on-prem", p, "sno"], by simp [h1, h2], rfl, by simp, by simp, ?_, ?_⟩
      · simp [hbo, hbs, hos, Ne.symm p4, Ne.symm p5, p6]
      · apply hList
        · intro d hd
          simp only [List.mem_cons, List.mem_singleton, List.mem_nil_iff, or_false] at hd
          rcases hd with rfl | rfl | rfl | rfl <;> assumption
        · simp [hbo, hbs, hos, Ne.symm p4, Ne.symm p5, p6]
    · refine ⟨["_base", "on-prem", p], by simp [h1, h2], rfl, by simp, by simp, ?_, ?_⟩
      · simp [hbo, Ne.symm p4, Ne.symm p5]
      · apply hList
        · intro d hd
          simp only [List.mem_cons, List.mem_singleton, List.mem_nil_iff, or_false] at hd
          rcases hd with rfl | rfl | rfl <;> assumption
        · simp [hbo, Ne.symm p4, Ne.symm p5]
  · by_cases h2 : infra.Status.ControlPlaneTopology = SingleReplicaTopologyMode
    · refine ⟨["_base", p, "sno"], by simp [h1, h2], rfl, by simp, by simp, ?_, ?_⟩
      · simp [hbs, Ne.symm p4, p6]
      · apply hList
        · intro d hd
          simp only [List.mem_cons, List.mem_singleton, List.mem_nil_iff, or_false] at hd
          rcases hd with rfl | rfl | rfl <;> assumption
        · simp [hbs, Ne.symm p4, p6]
    · refine ⟨["_base", p], by simp [h1, h2], rfl, by simp, by simp, ?_, ?_⟩
      · simp [Ne.symm p4]
      · apply hList
        · intro d hd
          simp only [List.mem_cons, List.mem_singleton, List.mem_nil_iff, or_false] at hd
          rcases hd with rfl | rfl <;> assumption
        · simp [Ne.symm p4]

/-- C23, instance: the example configuration (AWS, single-replica control plane) gives the
identifier `"aws"` and the tier names `"_base"`, `"aws"`, `"sno"`. -/
theorem platformString_tier_names_witness :
    platformStringFromControllerConfigSpec exampleConfig.ControllerConfigSpec
      = (.ok "aws", exampleConfig.ControllerConfigSpec)
    ∧ getPaths exampleConfig "aws" = some ["_base", "aws", "sno"]
    ∧ ∃ l, getPaths exampleConfig "aws" = some l ∧ l.head? = some "_base" ∧ 2 ≤ l.length
        ∧ l.length ≤ 4 ∧ l.Nodup
        ∧ (∀ templateDir : String,
            (l.map (fun dir => filepathJoin [templateDir, "common", dir])).Nodup)
        ∧ (∀ path : String, (l.map (fun dir => filepathJoin [path, dir])).Nodup) :=
  ⟨by decide, by decide,
   (platformString_tier_names exampleConfig.ControllerConfigSpec
      exampleConfig.ControllerConfigSpec "aws" exampleConfig (by decide) rfl).2.2.2.2.2.2⟩

/-! ## Common tiers before the tiers of the name -/

theorem renderedContent_not_zeroLength (w : World) (config : RenderConfig) (v : WalkVisit)
    (c : String) (h : renderedContent w config v = some c) : isZeroLength v = false := by
  unfold renderedContent at h
  unfold isZeroLength
  by_cases hS : v.info.size = 0
  · simp [hS] at h
  · simp [hS]

theorem referenceMerge_append_right (w : World) (config : RenderConfig)
    (l1 l2 : List WalkVisit) (n : String)
    (h : ∃ v ∈ l2, countsFor w config n v = true) :
    referenceMerge w config (l1 ++ l2) n = referenceMerge w config l2 n := by
  obtain ⟨v, hv, hc⟩ := h
  have hmem : v ∈ l2.filter (countsFor w config n) := List.mem_filter.mpr ⟨hv, hc⟩
  unfold referenceMerge
  rw [List.filter_append, List.getLast?_append]
  rcases hL : (l2.filter (countsFor w config n)).getLast? with _ | u
  · rw [List.getLast?_eq_none_iff] at hL
    rw [hL] at hmem
    simp at hmem
  · rfl

theorem referenceMerge_last (w : World) (config : RenderConfig)
    (before after : List WalkVisit) (v : WalkVisit) (n c : String)
    (hName : v.info.name = n) (hC : renderedContent w config v = some c)
    (hAfter : ∀ u ∈ after, countsFor w config n u = false) :
    referenceMerge w config (before ++ v :: after) n = some c := by
  have hZ := renderedContent_not_zeroLength w config v c hC
  have hCounts : countsFor w config n v = true := by
    simp [countsFor, hName, hC]
  have hNil : after.filter (countsFor w config n) = [] := by
    rw [List.filter_eq_nil_iff]
    intro u hu
    rw [hAfter u hu]
    simp
  unfold referenceMerge
  rw [List.filter_append, List.filter_cons_of_pos hCounts, hNil, List.getLast?_concat]
  simp [hZ, hC]

/-- C21: with the flag `commonAdded` false, the tier directory list is the existing common
tier directories in tier order followed by the existing tier directories of the name in tier
order.  Hence, when the tier loop succeeds and a tier of the name, whichever, visits in an
area a fragment named `n` that renders to non-blank content, the merged set of that area
holds for `n` what the tiers of the name alone give, whatever the common tiers, the common
single-node tier among them, hold under `n`; and it maps `n` to that content when no later
fragment of the tiers of the name counts for `n`. -/
theorem own_tiers_override_common (w : World) (config : RenderConfig) (paths : List String)
    (templateDir path : String) (dirs : List String) (files units : GoMap)
    (hDirs : (platformDirsOf w paths templateDir path false).1 = .ok dirs)
    (hOk : mergeTiers w config dirs ∅ ∅ = .ok (files, units)) :
    dirs = commonTierDirs w paths templateDir ++ ownTierDirs w paths path
    ∧ (∀ n, (∃ v ∈ areaVisits w filesDir (ownTierDirs w paths path),
          v.info.name = n ∧ (renderedContent w config v).isSome = true) →
        files.lookup n
          = referenceMerge w config (areaVisits w filesDir (ownTierDirs w paths path)) n)
    ∧ (∀ n, (∃ v ∈ areaVisits w unitsDir (ownTierDirs w paths path),
          v.info.name = n ∧ (renderedContent w config v).isSome = true) →
        units.lookup n
          = referenceMerge w config (areaVisits w unitsDir (ownTierDirs w paths path)) n)
    ∧ (∀ n c v before after,
        areaVisits w filesDir (ownTierDirs w paths path) = before ++ v :: after →
        v.info.name = n → renderedContent w config v = some c →
        (∀ u ∈ after, countsFor w config n u = false) → files.lookup n = some c)
    ∧ (∀ n c v before after,
        areaVisits w unitsDir (ownTierDirs w paths path) = before ++ v :: after →
        v.info.name = n → renderedContent w config v = some c →
        (∀ u ∈ after, countsFor w config n u = false) → units.lookup n = some c) := by
  have hEq : dirs = commonTierDirs w paths templateDir ++ ownTierDirs w paths path :=
    platformDirsOf_open w paths templateDir path dirs hDirs
  obtain ⟨hF, hU⟩ := mergeTiers_ok w config dirs ∅ ∅ files units hOk
  have hfiles := walkVisits_reference w config _ files hF
  have hunits := walkVisits_reference w config _ units hU
  have hcounts : ∀ (n : String) (v : WalkVisit), v.info.name = n →
      (renderedContent w config v).isSome = true → countsFor w config n v = true := by
    intro n v hn hr
    simp [countsFor, hn, hr]
  have key : ∀ (area : String) (m : GoMap),
      (∀ n, m.lookup n = referenceMerge w config (areaVisits w area dirs) n) →
      (∀ n, (∃ v ∈ areaVisits w area (ownTierDirs w paths path),
          v.info.name = n ∧ (renderedContent w config v).isSome = true) →
        m.lookup n
          = referenceMerge w config (areaVisits w area (ownTierDirs w paths path)) n)
      ∧ (∀ n c v before after,
          areaVisits w area (ownTierDirs w paths path) = before ++ v :: after →
          v.info.name = n → renderedContent w config v = some c →
          (∀ u ∈ after, countsFor w config n u = false) → m.lookup n = some c) := by
    intro area m hm
    have h1 : ∀ n, (∃ v ∈ areaVisits w area (ownTierDirs w paths path),
          v.info.name = n ∧ (renderedContent w config v).isSome = true) →
        m.lookup n
          = referenceMerge w config (areaVisits w area (ownTierDirs w paths path)) n := by
      rintro n ⟨v, hv, hn, hr⟩
      rw [hm, hEq, areaVisits_append]
      exact referenceMerge_append_right w config _ _ n ⟨v, hv, hcounts n v hn hr⟩
    refine ⟨h1, ?_⟩
    intro n c v before after hw hn hc hafter
    have hv : v ∈ areaVisits w area (ownTierDirs w paths path) := by
      rw [hw]; simp
    rw [h1 n ⟨v, hv, hn, by rw [hc]; rfl⟩, hw]
    exact referenceMerge_last w config before after v n c hn hc hafter
  obtain ⟨f1, f2⟩ := key filesDir files hfiles
  obtain ⟨u1, u2⟩ := key unitsDir units hunits
  exact ⟨hEq, f1, u1, f2, u2⟩

/-- C21, instance: the unit `k.service` of the base tier of `00-worker` wins over the ones of
the common base tier and of the common single-node tier. -/
theorem own_tiers_override_common_witness :
    (platformDirsOf overrideWorld ["_base", "aws", "sno"] "o" "o/worker/00-worker" false).1
      = .ok ["o/common/_base", "o/common/sno", "o/worker/00-worker/_base"]
    ∧ overrideWorld.ReadFile "o/common/sno/units/k.service" = .ok "common-sno"
    ∧ ((∅ : GoMap).insert "k.service" "own-base").lookup "k.service" = some "own-base" :=
  ⟨by decide, by decide,
   (own_tiers_override_common overrideWorld exampleConfig ["_base", "aws", "sno"] "o"
      "o/worker/00-worker"
      ["o/common/_base", "o/common/sno", "o/worker/00-worker/_base"]
      ∅ ((∅ : GoMap).insert "k.service" "own-base") (by decide) (by rfl)).2.2.2.2
      "k.service" "own-base"
      { path := "o/worker/00-worker/_base/units/k.service",
        info := { name := "k.service", size := 1 } }
      [{ path := "o/worker/00-worker/_base/units", info := { name := "units", isDir := true } }]
      [] (by decide) rfl (by decide) (by decide)⟩

/-! ## The tier list of each name of a role -/

theorem resolveSequences_ok_tiers (w : World) (config : RenderConfig)
    (templateDir path : String) (gate flag : Bool) (r : List String × List String)
    (h : resolveSequences w config templateDir path gate = (.ok r, flag)) :
    ∃ p paths files units,
      platformStringFromControllerConfigSpec config.ControllerConfigSpec
        = (.ok p, config.ControllerConfigSpec)
      ∧ getPaths config p = some paths
      ∧ platformDirsOf w paths templateDir path gate
        = (.ok ((if gate then [] else commonTierDirs w paths templateDir)
            ++ ownTierDirs w paths path), true)
      ∧ mergeTiers w config
          ((if gate then [] else commonTierDirs w paths templateDir)
            ++ ownTierDirs w paths path) ∅ ∅ = .ok (files, units)
      ∧ r = (keySortVals files, keySortVals units)
      ∧ flag = true := by
  have hflag := resolveSequences_ok_flag w config templateDir path gate flag r h
  unfold resolveSequences at h
  rcases hS : platformStringFromControllerConfigSpec config.ControllerConfigSpec
    with ⟨_ | ps, ic⟩
  · rw [hS] at h; simp at h
  · obtain ⟨hic, -⟩ := platformString_ok_present _ _ _ hS
    subst hic
    rw [hS] at h
    simp only at h
    have hcfg : ({ config with ControllerConfigSpec := config.ControllerConfigSpec }
        : RenderConfig) = config := rfl
    rw [hcfg] at h
    rcases hGP : getPaths config ps with _ | paths
    · rw [hGP] at h; simp at h
    · rw [hGP] at h
      simp only at h
      have hPflag := platformDirsOf_ok_flag w paths templateDir path gate
      rcases hP : platformDirsOf w paths templateDir path gate with ⟨_ | dirs, g⟩
      · rw [hP] at h; simp at h
      · rw [hP] at h hPflag
        simp only at h
        have hg : g = true := hPflag dirs rfl
        have hdirs : dirs = (if gate then [] else commonTierDirs w paths templateDir)
            ++ ownTierDirs w paths path := by
          cases gate
          · have := platformDirsOf_open w paths templateDir path dirs (by rw [hP])
            simpa [commonTierDirs, ownTierDirs] using this
          · rw [platformDirsOf_closed] at hP
            have := collectDirs_ok w _ paths [] dirs (congrArg Prod.fst hP)
            simpa [ownTierDirs] using this
        rcases hM : mergeTiers w config dirs ∅ ∅ with e | ⟨a, b⟩
        · rw [hM] at h; simp at h
        · rw [hM] at h
          simp only [Prod.mk.injEq, Except.ok.injEq] at h
          refine ⟨ps, paths, a, b, rfl, hGP, ?_, ?_, h.1.symm, hflag⟩
          · rw [← hdirs, hP, hg]
          · rw [← hdirs]; exact hM

theorem generateMachineConfigForName_ok_tiers (w : World) (config : RenderConfig)
    (role name templateDir path : String) (gate flag : Bool) (mc : MachineConfig)
    (h : generateMachineConfigForName w config role name templateDir path gate
      = (.ok mc, flag)) :
    ∃ p paths files units ign mcfg,
      platformStringFromControllerConfigSpec config.ControllerConfigSpec
        = (.ok p, config.ControllerConfigSpec)
      ∧ getPaths config p = some paths
      ∧ platformDirsOf w paths templateDir path gate
        = (.ok ((if gate then [] else commonTierDirs w paths templateDir)
            ++ ownTierDirs w paths path), true)
      ∧ mergeTiers w config
          ((if gate then [] else commonTierDirs w paths templateDir)
            ++ ownTierDirs w paths path) ∅ ∅ = .ok (files, units)
      ∧ w.TranspileCoreOSConfigToIgn (keySortVals files) (keySortVals units) = .ok ign
      ∧ w.MachineConfigFromIgnConfig role name ign = .ok mcfg
      ∧ mc = { mcfg with Spec := { mcfg.Spec with
                OSImageURL := w.GetDefaultBaseImageContainer config.ControllerConfigSpec } }
      ∧ flag = true := by
  unfold generateMachineConfigForName at h
  rcases hR : resolveSequences w config templateDir path gate with ⟨_ | ⟨fs, us⟩, g⟩
  · rw [hR] at h; simp at h
  · obtain ⟨p, paths, files, units, hS, hGP, hPD, hM, hr, hg⟩ :=
      resolveSequences_ok_tiers w config templateDir path gate g _ hR
    rw [hR] at h
    simp only at h
    simp only [Prod.mk.injEq] at hr
    rcases hT : w.TranspileCoreOSConfigToIgn fs us with e | ign
    · rw [hT] at h; simp at h
    · rw [hT] at h
      simp only at h
      rcases hB : w.MachineConfigFromIgnConfig role name ign with e | m
      · rw [hB] at h; simp at h
      · rw [hB] at h
        simp only [Prod.mk.injEq, Except.ok.injEq] at h
        refine ⟨p, paths, files, units, ign, m, hS, hGP, hPD, hM, ?_, hB, ?_, ?_⟩
        · rw [← hr.1, ← hr.2]; exact hT
        · rw [← h.1, hS]
        · rw [← h.2, hg]

theorem getPaths_plain (config : RenderConfig) (ic : ControllerConfigSpec)
    (p : String) (paths : List String)
    (hS : platformStringFromControllerConfigSpec config.ControllerConfigSpec = (.ok p, ic))
    (hG : getPaths config p = some paths) : ∀ t ∈ paths, isPlainName t := by
  have hp := platformString_ok_mem _ _ _ hS
  have hpp : isPlainName p := by
    simp only [List.mem_cons, List.mem_singleton, List.mem_nil_iff, or_false] at hp
    rcases hp with h | h | h | h | h | h | h | h | h | h | h | h | h <;> rw [h] <;> decide
  unfold getPaths at hG
  cases hI : config.ControllerConfigSpec.Infra with
  | none => rw [hI] at hG; simp at hG
  | some infra =>
    rw [hI] at hG
    simp only at hG
    cases hP : infra.Status.PlatformStatus with
    | none => rw [hP] at hG; simp at hG
    | some ps =>
      rw [hP] at hG
      simp only [Option.some.injEq] at hG
      have hsub : ∀ t ∈ paths,
          t = platformBase ∨ t = platformOnPrem ∨ t = p ∨ t = sno := by
        intro t ht
        rw [← hG] at ht
        split_ifs at ht <;> simp at ht <;> tauto
      intro t ht
      rcases hsub t ht with h | h | h | h
      · rw [h]; decide
      · rw [h]; decide
      · rw [h]; exact hpp
      · rw [h]; decide

/-- C9: in a successful run of `GenerateMachineConfigsForRole` over a role directory with at
least one name directory, the name directories are resolved in the order of the listing, the
first with the flag `commonAdded` false and every later one with the flag true.  For each of
them the tier list computed by `generateMachineConfigForName` is the one the merge runs
over, and the machine config of the name is built from the sorted values of that merge: for
the first name the list is the existing common tier directories followed by the existing
tier directories of the name, for every later name it is the existing tier directories of
the name alone.  Every call leaves the flag true, the first one whether or not a common tier
directory exists.  The listed names being plain names, as a directory listing returns
them, no tier directory of a listed name is the common directory of a tier.  When the
listing is sorted by name, the first name directory is the least one. -/
theorem common_once (w : World) (config : RenderConfig) (role templateDir : String)
    (infos : List FileInfo) (cfgs : List MachineConfig) (first : FileInfo)
    (later : List FileInfo)
    (hRead : w.ReadDir (filepathJoin [templateDir, rolePathOf role]) = .ok infos)
    (hPlain : ∀ i ∈ infos, isPlainName i.name)
    (hRun : GenerateMachineConfigsForRole w config role templateDir = .ok cfgs)
    (hDirs : infos.filter (fun i => i.isDir) = first :: later) :
    ∃ p paths,
      platformStringFromControllerConfigSpec config.ControllerConfigSpec
        = (.ok p, config.ControllerConfigSpec)
      ∧ getPaths config p = some paths
      ∧ List.Forall₂
        (fun (dg : FileInfo × Bool) (out : MachineConfig) =>
          ∃ files units ign mcfg mc,
            platformDirsOf w paths templateDir
                (filepathJoin [filepathJoin [templateDir, rolePathOf role], dg.1.name]) dg.2
              = (.ok ((if dg.2 then [] else commonTierDirs w paths templateDir)
                  ++ ownTierDirs w paths
                    (filepathJoin [filepathJoin [templateDir, rolePathOf role], dg.1.name])),
                 true)
            ∧ mergeTiers w config
                ((if dg.2 then [] else commonTierDirs w paths templateDir)
                  ++ ownTierDirs w paths
                    (filepathJoin [filepathJoin [templateDir, rolePathOf role], dg.1.name]))
                ∅ ∅ = .ok (files, units)
            ∧ w.TranspileCoreOSConfigToIgn (keySortVals files) (keySortVals units) = .ok ign
            ∧ w.MachineConfigFromIgnConfig role dg.1.name ign = .ok mcfg
            ∧ mc = { mcfg with Spec := { mcfg.Spec with
                OSImageURL := w.GetDefaultBaseImageContainer config.ControllerConfigSpec } }
            ∧ generateMachineConfigForName w config role dg.1.name templateDir
                (filepathJoin [filepathJoin [templateDir, rolePathOf role], dg.1.name]) dg.2
              = (.ok mc, true)
            ∧ out = if dg.1.name = baseMasterKubeletMC ∨ dg.1.name = baseWorkerKubeletMC
                then updateMCwithDefaultCgroupsVersion mc else mc)
        ((first, false) :: later.map (fun d => (d, true))) cfgs
      ∧ (∀ d ∈ first :: later, isPlainName d.name ∧ ∀ t ∈ paths, isPlainName t ∧
          ∀ x ∈ ownTierDirs w paths
              (filepathJoin [filepathJoin [templateDir, rolePathOf role], d.name]),
            x ≠ filepathJoin [templateDir, "common", t])
      ∧ (infos.Pairwise (fun a b => strLT a.name b.name) →
          ∀ d ∈ later, strLT first.name d.name) := by
  unfold GenerateMachineConfigsForRole at hRun
  simp only [hRead] at hRun
  obtain ⟨mcs, h1, h2⟩ := roleLoop_from w config role templateDir _ infos false [] cfgs hRun
  rw [hDirs] at h2
  simp only [List.nil_append] at h1
  subst h1
  have hHead : ∃ mc, generateMachineConfigForName w config role first.name templateDir
      (filepathJoin [filepathJoin [templateDir, rolePathOf role], first.name]) false
        = (.ok mc, true) := by
    cases h2 with
    | cons hd _ => obtain ⟨mc, hmc, -⟩ := hd; exact ⟨mc, hmc⟩
  obtain ⟨mc0, hmc0⟩ := hHead
  obtain ⟨p, paths, -, -, -, -, hS, hGP, -⟩ :=
    generateMachineConfigForName_ok_tiers w config role first.name templateDir _ false true
      mc0 hmc0
  refine ⟨p, paths, hS, hGP, ?_, ?_, ?_⟩
  · refine h2.imp ?_
    rintro dg out ⟨mc, hmc, hout⟩
    obtain ⟨p', paths', files, units, ign, mcfg, hS', hGP', hPD, hM, hT, hB, hmcEq, -⟩ :=
      generateMachineConfigForName_ok_tiers w config role dg.1.name templateDir _ dg.2 true
        mc hmc
    have hp : p' = p := by
      rw [hS] at hS'
      simp only [Prod.mk.injEq, Except.ok.injEq, and_true] at hS'
      exact hS'.symm
    subst hp
    have hpaths : paths' = paths := by
      rw [hGP] at hGP'
      exact (Option.some.inj hGP').symm
    subst hpaths
    exact ⟨files, units, ign, mcfg, mc, hPD, hM, hT, hB, hmcEq, hmc, hout⟩
  · intro d hd
    have hmem : d ∈ infos := by
      have : d ∈ infos.filter (fun i => i.isDir) := by rw [hDirs]; exact hd
      exact (List.mem_filter.mp this).1
    refine ⟨hPlain d hmem, ?_⟩
    intro t ht
    refine ⟨getPaths_plain config _ p paths hS hGP t ht, ?_⟩
    intro x hx
    unfold ownTierDirs at hx
    obtain ⟨y, _, hy⟩ := List.mem_map.mp hx
    rw [← hy]
    exact ownDir_ne_commonDir templateDir role d.name y t
  · intro hs d hd
    have hsub : (first :: later).Pairwise (fun a b => strLT a.name b.name) := by
      rw [← hDirs]
      exact hs.sublist (List.filter_sublist _)
    exact List.rel_of_pairwise_cons hsub hd

/-- C9, instance: in the example repository the role `worker` lists `00-worker`,
`01-worker-kubelet` and a regular file; the common unit `crio` reaches the machine config of
`00-worker`, the first name, and not the one of `01-worker-kubelet`. -/
theorem common_once_witness :
    (∃ p paths,
      platformStringFromControllerConfigSpec exampleConfig.ControllerConfigSpec
        = (.ok p, exampleConfig.ControllerConfigSpec)
      ∧ getPaths exampleConfig p = some paths
      ∧ List.Forall₂
        (fun (dg : FileInfo × Bool) (out : MachineConfig) =>
          ∃ files units ign mcfg mc,
            platformDirsOf exampleWorld paths "t"
                (filepathJoin [filepathJoin ["t", rolePathOf "worker"], dg.1.name]) dg.2
              = (.ok ((if dg.2 then [] else commonTierDirs exampleWorld paths "t")
                  ++ ownTierDirs exampleWorld paths
                    (filepathJoin [filepathJoin ["t", rolePathOf "worker"], dg.1.name])),
                 true)
            ∧ mergeTiers exampleWorld exampleConfig
                ((if dg.2 then [] else commonTierDirs exampleWorld paths "t")
                  ++ ownTierDirs exampleWorld paths
                    (filepathJoin [filepathJoin ["t", rolePathOf "worker"], dg.1.name]))
                ∅ ∅ = .ok (files, units)
            ∧ exampleWorld.TranspileCoreOSConfigToIgn (keySortVals files) (keySortVals units)
              = .ok ign
            ∧ exampleWorld.MachineConfigFromIgnConfig "worker" dg.1.name ign = .ok mcfg
            ∧ mc = { mcfg with Spec := { mcfg.Spec with
                OSImageURL := exampleWorld.GetDefaultBaseImageContainer
                  exampleConfig.ControllerConfigSpec } }
            ∧ generateMachineConfigForName exampleWorld exampleConfig "worker" dg.1.name "t"
                (filepathJoin [filepathJoin ["t", rolePathOf "worker"], dg.1.name]) dg.2
              = (.ok mc, true)
            ∧ out = if dg.1.name = baseMasterKubeletMC ∨ dg.1.name = baseWorkerKubeletMC
                then updateMCwithDefaultCgroupsVersion mc else mc)
        [({ name := "00-worker", isDir := true }, false),
         ({ name := "01-worker-kubelet", isDir := true }, true)]
        [{ Name := "00-worker",
           Labels := [("machineconfiguration.openshift.io/role", "worker")],
           Spec := { OSImageURL := "base-image", Config := "files:A0,C2,D1;units:crio" } },
         { Name := "01-worker-kubelet",
           Labels := [("machineconfiguration.openshift.io/role", "worker")],
           Spec := { OSImageURL := "base-image", Config := "files:;units:kubelet",
                     KernelArguments := ["systemd.unified_cgroup_hierarchy=0",
                       "systemd.legacy_systemd_cgroup_controller=1"] } }]
      ∧ (∀ d ∈ [({ name := "00-worker", isDir := true } : FileInfo),
          { name := "01-worker-kubelet", isDir := true }],
          isPlainName d.name ∧ ∀ t ∈ paths, isPlainName t ∧
          ∀ x ∈ ownTierDirs exampleWorld paths
              (filepathJoin [filepathJoin ["t", rolePathOf "worker"], d.name]),
            x ≠ filepathJoin ["t", "common", t])
      ∧ (([{ name := "00-worker", isDir := true },
           { name := "01-worker-kubelet", isDir := true },
           { name := "README.md", size := 10 }] : List FileInfo).Pairwise
            (fun a b => strLT a.name b.name) →
          ∀ d ∈ [({ name := "01-worker-kubelet", isDir := true } : FileInfo)],
            strLT "00-worker" d.name))
    ∧ getPaths exampleConfig "aws" = some ["_base", "aws", "sno"]
    ∧ commonTierDirs exampleWorld ["_base", "aws", "sno"] "t" = ["t/common/_base"]
    ∧ ownTierDirs exampleWorld ["_base", "aws", "sno"] "t/worker/00-worker"
        = ["t/worker/00-worker/_base", "t/worker/00-worker/aws", "t/worker/00-worker/sno"]
    ∧ ownTierDirs exampleWorld ["_base", "aws", "sno"] "t/worker/01-worker-kubelet"
        = ["t/worker/01-worker-kubelet/_base"]
    ∧ resolveSequences exampleWorld exampleConfig "t" "t/worker/00-worker" false
        = (.ok (["A0", "C2", "D1"], ["crio"]), true)
    ∧ resolveSequences exampleWorld exampleConfig "t" "t/worker/01-worker-kubelet" true
        = (.ok ([], ["kubelet"]), true) :=
  ⟨common_once exampleWorld exampleConfig "worker" "t"
    [{ name := "00-worker", isDir := true }, { name := "01-worker-kubelet", isDir := true },
     { name := "README.md", size := 10 }]
    [{ Name := "00-worker",
       Labels := [("machineconfiguration.openshift.io/role", "worker")],
       Spec := { OSImageURL := "base-image", Config := "files:A0,C2,D1;units:crio" } },
     { Name := "01-worker-kubelet",
       Labels := [("machineconfiguration.openshift.io/role", "worker")],
       Spec := { OSImageURL := "base-image", Config := "files:;units:kubelet",
                 KernelArguments := ["systemd.unified_cgroup_hierarchy=0",
                   "systemd.legacy_systemd_cgroup_controller=1"] } }]
    { name := "00-worker", isDir := true } [{ name := "01-worker-kubelet", isDir := true }]
    (by decide) (by decide) (by decide) (by decide),
   by decide, by decide, by decide, by decide, by decide, by decide⟩

/-! ## The walk of a file tree and the order of its listings -/

theorem walkEntries_eq_map (path : String) :
    ∀ es : List (String × FsNode), walkEntries path es = es.map (walkEntry path)
  | [] => by simp [walkEntries]
  | e :: rest => by simp [walkEntries, walkEntries_eq_map path rest]

theorem walkEntry_fst (path : String) (e : String × FsNode) : (walkEntry path e).1 = e.1 := by
  obtain ⟨n, c⟩ := e
  simp [walkEntry]

theorem walkEntries_names (path : String) (es : List (String × FsNode)) :
    (walkEntries path es).map Prod.fst = es.map Prod.fst := by
  rw [walkEntries_eq_map, List.map_map]
  exact List.map_congr_left (fun e _ => walkEntry_fst path e)

theorem lookup_perm {β : Type} (n : String) {l l' : List (String × β)} (hp : l.Perm l') :
    (l.map Prod.fst).Nodup → l.lookup n = l'.lookup n := by
  induction hp with
  | nil => intro _; rfl
  | cons x _ ih =>
    intro hnd
    obtain ⟨k, v⟩ := x
    simp only [List.map_cons, List.nodup_cons] at hnd
    simp only [List.lookup_cons]
    rw [ih hnd.2]
  | swap x y l =>
    intro hnd
    obtain ⟨k, v⟩ := x
    obtain ⟨k', v'⟩ := y
    simp only [List.map_cons, List.nodup_cons, List.mem_cons, not_or] at hnd
    have hne : k' ≠ k := hnd.1.1
    have e1 : (k == k') = false := beq_false_of_ne (Ne.symm hne)
    have e2 : (k' == k) = false := beq_false_of_ne hne
    simp only [List.lookup_cons]
    by_cases h1 : n = k
    · subst h1
      simp [e1]
    · by_cases h2 : n = k'
      · subst h2
        simp [e2]
      · have e3 : (n == k) = false := beq_false_of_ne h1
        have e4 : (n == k') = false := beq_false_of_ne h2
        simp [e3, e4]
  | trans h1 _ ih1 ih2 =>
    intro hnd
    rw [ih1 hnd]
    exact ih2 ((h1.map Prod.fst).nodup_iff.mp hnd)

theorem walkNode_relisted {t t' : FsNode} (h : Relisted t t') :
    DistinctNames t →
      DistinctNames t' ∧ ∀ path name, walkNode path name t = walkNode path name t' := by
  induction h with
  | refl t => exact fun hd => ⟨hd, fun _ _ => rfl⟩
  | trans _ _ ih1 ih2 =>
    intro hd
    obtain ⟨hb, h1⟩ := ih1 hd
    obtain ⟨hc, h2⟩ := ih2 hb
    exact ⟨hc, fun p n => (h1 p n).trans (h2 p n)⟩
  | perm es es' hp =>
    intro hd
    cases hd with
    | dir _ hnd hch =>
      refine ⟨DistinctNames.dir es' ((hp.map Prod.fst).nodup_iff.mp hnd)
        (fun e he => hch e (hp.mem_iff.mpr he)), ?_⟩
      intro path name
      simp only [walkNode]
      rw [sortStrings_eq_of_perm (hp.map Prod.fst)]
      have hl : ∀ n, (walkEntries path es).lookup n = (walkEntries path es').lookup n := by
        intro n
        apply lookup_perm n
        · rw [walkEntries_eq_map, walkEntries_eq_map]
          exact hp.map _
        · rw [walkEntries_names]
          exact hnd
      simp only [hl]
  | child pre post n c c' _ ih =>
    intro hd
    cases hd with
    | dir _ hnd hch =>
      obtain ⟨hc', hw⟩ := ih (hch (n, c) (by simp))
      refine ⟨DistinctNames.dir _ (by simpa using hnd) ?_, ?_⟩
      · intro e he
        simp only [List.mem_append, List.mem_cons] at he
        rcases he with he | he | he
        · exact hch e (by simp [he])
        · rw [he]; exact hc'
        · exact hch e (by simp [he])
      · intro path name
        have hE : walkEntries path (pre ++ (n, c) :: post)
            = walkEntries path (pre ++ (n, c') :: post) := by
          simp only [walkEntries_eq_map, List.map_append, List.map_cons, walkEntry, hw]
        simp only [walkNode, hE, List.map_append, List.map_cons]

theorem filepathWalk_relisted (tree tree' : String → FsNode)
    (hDistinct : ∀ p, DistinctNames (tree p)) (hRelisted : ∀ p, Relisted (tree p) (tree' p)) :
    filepathWalk tree' = filepathWalk tree := by
  funext root
  unfold filepathWalk
  exact ((walkNode_relisted (hRelisted root) (hDistinct root)).2 root (baseName root)).symm

/-- C8: for a fixed repository and configuration the files and units sequences of a role
and name do not depend on the order in which the directories are listed.  Let `tree` give
the file tree found at each root, every directory holding pairwise distinct names, and let
`tree'` hold the same files with the entries of any of its directories, at any depth,
listed in another order.  Then the resolution over the walks of `tree'` has the outcome of
the resolution over the walks of `tree`: the same two sequences or the same error, and the
same flag.  Moreover the two sequences depend on the merged sets only through their
lookups, not on the iteration order of the maps. -/
theorem sequences_independent_of_listing (w : World) (config : RenderConfig)
    (templateDir path : String) (commonAdded : Bool) (tree tree' : String → FsNode)
    (hDistinct : ∀ p, DistinctNames (tree p))
    (hRelisted : ∀ p, Relisted (tree p) (tree' p)) :
    resolveSequences { w with Walk := filepathWalk tree' } config templateDir path commonAdded
      = resolveSequences { w with Walk := filepathWalk tree } config templateDir path
          commonAdded
    ∧ (∀ files files' units units' : GoMap,
        (∀ k, files'.lookup k = files.lookup k) → (∀ k, units'.lookup k = units.lookup k) →
        (keySortVals files', keySortVals units') = (keySortVals files, keySortVals units)) := by
  refine ⟨?_, fun files files' units units' hf hu => by
    rw [keySortVals_congr hf, keySortVals_congr hu]⟩
  rw [filepathWalk_relisted tree tree' hDistinct hRelisted]

/-- C8, instance: the area `files` of a tier holds the subdirectories `x` and `y`, each with
a file `k.conf`; whether the area lists `x` or `y` first, the walk visits `x` before `y`, and
the files sequence is the content of `y/k.conf`. -/
theorem sequences_independent_of_listing_witness :
    resolveSequences (nestedWorld nestedTreeRelisted) exampleConfig "r" "r/worker/00-worker"
        true = (.ok (["Y"], []), true)
    ∧ resolveSequences (nestedWorld nestedTree) exampleConfig "r" "r/worker/00-worker" true
        = (.ok (["Y"], []), true)
    ∧ (filepathWalk nestedTreeRelisted "r/worker/00-worker/_base/files").map
          (fun v => (v.path, v.info.name))
        = [("r/worker/00-worker/_base/files", "files"),
           ("r/worker/00-worker/_base/files/x", "x"),
           ("r/worker/00-worker/_base/files/x/k.conf", "k.conf"),
           ("r/worker/00-worker/_base/files/y", "y"),
           ("r/worker/00-worker/_base/files/y/k.conf", "k.conf")] :=
  ⟨(sequences_independent_of_listing (nestedWorld nestedTree) exampleConfig "r"
      "r/worker/00-worker" true nestedTree nestedTreeRelisted
      (fun p => by
        unfold nestedTree
        split
        · exact DistinctNames.dir _ (by decide) (fun e he => by
            simp only [List.mem_cons, List.mem_singleton, List.mem_nil_iff, or_false] at he
            rcases he with he | he <;> rw [he] <;>
              exact DistinctNames.dir _ (by decide) (fun e he => by
                simp only [List.mem_singleton] at he
                rw [he]
                exact DistinctNames.file 1))
        · exact DistinctNames.broken)
      (fun p => by
        unfold nestedTree nestedTreeRelisted
        split
        · exact Relisted.perm _ _ (List.Perm.swap _ _ _)
        · exact Relisted.refl _)).1.trans (by decide),
   by decide, by decide⟩

end Render
